import Mathlib

/-!
# Verification development for the capture ring and the policy engine

Shallow embedding of

* `userspace/libsanalyzer/src/memdumper.cpp` (namespace `memdumper`): the rotating ring of
  shared-memory segments and the capture jobs that scan it;
* `userspace/dragent/security_policy.cpp` (namespace `secpolicy`): matching of events against a
  policy, the actions of a matched event and their deferred emission.

Unsigned 64-bit members are natural numbers reduced modulo `2 ^ 64` where the source can wrap.
Answers of the operating system, of the inspector and of the other collaborators are explicit
arguments of the embedded functions.
-/

namespace memdumper

/-- Modulus of `uint64_t` arithmetic. -/
def U64 : Nat := 2 ^ 64

/-- Subtraction of `uint64_t` values (wraps around). -/
def u64_sub (a b : Nat) : Nat := (a % U64 + U64 - b % U64) % U64

/-- Addition of `uint64_t` values (wraps around). -/
def u64_add (a b : Nat) : Nat := (a + b) % U64

/-- Multiplication of `uint64_t` values (wraps around). -/
def u64_mul (a b : Nat) : Nat := (a * b) % U64

/-- The errno value `EINTR`. -/
def EINTR : Int := 4

/-- Return codes of the capture library (`scap.h`). -/
def SCAP_SUCCESS : Int := 0

/-- Return code: timeout. -/
def SCAP_TIMEOUT : Int := -1

/-- Return code: end of file. -/
def SCAP_EOF : Int := 6

/-- One segment of the ring (`sinsp_memory_dumper_state`). The class is declared in
`memdumper.h`; the members kept are the ones `memdumper.cpp` reads: the name of the
shared-memory file, the buffer size given to the constructor, whether the segment is open, the
number of events written to it and the largest timestamp it holds. -/
structure sinsp_memory_dumper_state where
  m_shm_name : String
  m_bufsize : Nat
  m_is_open : Bool
  m_written_events : Nat
  m_begin_ts : Nat
  m_end_ts : Nat
deriving DecidableEq, Repr

/-- Constructor call `make_shared<sinsp_memory_dumper_state>(m_inspector, bsize, name)`: a
segment that has not been opened yet. -/
def sinsp_memory_dumper_state.create (bsize : Nat) (name : String) : sinsp_memory_dumper_state :=
  { m_shm_name := name, m_bufsize := bsize, m_is_open := false, m_written_events := 0,
    m_begin_ts := 0, m_end_ts := 0 }

/-- Modelled from the spec: `sinsp_memory_dumper_state::open` is declared in `memdumper.h`,
which is not part of the sources. The spec says that rotation "reopens it in a zeroed state":
whatever the segment held is discarded. `ok` is whether the shared-memory file could be
created; the call returns it. -/
def sinsp_memory_dumper_state.reopen (st : sinsp_memory_dumper_state) (ok : Bool) :
    Bool × sinsp_memory_dumper_state :=
  (ok, { st with m_is_open := ok, m_written_events := 0, m_begin_ts := 0, m_end_ts := 0 })

/-- States of a capture job. -/
inductive job_state where
  | ST_INPROGRESS
  | ST_DONE_OK
  | ST_DONE_ERROR
  | ST_STOPPPED
deriving DecidableEq, Repr

/-- A capture job (`sinsp_memory_dumper_job`). `m_dumper` says whether the job owns a writer,
`m_dumped` lists the timestamps of the events handed to `m_dumper->dump`, in order. -/
structure sinsp_memory_dumper_job where
  m_start_time : Nat
  m_end_time : Nat
  m_filename : String
  m_filterstr : String
  m_filter : Bool
  m_state : job_state
  m_lasterr : String
  m_n_events : Nat
  m_dumper : Bool
  m_dumped : List Nat
deriving DecidableEq, Repr

/-- The dumper (`sinsp_memory_dumper`). `m_states` is the deque of segments, front first.
`m_active_state` is the iterator to the active segment, kept as its index. `m_reader_state` is
the reverse iterator of the reader, kept as its distance to `rend()`: `0` is `rend()`,
`m_states.length` is `rbegin()`, and it designates the segment of index `m_reader_state - 1`.
`m_cf` and `m_f` say whether the file pointer is non-null. -/
structure sinsp_memory_dumper where
  m_inspector_is_dumping : Bool
  m_file_id : Nat
  m_f : Bool
  m_cf : Bool
  m_disabled : Bool
  m_disabled_by_autodisable : Bool
  m_last_autodisable_ns : Nat
  m_switches_to_go : Nat
  m_cur_dump_size : Nat
  m_max_disk_size : Nat
  m_bsize : Nat
  m_delayed_switch_states_needed : Bool
  m_delayed_switch_states_ready : Bool
  m_delayed_switch_states_missed_events : Nat
  m_processed_events_between_switch_states : Nat
  m_autodisable_threshold_reached_count : Nat
  m_autodisable : Bool
  m_capture_headers_percentage_threshold : Nat
  m_min_time_between_switch_states_ns : Nat
  m_re_enable_interval_ns : Nat
  m_dump_buffer_headers_size : Nat
  m_last_switch_state_ns : Nat
  m_states : List sinsp_memory_dumper_state
  m_active_state : Nat
  m_reader_state : Nat
  m_reader_active : Bool
deriving DecidableEq, Repr

/-- The constructor `sinsp_memory_dumper::sinsp_memory_dumper`. The members it does not
initialise hold whatever `junk` holds. -/
def sinsp_memory_dumper.construct (junk : sinsp_memory_dumper) : sinsp_memory_dumper :=
  { junk with
    m_file_id := 0, m_f := false, m_cf := false, m_disabled := false,
    m_disabled_by_autodisable := false, m_last_autodisable_ns := 0, m_switches_to_go := 0,
    m_delayed_switch_states_needed := false, m_delayed_switch_states_ready := false,
    m_processed_events_between_switch_states := 0,
    m_autodisable_threshold_reached_count := 0,
    m_states := [] }

/-- What the operating system answers during `init`: whether `shm_open` of the probe file
succeeds, the return value of the `k`-th call of `posix_fallocate` (counted from 1), and
whether opening the `i`-th created segment succeeds. -/
structure init_env where
  shm_open_ok : Bool
  fallocate_rc : Nat → Int
  open_ok : Nat → Bool

/-- The retry loop of `init`:
`for (attempts = 1; rc == EINTR && attempts <= max_init_attempts; attempts++)`.
`n` bounds the number of iterations left; the loop runs at most `max_init_attempts` times. -/
def init_fallocate (env : init_env) (max_init_attempts : Nat) : Nat → Nat → Int → Int
  | 0, _, rc => rc
  | n + 1, attempts, rc =>
    if rc = EINTR ∧ attempts ≤ max_init_attempts then
      init_fallocate env max_init_attempts n (attempts + 1) (env.fallocate_rc attempts)
    else rc

/-- One iteration of the loop of `init` that creates a segment, appends it to the deque and
opens it. -/
def init_add_state (env : init_env) (i : Nat) (d : sinsp_memory_dumper) : sinsp_memory_dumper :=
  { d with
    m_file_id := d.m_file_id + 1,
    m_states := d.m_states ++
      [((sinsp_memory_dumper_state.create d.m_bsize
        ("/dragent-memdumper-" ++ toString d.m_file_id)).reopen (env.open_ok i)).2],
    m_disabled := if env.open_ok i then d.m_disabled else true }

/-- The start of `init`: the configuration is stored. -/
def init_config (d : sinsp_memory_dumper) (autodisable : Bool)
    (capture_headers_percentage_threshold time_between_switch_states_ms
      re_enable_interval_minutes : Nat) : sinsp_memory_dumper :=
  { d with
    m_autodisable := autodisable,
    m_capture_headers_percentage_threshold := capture_headers_percentage_threshold,
    m_min_time_between_switch_states_ns := u64_mul time_between_switch_states_ms 1000000,
    m_re_enable_interval_ns := u64_mul (u64_mul re_enable_interval_minutes 60) 1000000000,
    m_dump_buffer_headers_size := 0 }

/-- Whether the probe allocation of `init` fails: `shm_open` fails, or the retry loop ends
with a return value other than `0`. -/
def init_probe_fails (max_init_attempts : Nat) (env : init_env) : Bool :=
  if env.shm_open_ok = false then true
  else decide (init_fallocate env max_init_attempts max_init_attempts 1 EINTR ≠ 0)

/-- The probe allocation of `init`: the dumper is disabled when it fails. -/
def init_probe (d : sinsp_memory_dumper) (max_init_attempts : Nat) (env : init_env) :
    sinsp_memory_dumper :=
  if init_probe_fails max_init_attempts env = true then { d with m_disabled := true } else d

/-- The assignments of `init` that precede the creation of the segments. -/
def init_sizes (d : sinsp_memory_dumper) (bufsize max_disk_size : Nat) : sinsp_memory_dumper :=
  { d with
    m_max_disk_size := max_disk_size, m_inspector_is_dumping := true, m_bsize := bufsize / 3 }

/-- The end of `init`: the front segment is the active one and no reader runs. -/
def init_iterators (d : sinsp_memory_dumper) : sinsp_memory_dumper :=
  { d with m_active_state := 0, m_reader_state := 0, m_reader_active := false, m_f := false }

/-- The function `sinsp_memory_dumper::init`. -/
def init (d : sinsp_memory_dumper) (bufsize max_disk_size max_init_attempts : Nat)
    (autodisable : Bool) (capture_headers_percentage_threshold : Nat)
    (time_between_switch_states_ms re_enable_interval_minutes : Nat) (env : init_env) :
    sinsp_memory_dumper :=
  if (init_probe (init_config d autodisable capture_headers_percentage_threshold
      time_between_switch_states_ms re_enable_interval_minutes)
      max_init_attempts env).m_disabled then
    init_probe (init_config d autodisable capture_headers_percentage_threshold
      time_between_switch_states_ms re_enable_interval_minutes) max_init_attempts env
  else
    init_iterators (init_add_state env 1 (init_add_state env 0 (init_sizes
      (init_probe (init_config d autodisable capture_headers_percentage_threshold
        time_between_switch_states_ms re_enable_interval_minutes) max_init_attempts env)
      bufsize max_disk_size)))

/-- The first `if` chain of `check_autodisable`: the new value of
`m_autodisable_threshold_reached_count`. The result is `none` when the source divides by a
segment size of zero or dereferences `m_active_state` while it designates no segment. -/
def autodisable_count (d : sinsp_memory_dumper) (sys_ts_ns : Nat) : Option Nat :=
  if u64_sub sys_ts_ns d.m_last_switch_state_ns < d.m_min_time_between_switch_states_ns then
    some (d.m_autodisable_threshold_reached_count + 1)
  else
    match d.m_states.get? d.m_active_state with
    | none => none
    | some st =>
      if st.m_bufsize = 0 then none
      else if u64_mul d.m_dump_buffer_headers_size 100 / st.m_bufsize >
          d.m_capture_headers_percentage_threshold then
        some (d.m_autodisable_threshold_reached_count + 1)
      else some 0

/-- The function `sinsp_memory_dumper::check_autodisable`; `none` as for
`autodisable_count`. -/
def check_autodisable (d : sinsp_memory_dumper) (evt_ts_ns sys_ts_ns : Nat) :
    Option sinsp_memory_dumper :=
  if d.m_autodisable then
    match autodisable_count d sys_ts_ns with
    | none => none
    | some c =>
      if c ≥ 10 then
        some { d with
          m_disabled := true, m_disabled_by_autodisable := true,
          m_last_autodisable_ns := evt_ts_ns, m_autodisable_threshold_reached_count := 0 }
      else some { d with m_autodisable_threshold_reached_count := c }
  else some d

/-- The part of `switch_states` that clears a pending delayed switch. -/
def clear_delayed_switch (d : sinsp_memory_dumper) : sinsp_memory_dumper :=
  if d.m_delayed_switch_states_needed then
    { d with
      m_delayed_switch_states_needed := false, m_delayed_switch_states_ready := false,
      m_delayed_switch_states_missed_events := 0 }
  else d

/-- The part of `switch_states` guarded by `if (m_cf)`: the size of the dump grows by one
segment, one switch less is to go, and the file is closed when no switch is left or the dump is
too big. -/
def save_capture (d : sinsp_memory_dumper) : sinsp_memory_dumper :=
  if d.m_cf then
    if u64_sub d.m_switches_to_go 1 = 0 ∨
        u64_add d.m_cur_dump_size d.m_bsize ≥ d.m_max_disk_size then
      { d with
        m_cur_dump_size := u64_add d.m_cur_dump_size d.m_bsize,
        m_switches_to_go := u64_sub d.m_switches_to_go 1,
        m_cf := false }
    else
      { d with
        m_cur_dump_size := u64_add d.m_cur_dump_size d.m_bsize,
        m_switches_to_go := u64_sub d.m_switches_to_go 1 }
  else d

/-- The part of `switch_states` that changes the deque: a new segment at the front when a
reader is active and fewer than three segments exist, a stall when a reader is active and
three exist, and otherwise the back segment moved to the front. `emplace_front` leaves the
reader's iterator on the segment it designated, one step further from `rend()`. The result is
`none` when `back()` is called on an empty deque. -/
def rotate_states (d : sinsp_memory_dumper) : Option sinsp_memory_dumper :=
  if d.m_reader_active then
    if d.m_states.length < 3 then
      some { d with
        m_file_id := d.m_file_id + 1,
        m_states :=
          sinsp_memory_dumper_state.create d.m_bsize
            ("/dragent-memdumper-" ++ toString d.m_file_id) :: d.m_states,
        m_reader_state := d.m_reader_state + 1 }
    else
      some { d with
        m_delayed_switch_states_needed := true, m_delayed_switch_states_ready := false,
        m_delayed_switch_states_missed_events := 0 }
  else
    match d.m_states.getLast? with
    | none => none
    | some st => some { d with m_states := st :: d.m_states.dropLast }

/-- The end of `switch_states`: the front segment becomes the active one and is reopened;
the dumper is disabled when that fails. The result is `none` when the deque is empty. -/
def reopen_first (d : sinsp_memory_dumper) (open_ok : Bool) : Option sinsp_memory_dumper :=
  match d.m_states with
  | [] => none
  | st :: rest =>
    some { d with
      m_active_state := 0,
      m_states := (st.reopen open_ok).2 :: rest,
      m_disabled := if (st.reopen open_ok).1 then d.m_disabled else true }

/-- The assignment `m_last_switch_state_ns = sys_ts_ns` of `switch_states`. -/
def set_last_switch_state (d : sinsp_memory_dumper) (sys_ts_ns : Nat) : sinsp_memory_dumper :=
  { d with m_last_switch_state_ns := sys_ts_ns }

/-- The function `sinsp_memory_dumper::switch_states`. `sys_ts_ns` is the value of
`sinsp_utils::get_current_time_ns()` and `open_ok` is whether reopening the front segment
succeeds. -/
def switch_states (d : sinsp_memory_dumper) (ts sys_ts_ns : Nat) (open_ok : Bool) :
    Option sinsp_memory_dumper :=
  match check_autodisable d ts sys_ts_ns with
  | none => none
  | some d1 =>
    match rotate_states (save_capture (clear_delayed_switch
        (set_last_switch_state d1 sys_ts_ns))) with
    | none => none
    | some d3 => reopen_first d3 open_ok

/-- The function `sinsp_memory_dumper::close`. -/
def close (d : sinsp_memory_dumper) (sys_ts_ns : Nat) (open_ok : Bool) :
    Option sinsp_memory_dumper :=
  match switch_states d 0 sys_ts_ns open_ok with
  | none => none
  | some d1 => some { d1 with m_inspector_is_dumping := false }

/-- One answer of `inspector.next(&ev)`: the return code, the timestamp of the event it yields
and the value of `inspector.get_bytes_read()` after the call. -/
structure next_result where
  res : Int
  ts : Nat
  bytes_read : Nat
deriving DecidableEq, Repr

/-- The inspector that `apply_job_filter` opens on a segment: its read position and the
answers its next calls of `next` give, in order; after them it answers `SCAP_EOF`. -/
structure reader_inspector where
  bytes_read : Nat
  pending : List next_result
deriving DecidableEq, Repr

/-- The loop of `read_membuf_using_inspector`; `dumper_bytes_written` is the value of
`state->flush()`. The result holds the returned boolean, the job and the inspector. -/
def read_loop (shm_name lasterr : String) (dumper_bytes_written : Nat) :
    List next_result → Nat → sinsp_memory_dumper_job →
      Bool × sinsp_memory_dumper_job × reader_inspector
  | [], bytes_read, job => (true, job, { bytes_read := bytes_read, pending := [] })
  | r :: rest, bytes_read, job =>
    if bytes_read < dumper_bytes_written then
      if r.res = SCAP_EOF ∨ job.m_state = job_state.ST_STOPPPED then
        (true, job, { bytes_read := r.bytes_read, pending := rest })
      else if r.res = SCAP_TIMEOUT then
        read_loop shm_name lasterr dumper_bytes_written rest r.bytes_read job
      else if r.res ≠ SCAP_SUCCESS ∧ r.res ≠ SCAP_TIMEOUT then
        (false,
          { job with
            m_state := job_state.ST_DONE_ERROR,
            m_lasterr := "apply_job_filter error reading events from file " ++ shm_name ++
              ": " ++ lasterr },
          { bytes_read := r.bytes_read, pending := rest })
      else if job.m_start_time ≠ 0 ∧ r.ts < job.m_start_time then
        read_loop shm_name lasterr dumper_bytes_written rest r.bytes_read job
      else
        read_loop shm_name lasterr dumper_bytes_written rest r.bytes_read
          { job with m_n_events := job.m_n_events + 1, m_dumped := job.m_dumped ++ [r.ts] }
    else (true, job, { bytes_read := bytes_read, pending := r :: rest })

/-- The function `sinsp_memory_dumper::read_membuf_using_inspector`. -/
def read_membuf_using_inspector (inspector : reader_inspector) (lasterr : String)
    (state : sinsp_memory_dumper_state) (dumper_bytes_written : Nat)
    (job : sinsp_memory_dumper_job) : Bool × sinsp_memory_dumper_job × reader_inspector :=
  read_loop state.m_shm_name lasterr dumper_bytes_written inspector.pending
    inspector.bytes_read job

/-- What the system answers while `apply_job_filter` scans one segment: whether `shm_open`
succeeds (and the text of `strerror(errno)`), the exception thrown by `inspector.fdopen` and by
the opening of the dump file, if any, the text of `inspector.getlasterr()`, the inspector once
opened, and the two values of `state->flush()` seen by the two read passes. -/
structure scan_env where
  shm_open_ok : Bool
  strerror : String
  fdopen_exception : Option String
  dump_open_exception : Option String
  lasterr : String
  inspector : reader_inspector
  flushed_first : Nat
  flushed_second : Nat
deriving DecidableEq, Repr

/-- The block of `apply_job_filter` that locks `membuf_mtx` when it is given and the segment
is the active one. `membuf_mtx` is `none` for a null pointer and otherwise says whether the lock
is held. The result is `none` when `m_active_state` designates no segment. -/
def lock_if_active (d : sinsp_memory_dumper) (state : sinsp_memory_dumper_state)
    (membuf_mtx : Option Bool) : Option (Option Bool) :=
  match membuf_mtx with
  | none => some none
  | some held =>
    match d.m_states.get? d.m_active_state with
    | none => none
    | some act => if act.m_shm_name = state.m_shm_name then some (some true) else some (some held)

/-- The first call of `read_membuf_using_inspector` in `apply_job_filter`. -/
def first_pass (env : scan_env) (state : sinsp_memory_dumper_state)
    (job : sinsp_memory_dumper_job) : Bool × sinsp_memory_dumper_job × reader_inspector :=
  read_membuf_using_inspector env.inspector env.lasterr state env.flushed_first job

/-- The second call of `read_membuf_using_inspector` in `apply_job_filter`, on the job and the
inspector that the first call left. -/
def second_pass (env : scan_env) (state : sinsp_memory_dumper_state)
    (job : sinsp_memory_dumper_job) : Bool × sinsp_memory_dumper_job × reader_inspector :=
  read_membuf_using_inspector (first_pass env state job).2.2 env.lasterr state
    env.flushed_second (first_pass env state job).2.1

/-- The end of `apply_job_filter`: the first read pass, the locking of `membuf_mtx` when the
segment is the active one, and the second read pass, after which a failure unlocks. -/
def apply_job_filter_read (d : sinsp_memory_dumper) (state : sinsp_memory_dumper_state)
    (job : sinsp_memory_dumper_job) (membuf_mtx : Option Bool) (env : scan_env) :
    Option (sinsp_memory_dumper_job × Option Bool) :=
  if (first_pass env state job).1 = false then some ((first_pass env state job).2.1, membuf_mtx)
  else
    match lock_if_active d state membuf_mtx with
    | none => none
    | some mtx1 =>
      if (second_pass env state job).1 = false then
        some ((second_pass env state job).2.1, mtx1.map fun _ => false)
      else some ((second_pass env state job).2.1, mtx1)

/-- The function `sinsp_memory_dumper::apply_job_filter`. `membuf_mtx` is `none` for a null
pointer and otherwise says whether the lock is held. The filter given to the inspector acts
through the answers of `next`. The result is `none` when the source dereferences
`m_active_state` while it designates no segment. -/
def apply_job_filter (d : sinsp_memory_dumper) (state : sinsp_memory_dumper_state)
    (job : sinsp_memory_dumper_job) (membuf_mtx : Option Bool) (env : scan_env) :
    Option (sinsp_memory_dumper_job × Option Bool) :=
  if state.m_is_open = false ∨ state.m_written_events = 0 then some (job, membuf_mtx)
  else if job.m_start_time ≠ 0 ∧ state.m_end_ts < job.m_start_time then some (job, membuf_mtx)
  else if env.shm_open_ok = false then
    some ({ job with
        m_lasterr := "Could not open shared memory region " ++ state.m_shm_name ++
          " for reading: " ++ env.strerror,
        m_state := job_state.ST_DONE_ERROR }, membuf_mtx)
  else
    match env.fdopen_exception with
    | some e =>
      match d.m_states.get? d.m_active_state with
      | none => none
      | some act =>
        some ({ job with
            m_lasterr := "inspector could not open shared memory region. inspector_err=" ++
              env.lasterr ++ " e=" ++ e ++ " nevt=" ++ toString act.m_written_events,
            m_state := job_state.ST_DONE_ERROR }, membuf_mtx)
    | none =>
      if job.m_dumper = false then
        match env.dump_open_exception with
        | some e =>
          some ({ job with
              m_dumper := true,
              m_lasterr := "inspector could not open dump file " ++ job.m_filename ++
                ". inspector_err=" ++ env.lasterr ++ " e=" ++ e,
              m_state := job_state.ST_DONE_ERROR }, membuf_mtx)
        | none => apply_job_filter_read d state { job with m_dumper := true } membuf_mtx env
      else apply_job_filter_read d state job membuf_mtx env

/-- The job that `add_job` creates and fills before it compiles the filter. The members that
`add_job` does not set have the values of a job that has not run. -/
def new_job (ts : Nat) (filename : String) (delta_time_past_ns delta_time_future_ns : Nat) :
    sinsp_memory_dumper_job :=
  { m_start_time := if delta_time_past_ns ≠ 0 then u64_sub ts delta_time_past_ns else 0,
    m_end_time := u64_add ts delta_time_future_ns,
    m_filename := filename,
    m_filterstr := "",
    m_filter := false,
    m_state := job_state.ST_INPROGRESS,
    m_lasterr := "",
    m_n_events := 0,
    m_dumper := false,
    m_dumped := [] }

/-- The block of `add_job` that starts the scan: the reader is placed on the back segment
and marked active. -/
def add_job_begin (d : sinsp_memory_dumper) : sinsp_memory_dumper :=
  { d with m_reader_state := d.m_states.length, m_reader_active := true }

/-- One evaluation of `while (m_reader_state != m_states.rend())` in `add_job`: when the
condition holds the segment under the reader is scanned and the reader moves one step towards
the front. The result is `none` when the reader designates no segment. -/
def add_job_iter (d : sinsp_memory_dumper) (job : sinsp_memory_dumper_job)
    (membuf_mtx : Option Bool) (env : scan_env) :
    Option (sinsp_memory_dumper × sinsp_memory_dumper_job × Option Bool) :=
  if d.m_reader_state = 0 then some (d, job, membuf_mtx)
  else
    match d.m_states.get? (d.m_reader_state - 1) with
    | none => none
    | some state =>
      match apply_job_filter d state job membuf_mtx env with
      | none => none
      | some r => some ({ d with m_reader_state := d.m_reader_state - 1 }, r.1, r.2)

/-- The loop `while (m_reader_state != m_states.rend())` of `add_job` when no other thread
runs in between; `envs k` is what the system answers while the segment at distance `k` from
`rend()` is scanned, and `n` bounds the iterations left. -/
def add_job_loop (envs : Nat → scan_env) :
    Nat → sinsp_memory_dumper → sinsp_memory_dumper_job → Option Bool →
      Option (sinsp_memory_dumper × sinsp_memory_dumper_job × Option Bool)
  | 0, d, job, membuf_mtx => some (d, job, membuf_mtx)
  | n + 1, d, job, membuf_mtx =>
    if d.m_reader_state = 0 then some (d, job, membuf_mtx)
    else
      match add_job_iter d job membuf_mtx (envs d.m_reader_state) with
      | none => none
      | some r => add_job_loop envs n r.1 r.2.1 r.2.2

/-- The loop `while (m_states.size() > 2) m_states.pop_back()`; `n` bounds the iterations
left. -/
def pop_extra_states : Nat → List sinsp_memory_dumper_state → List sinsp_memory_dumper_state
  | 0, states => states
  | n + 1, states => if states.length > 2 then pop_extra_states n states.dropLast else states

/-- The end of `add_job`, after the loop: the reader is marked inactive, the deque is trimmed,
a delayed switch is allowed and a job without a future window is done. -/
def add_job_finish (d : sinsp_memory_dumper) (job : sinsp_memory_dumper_job)
    (delta_time_future_ns : Nat) : sinsp_memory_dumper × sinsp_memory_dumper_job :=
  (if d.m_delayed_switch_states_needed then
      { d with
        m_reader_active := false,
        m_states := pop_extra_states d.m_states.length d.m_states,
        m_delayed_switch_states_ready := true }
    else
      { d with
        m_reader_active := false,
        m_states := pop_extra_states d.m_states.length d.m_states },
    if delta_time_future_ns = 0 then { job with m_state := job_state.ST_DONE_OK } else job)

/-- The function `sinsp_memory_dumper::add_job`, run without another thread in between.
`compile_exception` is the exception thrown by the compilation of the filter, if any. The
result holds the dumper, the returned job and the lock. -/
def add_job (d : sinsp_memory_dumper) (ts : Nat) (filename filter : String)
    (delta_time_past_ns delta_time_future_ns : Nat) (membuf_mtx : Option Bool)
    (compile_exception : Option String) (envs : Nat → scan_env) :
    Option (sinsp_memory_dumper × sinsp_memory_dumper_job × Option Bool) :=
  let job := new_job ts filename delta_time_past_ns delta_time_future_ns
  let compiled : sinsp_memory_dumper_job ⊕ sinsp_memory_dumper_job :=
    if filter ≠ "" then
      match compile_exception with
      | some e =>
        Sum.inl { job with
          m_filterstr := filter,
          m_state := job_state.ST_DONE_ERROR,
          m_lasterr := "error compiling capture job filter (" ++ filter ++ "). e=" ++ e }
      | none => Sum.inr { job with m_filterstr := filter, m_filter := true }
    else Sum.inr job
  match compiled with
  | Sum.inl failed => some (d, failed, membuf_mtx)
  | Sum.inr job1 =>
    let d1 := add_job_begin d
    match add_job_loop envs d1.m_reader_state d1 job1 membuf_mtx with
    | none => none
    | some r =>
      let fin := add_job_finish r.1 r.2.1 delta_time_future_ns
      some (fin.1, fin.2, r.2.2)

/-- A step of the dumper as its two threads see it: a call of `switch_states` by the
producer, a whole call of `add_job`, or one of the three parts of a call of `add_job` that the
producer can run between (the start of the scan, one evaluation of the loop, the end). -/
inductive dumper_step where
  | switch_states (ts sys_ts_ns : Nat) (open_ok : Bool)
  | add_job (ts : Nat) (filename filter : String) (delta_time_past_ns delta_time_future_ns : Nat)
      (membuf_mtx : Option Bool) (compile_exception : Option String) (envs : Nat → scan_env)
  | add_job_begin
  | add_job_iter (job : sinsp_memory_dumper_job) (membuf_mtx : Option Bool) (env : scan_env)
  | add_job_finish (job : sinsp_memory_dumper_job) (delta_time_future_ns : Nat)

/-- The dumper after one step. -/
def apply_step (d : sinsp_memory_dumper) : dumper_step → Option sinsp_memory_dumper
  | .switch_states ts sys_ts_ns open_ok => switch_states d ts sys_ts_ns open_ok
  | .add_job ts filename filter past future membuf_mtx compile_exception envs =>
    (add_job d ts filename filter past future membuf_mtx compile_exception envs).map fun r => r.1
  | .add_job_begin => some (add_job_begin d)
  | .add_job_iter job membuf_mtx env => (add_job_iter d job membuf_mtx env).map fun r => r.1
  | .add_job_finish job future => some (add_job_finish d job future).1

/-- The dumper after a sequence of steps; `none` when one of them is undefined. -/
def run_steps : List dumper_step → sinsp_memory_dumper → Option sinsp_memory_dumper
  | [], d => some d
  | s :: rest, d =>
    match apply_step d s with
    | none => none
    | some d1 => run_steps rest d1

/-- The bounds on the deque: two or three segments, and two whenever no reader is active. -/
def ring_bounds (d : sinsp_memory_dumper) : Prop :=
  2 ≤ d.m_states.length ∧ d.m_states.length ≤ 3 ∧
    (d.m_reader_active = false → d.m_states.length = 2)

/-- A dumper before construction, used to state examples: every member is zero, false or
empty. -/
def blank_dumper : sinsp_memory_dumper :=
  { m_inspector_is_dumping := false, m_file_id := 0, m_f := false, m_cf := false,
    m_disabled := false, m_disabled_by_autodisable := false, m_last_autodisable_ns := 0,
    m_switches_to_go := 0, m_cur_dump_size := 0, m_max_disk_size := 0, m_bsize := 0,
    m_delayed_switch_states_needed := false, m_delayed_switch_states_ready := false,
    m_delayed_switch_states_missed_events := 0,
    m_processed_events_between_switch_states := 0,
    m_autodisable_threshold_reached_count := 0, m_autodisable := false,
    m_capture_headers_percentage_threshold := 0, m_min_time_between_switch_states_ns := 0,
    m_re_enable_interval_ns := 0, m_dump_buffer_headers_size := 0,
    m_last_switch_state_ns := 0, m_states := [], m_active_state := 0, m_reader_state := 0,
    m_reader_active := false }

/-- An operating system on which every call of `init` succeeds at once. -/
def friendly_init_env : init_env :=
  { shm_open_ok := true, fallocate_rc := fun _ => 0, open_ok := fun _ => true }

/-- A dumper initialised with a buffer of 3000 bytes and autodisable on, on a friendly
system. -/
def example_dumper : sinsp_memory_dumper :=
  init (sinsp_memory_dumper.construct blank_dumper) 3000 100000 3 true 20 0 1 friendly_init_env

/-- Two jobs have the same time window. -/
def same_window (j1 j2 : sinsp_memory_dumper_job) : Prop :=
  j2.m_start_time = j1.m_start_time ∧ j2.m_end_time = j1.m_end_time

/-- A scan during which every call succeeds and the segment holds nothing to read. -/
def quiet_scan : scan_env :=
  { shm_open_ok := true, strerror := "", fdopen_exception := none, dump_open_exception := none,
    lasterr := "", inspector := { bytes_read := 0, pending := [] }, flushed_first := 0,
    flushed_second := 0 }

/-- The example dumper while a call of `add_job` scans the ring: the reader is active, a third
segment has been created at the front and seven events have been written to it since; the two
older segments hold three and four events. -/
def stalled_dumper : sinsp_memory_dumper :=
  { example_dumper with
    m_file_id := 3,
    m_reader_active := true,
    m_reader_state := 2,
    m_states :=
      [{ m_shm_name := "/dragent-memdumper-2", m_bufsize := 1000, m_is_open := true,
         m_written_events := 7, m_begin_ts := 50, m_end_ts := 56 },
       { m_shm_name := "/dragent-memdumper-1", m_bufsize := 1000, m_is_open := true,
         m_written_events := 3, m_begin_ts := 40, m_end_ts := 49 },
       { m_shm_name := "/dragent-memdumper-0", m_bufsize := 1000, m_is_open := true,
         m_written_events := 4, m_begin_ts := 30, m_end_ts := 39 }] }

/-- A sequence of calls of `check_autodisable`, each given as the event time and the system
time, made the way `switch_states` makes them: after each call `m_last_switch_state_ns` is set
to the system time of the call. -/
def check_autodisable_calls : List (Nat × Nat) → sinsp_memory_dumper →
    Option sinsp_memory_dumper
  | [], d => some d
  | call :: rest, d =>
    match check_autodisable d call.1 call.2 with
    | none => none
    | some d1 => check_autodisable_calls rest (set_last_switch_state d1 call.2)

/-- Every call of the sequence comes less than `min_ns` after the one before it, the first one
less than `min_ns` after `prev`. -/
def rapid_switches (min_ns : Nat) : Nat → List (Nat × Nat) → Prop
  | _, [] => True
  | prev, call :: rest => u64_sub call.2 prev < min_ns ∧ rapid_switches min_ns call.2 rest

/-- A dumper initialised with a buffer of 3000 bytes, autodisable on, a header threshold of 20
percent and at least 100 ms between two switches. -/
def busy_dumper : sinsp_memory_dumper :=
  init (sinsp_memory_dumper.construct blank_dumper) 3000 100000 3 true 20 100 1
    friendly_init_env

/-- Ten switches, 10 ms apart, the first one 10 ms after time zero. -/
def ten_rapid_calls : List (Nat × Nat) :=
  [(1, 10000000), (2, 20000000), (3, 30000000), (4, 40000000), (5, 50000000),
    (6, 60000000), (7, 70000000), (8, 80000000), (9, 90000000), (10, 100000000)]

/-- The example dumper (segments of 1000 bytes, header threshold of 20 percent, no minimal time
between switches) once 201 bytes of headers have accumulated. -/
def header_dumper : sinsp_memory_dumper :=
  { example_dumper with m_dump_buffer_headers_size := 201 }

/-- The example dumper with three events in its front segment and four in the other one, no
reader active. -/
def filled_dumper : sinsp_memory_dumper :=
  { example_dumper with
    m_states :=
      [{ m_shm_name := "/dragent-memdumper-0", m_bufsize := 1000, m_is_open := true,
         m_written_events := 3, m_begin_ts := 40, m_end_ts := 49 },
       { m_shm_name := "/dragent-memdumper-1", m_bufsize := 1000, m_is_open := true,
         m_written_events := 4, m_begin_ts := 30, m_end_ts := 39 }] }

/-- A scan during which the shared-memory region cannot be opened. -/
def failing_scan : scan_env :=
  { quiet_scan with shm_open_ok := false, strerror := "Permission denied" }

/-- A job with the window from 10 to 20. -/
def window_job : sinsp_memory_dumper_job := new_job 15 "capture.scap" 5 5

/-- An inspector about to read one event with the timestamp 30. -/
def late_inspector : reader_inspector :=
  { bytes_read := 0, pending := [{ res := SCAP_SUCCESS, ts := 30, bytes_read := 10 }] }

/-- A call of one of the functions of the dumper that can follow `init`. -/
inductive dumper_call where
  | switch_states (ts sys_ts_ns : Nat) (open_ok : Bool)
  | check_autodisable (evt_ts_ns sys_ts_ns : Nat)
  | add_job (ts : Nat) (filename filter : String) (delta_time_past_ns delta_time_future_ns : Nat)
      (membuf_mtx : Option Bool) (compile_exception : Option String) (envs : Nat → scan_env)
  | close (sys_ts_ns : Nat) (open_ok : Bool)

/-- The dumper after one call. -/
def apply_call (d : sinsp_memory_dumper) : dumper_call → Option sinsp_memory_dumper
  | .switch_states ts sys_ts_ns open_ok => switch_states d ts sys_ts_ns open_ok
  | .check_autodisable evt_ts_ns sys_ts_ns => check_autodisable d evt_ts_ns sys_ts_ns
  | .add_job ts filename filter past future membuf_mtx compile_exception envs =>
    (add_job d ts filename filter past future membuf_mtx compile_exception envs).map fun r => r.1
  | .close sys_ts_ns open_ok => close d sys_ts_ns open_ok

/-- The dumper after a sequence of calls; `none` when one of them is undefined. -/
def run_calls : List dumper_call → sinsp_memory_dumper → Option sinsp_memory_dumper
  | [], d => some d
  | call :: rest, d =>
    match apply_call d call with
    | none => none
    | some d1 => run_calls rest d1

/-- An operating system on which the probe file of `init` cannot be opened. -/
def hostile_init_env : init_env :=
  { shm_open_ok := false, fallocate_rc := fun _ => 0, open_ok := fun _ => true }

/-- An operating system on which `posix_fallocate` is always interrupted. -/
def interrupted_init_env : init_env :=
  { shm_open_ok := true, fallocate_rc := fun _ => EINTR, open_ok := fun _ => true }

/-- Whether a call has a defined result on a dumper without segments, whatever its other
members hold: `add_job`, which finds no segment to scan, and `check_autodisable` when the
dumper was initialised with autodisable off. -/
def needs_no_segment (autodisable : Bool) : dumper_call → Bool
  | .add_job _ _ _ _ _ _ _ _ => true
  | .check_autodisable _ _ => !autodisable
  | _ => false

end memdumper

namespace secpolicy

/-- Modulus of `uint32_t` arithmetic. -/
def U32 : Nat := 2 ^ 32

/-- The type of an action (`draiosproto::action_type`). The three types that
`perform_actions` dispatches on are named; `ACTION_OTHER v` is any other value `v`. -/
inductive action_type where
  | ACTION_CAPTURE
  | ACTION_PAUSE
  | ACTION_STOP
  | ACTION_OTHER (value : Nat)
deriving DecidableEq, Repr

/-- The capture part of an action (`draiosproto::capture_action`). -/
structure capture_action where
  has_is_limited_to_container : Bool
  is_limited_to_container : Bool
  has_filter : Bool
  filter : String
  before_event_ns : Nat
  after_event_ns : Nat
deriving DecidableEq, Repr

/-- An action of a policy (`draiosproto::action`). -/
structure action where
  type : action_type
  capture : capture_action
deriving DecidableEq, Repr

/-- The result of an action (`draiosproto::action_result`). -/
structure action_result where
  type : action_type
  successful : Bool
  errmsg : String
  token : String
deriving DecidableEq, Repr

/-- The outgoing record of a match (`draiosproto::policy_event`); `container_id` is `none`
while the field is unset. -/
structure policy_event where
  timestamp_ns : Nat
  policy_id : Nat
  container_id : Option String
  rule : String
  output : String
  sinsp_events_dropped : Nat
  action_results : List action_result
deriving DecidableEq, Repr

/-- A policy (`draiosproto::policy`); `scope_predicates` is the number of its scope
predicates. -/
structure policy where
  id : Nat
  name : String
  enabled : Bool
  host_scope : Bool
  container_scope : Bool
  scope_predicates : Nat
  actions : List action
deriving DecidableEq, Repr

/-- The thread of an event (`sinsp_threadinfo`). -/
structure sinsp_threadinfo where
  m_container_id : String
  m_pid : Nat
deriving DecidableEq, Repr

/-- An event (`sinsp_evt`): timestamp, type, whether `EF_DROP_FALCO` is set in its info flags,
and its thread, if any. -/
structure sinsp_evt where
  ts : Nat
  type : Nat
  ef_drop_falco : Bool
  tinfo : Option sinsp_threadinfo
deriving DecidableEq, Repr

/-- The state kept for a matched event until its actions are complete
(`security_policy::actions_state`). `m_handle` stands for the address of the state, which the
callbacks of its actions capture; it is unique per state. -/
structure actions_state where
  m_handle : Nat
  m_event : policy_event
  m_num_remaining_actions : Nat
  m_send_now : Bool
deriving DecidableEq, Repr

/-- The counters of `evt_metrics`. -/
inductive evt_reason where
  | EVM_NO_FALCO_ENGINE
  | EVM_EF_DROP_FALCO
  | EVM_SCOPE_MISS
  | EVM_FALCO_MISS
  | EVM_POLICY_DISABLED
  | EVM_MATCHED
deriving DecidableEq, Repr

/-- The commands of the container-control port. -/
inductive docker_cmd where
  | PAUSE
  | STOP
deriving DecidableEq, Repr

/-- A call made by the policy to one of its collaborators (the security manager, the
container-control client, the rule engine, the infrastructure state). The callback given to
`perform_docker_cmd` is named by the handle of the state and the index of the result slot it
captures. -/
inductive port_call where
  | accept_policy_event (ts_ns handle : Nat) (event : policy_event) (send_now : Bool)
  | start_sending_capture (token : String)
  | stop_capture (token : String)
  | start_capture (ts : Nat) (policy_name token filter : String) (before_event_ns : Nat)
      (after_event_ns : Nat) (apply_scope : Bool) (container_id : String) (pid : Nat)
  | perform_docker_cmd (cmd : docker_cmd) (container_id : String) (handle slot : Nat)
  | falco_process_event (evt : sinsp_evt) (ruleset_id : Nat)
  | infra_match_scope (container_id machine_id : String)
deriving DecidableEq, Repr

/-- What the rule engine answers to `process_event`: no result, a rule result, a
`falco_exception` with the given message (`throws`), which is the exception that `match_event`
catches, or an exception of another type with the given message (`throws_other`), such as the
`sinsp_exception` that the evaluation of a filter throws. -/
inductive falco_answer where
  | no_result
  | rule_result (rule format : String)
  | throws (what : String)
  | throws_other (what : String)
deriving DecidableEq, Repr

/-- The answers of the collaborators. Each is a function of the calls made so far, the call
being answered last. -/
structure collaborators where
  accept_policy_event : List port_call → Bool
  start_capture : List port_call → Bool × String
  create_random_uuid : List port_call → String
  falco_process_event : List port_call → falco_answer
  infra_match_scope : List port_call → Bool
  formatters_tostring : sinsp_evt → String → String
  recent_sinsp_events_dropped : List port_call → Nat
  machine_id : String

/-- A policy object (`security_policy`, with the members of `falco_security_policy` that the
embedded functions read). `m_falco_engine` says whether the pointer is non-null, `m_calls` is
the list of calls made to the collaborators so far and `m_next_handle` the handle of the next
state to be created. -/
structure security_policy where
  m_policy : policy
  m_evttypes : Nat → Bool
  m_has_outstanding_actions : Bool
  m_outstanding_actions : List actions_state
  m_metrics : evt_reason → Nat
  m_falco_engine : Bool
  m_ruleset_id : Nat
  m_next_handle : Nat
  m_calls : List port_call

/-- Modelled from the spec: `evt_metrics::incr` is declared in a header that is not part of
the sources. The spec says "increment counter": the named counter grows by one. -/
def incr (m : evt_reason → Nat) (r : evt_reason) : evt_reason → Nat :=
  fun x => if x = r then m x + 1 else m x

/-- The constructor `security_policy::security_policy`. -/
def security_policy.construct (pol : policy) (evttypes : Nat → Bool) (falco_engine : Bool)
    (ruleset_id : Nat) : security_policy :=
  { m_policy := pol, m_evttypes := evttypes, m_has_outstanding_actions := false,
    m_outstanding_actions := [], m_metrics := fun _ => 0, m_falco_engine := falco_engine,
    m_ruleset_id := ruleset_id, m_next_handle := 0, m_calls := [] }

/-- The function `security_policy::has_action_result`: the first result of the given type. -/
def has_action_result (evt : policy_event) (atype : action_type) : Option action_result :=
  evt.action_results.find? fun aresult => decide (aresult.type = atype)

/-- The decrement `--astate.m_num_remaining_actions` of `note_action_complete`, on an
unsigned 32-bit counter: zero wraps around to the largest value. -/
def decrement (n : Nat) : Nat := if n = 0 then U32 - 1 else n - 1

/-- The state of the loop of `perform_actions`: the state of the matched event, the flag
`m_has_outstanding_actions` and the calls made so far. -/
structure action_loop where
  astate : actions_state
  has_outstanding : Bool
  calls : List port_call

/-- The function `security_policy::note_action_complete`. -/
def note_action_complete (st : action_loop) : action_loop :=
  { astate := { st.astate with
      m_num_remaining_actions := decrement st.astate.m_num_remaining_actions },
    has_outstanding :=
      if decrement st.astate.m_num_remaining_actions = 0 then true else st.has_outstanding,
    calls := st.calls }

/-- The result slot that `perform_actions` adds for an action. -/
def new_result (a : action) : action_result :=
  { type := a.type, successful := true, errmsg := "", token := "" }

/-- The loop state with one more result slot on its event. -/
def add_result (st : action_loop) (r : action_result) (calls : List port_call)
    (send_now : Bool) : action_loop :=
  { astate := { st.astate with
      m_event := { st.astate.m_event with
        action_results := st.astate.m_event.action_results ++ [r] },
      m_send_now := send_now },
    has_outstanding := st.has_outstanding,
    calls := calls }

/-- The call of `start_capture` that a capture action makes, with the given token. -/
def capture_call (pol : policy) (evt : sinsp_evt) (container_id : String) (pid : Nat)
    (a : action) (token : String) : port_call :=
  port_call.start_capture evt.ts pol.name token
    (if a.capture.has_filter then a.capture.filter else "")
    a.capture.before_event_ns a.capture.after_event_ns
    (if a.capture.has_is_limited_to_container then a.capture.is_limited_to_container else false)
    container_id pid

/-- The body of the loop of `perform_actions` for one action. -/
def perform_action (c : collaborators) (pol : policy) (evt : sinsp_evt) (container_id : String)
    (pid : Nat) (st : action_loop) (a : action) : action_loop :=
  match a.type with
  | action_type.ACTION_CAPTURE =>
    if (c.start_capture (st.calls ++
        [capture_call pol evt container_id pid a (c.create_random_uuid st.calls)])).1 = false then
      note_action_complete (add_result st
        { new_result a with
          token := c.create_random_uuid st.calls,
          successful := false,
          errmsg := (c.start_capture (st.calls ++
            [capture_call pol evt container_id pid a (c.create_random_uuid st.calls)])).2 }
        (st.calls ++ [capture_call pol evt container_id pid a (c.create_random_uuid st.calls)])
        st.astate.m_send_now)
    else
      note_action_complete (add_result st
        { new_result a with token := c.create_random_uuid st.calls }
        (st.calls ++ [capture_call pol evt container_id pid a (c.create_random_uuid st.calls)])
        true)
  | action_type.ACTION_PAUSE =>
    add_result st (new_result a)
      (st.calls ++ [port_call.perform_docker_cmd docker_cmd.PAUSE container_id
        st.astate.m_handle st.astate.m_event.action_results.length])
      st.astate.m_send_now
  | action_type.ACTION_STOP =>
    add_result st (new_result a)
      (st.calls ++ [port_call.perform_docker_cmd docker_cmd.STOP container_id
        st.astate.m_handle st.astate.m_event.action_results.length])
      st.astate.m_send_now
  | action_type.ACTION_OTHER v =>
    add_result st
      { new_result a with
        successful := false,
        errmsg := "Policy Action " ++ toString v ++ " not implemented yet" }
      st.calls st.astate.m_send_now

/-- The state that `m_outstanding_actions.emplace_back(event, m_policy.actions().size())`
creates. -/
def new_actions_state (p : security_policy) (event : policy_event) : actions_state :=
  { m_handle := p.m_next_handle, m_event := event,
    m_num_remaining_actions := p.m_policy.actions.length % U32, m_send_now := false }

/-- The loop of `perform_actions` over the actions of the policy. -/
def perform_actions_loop (p : security_policy) (c : collaborators) (evt : sinsp_evt)
    (event : policy_event) : action_loop :=
  p.m_policy.actions.foldl
    (perform_action c p.m_policy evt
      (match evt.tinfo with
        | some tinfo => tinfo.m_container_id
        | none => "")
      (match evt.tinfo with
        | some tinfo => tinfo.m_pid
        | none => 0))
    { astate := new_actions_state p event, has_outstanding := p.m_has_outstanding_actions,
      calls := p.m_calls }

/-- The function `security_policy::perform_actions`. -/
def perform_actions (p : security_policy) (c : collaborators) (evt : sinsp_evt)
    (event : policy_event) : Bool × security_policy :=
  (true,
    { p with
      m_outstanding_actions :=
        p.m_outstanding_actions ++ [(perform_actions_loop p c evt event).astate],
      m_has_outstanding_actions :=
        if (perform_actions_loop p c evt event).astate.m_num_remaining_actions = 0 then true
        else (perform_actions_loop p c evt event).has_outstanding,
      m_calls := (perform_actions_loop p c evt event).calls,
      m_next_handle := p.m_next_handle + 1 })

/-- The stamping of a result slot by the callback of a container command: `successful` is
the first argument of the callback, `res_successful` and `res_errstr` are the fields of the
`docker_command_result` it receives. -/
def stamp_result (successful res_successful : Bool) (res_errstr : String)
    (r : action_result) : action_result :=
  if res_successful = false then
    { (if successful = false then
        { r with successful := false, errmsg := "RPC Not successful" } else r) with
      successful := false, errmsg := "Could not perform docker command: " ++ res_errstr }
  else if successful = false then
    { r with successful := false, errmsg := "RPC Not successful" }
  else r

/-- The list of result slots with the slot of index `slot` changed by `f`. -/
def modify_slot (f : action_result → action_result) : Nat → List action_result →
    List action_result
  | _, [] => []
  | 0, r :: rest => f r :: rest
  | n + 1, r :: rest => r :: modify_slot f n rest

/-- The effect of a callback on the state it captured: the result slot is stamped and the
number of remaining actions is decremented. -/
def complete_action (slot : Nat) (successful res_successful : Bool) (res_errstr : String)
    (a : actions_state) : actions_state :=
  { a with
    m_event := { a.m_event with
      action_results :=
        modify_slot (stamp_result successful res_successful res_errstr) slot
          a.m_event.action_results },
    m_num_remaining_actions := decrement a.m_num_remaining_actions }

/-- The list of states after the callback that captured the state of handle `handle` has run,
with whether the number of remaining actions of that state reached zero; `none` when no state
has that handle (the reference captured by the callback dangles). -/
def complete_in (handle slot : Nat) (successful res_successful : Bool) (res_errstr : String) :
    List actions_state → Option (List actions_state × Bool)
  | [] => none
  | a :: rest =>
    if a.m_handle = handle then
      some (complete_action slot successful res_successful res_errstr a :: rest,
        decide (decrement a.m_num_remaining_actions = 0))
    else
      match complete_in handle slot successful res_successful res_errstr rest with
      | none => none
      | some r => some (a :: r.1, r.2)

/-- The callback that `perform_actions` hands to `perform_docker_cmd`, run with the given
arguments. -/
def action_callback (p : security_policy) (handle slot : Nat)
    (successful res_successful : Bool) (res_errstr : String) : Option security_policy :=
  match complete_in handle slot successful res_successful res_errstr
      p.m_outstanding_actions with
  | none => none
  | some r =>
    some { p with
      m_outstanding_actions := r.1,
      m_has_outstanding_actions := if r.2 then true else p.m_has_outstanding_actions }

/-- The calls that the predicate `no_outstanding_actions` makes for a state without remaining
actions, after the call of `accept_policy_event` and given its answer. -/
def capture_calls (accepted : Bool) (act : actions_state) : List port_call :=
  match has_action_result act.m_event action_type.ACTION_CAPTURE with
  | none => []
  | some aresult =>
    if aresult.successful then
      if aresult.token = "" then []
      else if accepted then [port_call.start_sending_capture aresult.token]
      else [port_call.stop_capture aresult.token]
    else []

/-- The call of `accept_policy_event` made for a state. -/
def accept_call (ts_ns : Nat) (act : actions_state) : port_call :=
  port_call.accept_policy_event ts_ns act.m_handle act.m_event act.m_send_now

/-- The predicate `no_outstanding_actions` of `check_outstanding_actions`: its value and the
calls made so far after it has run. -/
def no_outstanding_actions (c : collaborators) (ts_ns : Nat) (calls : List port_call)
    (act : actions_state) : Bool × List port_call :=
  if act.m_num_remaining_actions = 0 then
    (true, calls ++ [accept_call ts_ns act] ++
      capture_calls (c.accept_policy_event (calls ++ [accept_call ts_ns act])) act)
  else (false, calls)

/-- The call `erase(remove_if(begin, end, no_outstanding_actions), end)`: the predicate runs
once on each state, front to back; the states for which it is false are kept, in order. -/
def erase_remove_if (c : collaborators) (ts_ns : Nat) :
    List actions_state → List port_call → List actions_state × List port_call
  | [], calls => ([], calls)
  | act :: rest, calls =>
    if (no_outstanding_actions c ts_ns calls act).1 then
      erase_remove_if c ts_ns rest (no_outstanding_actions c ts_ns calls act).2
    else
      (act :: (erase_remove_if c ts_ns rest (no_outstanding_actions c ts_ns calls act).2).1,
        (erase_remove_if c ts_ns rest (no_outstanding_actions c ts_ns calls act).2).2)

/-- The function `security_policy::check_outstanding_actions`. -/
def check_outstanding_actions (p : security_policy) (c : collaborators) (ts_ns : Nat) :
    security_policy :=
  if p.m_has_outstanding_actions = false then p
  else
    { p with
      m_outstanding_actions := (erase_remove_if c ts_ns p.m_outstanding_actions p.m_calls).1,
      m_calls := (erase_remove_if c ts_ns p.m_outstanding_actions p.m_calls).2,
      m_has_outstanding_actions := false }

/-- The call made to the infrastructure state by `match_scope`. -/
def scope_call (c : collaborators) (evt : sinsp_evt) : port_call :=
  port_call.infra_match_scope
    (match evt.tinfo with
      | some tinfo => tinfo.m_container_id
      | none => "")
    c.machine_id

/-- The function `security_policy::match_scope`: its value and the policy object after it. -/
def match_scope (p : security_policy) (c : collaborators) (evt : sinsp_evt) :
    Bool × security_policy :=
  if p.m_policy.container_scope = false ∧ p.m_policy.host_scope = false then (true, p)
  else
    (c.infra_match_scope (p.m_calls ++ [scope_call c evt]),
      { p with m_calls := p.m_calls ++ [scope_call c evt] })

/-- The policy object with one of its counters incremented. -/
def count (p : security_policy) (r : evt_reason) : security_policy :=
  { p with m_metrics := incr p.m_metrics r }

/-- The function `falco_security_policy::check_conditions`. -/
def check_conditions (p : security_policy) (c : collaborators) (evt : sinsp_evt) :
    Bool × security_policy :=
  if p.m_falco_engine = false then (false, count p evt_reason.EVM_NO_FALCO_ENGINE)
  else if evt.ef_drop_falco then (false, count p evt_reason.EVM_EF_DROP_FALCO)
  else if p.m_policy.scope_predicates > 0 then
    if (match_scope p c evt).1 = false then
      (false, count (match_scope p c evt).2 evt_reason.EVM_SCOPE_MISS)
    else (true, (match_scope p c evt).2)
  else (true, p)

/-- The call made to the rule engine by `match_event`. -/
def engine_call (p : security_policy) (evt : sinsp_evt) : port_call :=
  port_call.falco_process_event evt p.m_ruleset_id

/-- The policy event that `match_event` builds for a rule result. -/
def matched_event (p : security_policy) (c : collaborators) (evt : sinsp_evt)
    (rule format : String) (calls : List port_call) : policy_event :=
  { timestamp_ns := evt.ts,
    policy_id := p.m_policy.id,
    container_id :=
      match evt.tinfo with
      | some tinfo => if tinfo.m_container_id = "" then none else some tinfo.m_container_id
      | none => none,
    rule := rule,
    output := c.formatters_tostring evt format,
    sinsp_events_dropped := c.recent_sinsp_events_dropped calls,
    action_results := [] }

/-- The part of `match_event` that follows `check_outstanding_actions`: the rule engine is
asked, and a rule result gives a policy event. A `falco_exception` is caught and counted as a
miss. An exception of another type is not caught by `catch (falco_exception& e)`: the function
does not return, `ask_engine_throws` gives the exception that leaves it, and the pair then
holds no event and the policy object as it is when the exception leaves, with the call
recorded and no counter incremented. -/
def ask_engine (p : security_policy) (c : collaborators) (evt : sinsp_evt) :
    Option policy_event × security_policy :=
  match c.falco_process_event (p.m_calls ++ [engine_call p evt]) with
  | falco_answer.rule_result rule format =>
    (some (matched_event p c evt rule format (p.m_calls ++ [engine_call p evt])),
      { p with
        m_calls := p.m_calls ++ [engine_call p evt],
        m_metrics := incr p.m_metrics evt_reason.EVM_MATCHED })
  | falco_answer.no_result =>
    (none,
      { p with
        m_calls := p.m_calls ++ [engine_call p evt],
        m_metrics := incr p.m_metrics evt_reason.EVM_FALCO_MISS })
  | falco_answer.throws _ =>
    (none,
      { p with
        m_calls := p.m_calls ++ [engine_call p evt],
        m_metrics := incr p.m_metrics evt_reason.EVM_FALCO_MISS })
  | falco_answer.throws_other _ =>
    (none, { p with m_calls := p.m_calls ++ [engine_call p evt] })

/-- The exception that leaves the part of `match_event` that asks the rule engine, if one
does: the message of an exception of another type than `falco_exception`. -/
def ask_engine_throws (p : security_policy) (c : collaborators) (evt : sinsp_evt) :
    Option String :=
  match c.falco_process_event (p.m_calls ++ [engine_call p evt]) with
  | falco_answer.throws_other what => some what
  | _ => none

/-- The function `falco_security_policy::match_event`; `none` stands for `NULL`. When an
exception leaves the function (`match_event_throws`), the pair holds no event and the policy
object as the exception leaves it. -/
def match_event (p : security_policy) (c : collaborators) (evt : sinsp_evt) :
    Option policy_event × security_policy :=
  if (check_conditions p c evt).1 = false then (none, (check_conditions p c evt).2)
  else ask_engine (check_outstanding_actions (check_conditions p c evt).2 c evt.ts) c evt

/-- The exception that leaves `match_event`, if one does: the function returns before the
rule engine is asked when `check_conditions` rejects the event, and otherwise lets through
what the question to the rule engine lets through. -/
def match_event_throws (p : security_policy) (c : collaborators) (evt : sinsp_evt) :
    Option String :=
  if (check_conditions p c evt).1 = false then none
  else ask_engine_throws (check_outstanding_actions (check_conditions p c evt).2 c evt.ts) c evt

/-- The function `security_policy::process_event`. When an exception leaves the function
(`process_event_throws`), it does not return: the pair then holds false and the policy object
as the exception leaves it. -/
def process_event (p : security_policy) (c : collaborators) (evt : sinsp_evt) :
    Bool × security_policy :=
  if p.m_policy.enabled = false then (false, count p evt_reason.EVM_POLICY_DISABLED)
  else if p.m_evttypes evt.type then
    match (match_event p c evt).1 with
    | some event => perform_actions (match_event p c evt).2 c evt event
    | none => (false, (match_event p c evt).2)
  else (false, p)

/-- The exception that leaves `process_event`, if one does: the function has no `try` block,
so an exception that leaves its call of `match_event` leaves it too. -/
def process_event_throws (p : security_policy) (c : collaborators) (evt : sinsp_evt) :
    Option String :=
  if p.m_policy.enabled = false then none
  else if p.m_evttypes evt.type then match_event_throws p c evt
  else none

/-- An operation on a policy object: an event is processed, `perform_actions` runs for a
matched event, the callback of a container command runs, or
`check_outstanding_actions` runs. -/
inductive policy_op where
  | process_event (evt : sinsp_evt)
  | perform_actions (evt : sinsp_evt) (event : policy_event)
  | action_callback (handle slot : Nat) (successful res_successful : Bool)
      (res_errstr : String)
  | check_outstanding_actions (ts_ns : Nat)
deriving DecidableEq, Repr

/-- The policy object after one operation; `none` when a callback runs whose state is gone.
After a call of `process_event` that an exception leaves, the policy object is as the
exception leaves it. -/
def apply_op (c : collaborators) (p : security_policy) : policy_op → Option security_policy
  | policy_op.process_event evt => some (process_event p c evt).2
  | policy_op.perform_actions evt event => some (perform_actions p c evt event).2
  | policy_op.action_callback handle slot successful res_successful res_errstr =>
    action_callback p handle slot successful res_successful res_errstr
  | policy_op.check_outstanding_actions ts_ns => some (check_outstanding_actions p c ts_ns)

/-- The policy object after a sequence of operations. -/
def run_ops (c : collaborators) : List policy_op → security_policy → Option security_policy
  | [], p => some p
  | op :: rest, p =>
    match apply_op c p op with
    | none => none
    | some p1 => run_ops c rest p1

/-- The handles of the states for which `accept_policy_event` has been called, in the order
of the calls. -/
def accepted_handles : List port_call → List Nat
  | [] => []
  | port_call.accept_policy_event _ handle _ _ :: rest => handle :: accepted_handles rest
  | _ :: rest => accepted_handles rest

/-- The tokens given to `start_sending_capture`, in the order of the calls. -/
def sent_tokens : List port_call → List String
  | [] => []
  | port_call.start_sending_capture token :: rest => token :: sent_tokens rest
  | _ :: rest => sent_tokens rest

/-- The tokens given to `stop_capture`, in the order of the calls. -/
def stopped_tokens : List port_call → List String
  | [] => []
  | port_call.stop_capture token :: rest => token :: stopped_tokens rest
  | _ :: rest => stopped_tokens rest

/-- The handles of a list of states. -/
def handles (l : List actions_state) : List Nat := l.map fun a => a.m_handle

/-- A capture action without filter, with the given window. -/
def capture_of (before_event_ns after_event_ns : Nat) : action :=
  { type := action_type.ACTION_CAPTURE,
    capture :=
      { has_is_limited_to_container := false, is_limited_to_container := false,
        has_filter := false, filter := "", before_event_ns := before_event_ns,
        after_event_ns := after_event_ns } }

/-- An action of the given type that carries no capture. -/
def plain_action (t : action_type) : action :=
  { type := t,
    capture :=
      { has_is_limited_to_container := false, is_limited_to_container := false,
        has_filter := false, filter := "", before_event_ns := 0, after_event_ns := 0 } }

/-- An enabled policy with host scope, no scope predicate and the given actions. -/
def policy_with (actions : List action) : policy :=
  { id := 7, name := "policy", enabled := true, host_scope := true, container_scope := false,
    scope_predicates := 0, actions := actions }

/-- Collaborators that accept every policy event, start every capture, match every event
against the rule `rule`, and hand out the tokens `token-1`, `token-2`, ... in turn (the number
is one more than the number of calls made so far). -/
def willing : collaborators :=
  { accept_policy_event := fun _ => true,
    start_capture := fun _ => (true, ""),
    create_random_uuid := fun calls => "token-" ++ toString (calls.length + 1),
    falco_process_event := fun _ => falco_answer.rule_result "rule" "format",
    infra_match_scope := fun _ => true,
    formatters_tostring := fun _ _ => "output",
    recent_sinsp_events_dropped := fun _ => 0,
    machine_id := "machine" }

/-- An event of type 3 at time 100 in the container `c1`. -/
def example_evt : sinsp_evt :=
  { ts := 100, type := 3, ef_drop_falco := false,
    tinfo := some { m_container_id := "c1", m_pid := 42 } }

/-- The policy event that `match_event` builds for the example event. -/
def example_event : policy_event :=
  { timestamp_ns := 100, policy_id := 7, container_id := some "c1", rule := "rule",
    output := "output", sinsp_events_dropped := 0, action_results := [] }

/-- A policy object for the given actions, with a rule engine and every event type in its
mask. -/
def policy_object (actions : List action) : security_policy :=
  security_policy.construct (policy_with actions) (fun _ => true) true 1

/-- A policy object whose policy is disabled and has one capture action. -/
def disabled_object : security_policy :=
  security_policy.construct { policy_with [capture_of 1 2] with enabled := false }
    (fun _ => true) true 1

/-- The policy object of a policy with two capture actions after `perform_actions` has run
for the example event: both captures have started, with the tokens `token-1` and `token-2`. -/
def two_captures_done : security_policy :=
  (perform_actions (policy_object [capture_of 1 2, capture_of 3 4]) willing example_evt
    example_event).2

/-- The policy object of a policy whose only action has the unknown type 4 after
`perform_actions` has run for the example event. -/
def unknown_action_done : security_policy :=
  (perform_actions (policy_object [plain_action (action_type.ACTION_OTHER 4)]) willing
    example_evt example_event).2

/-- The bookkeeping that the operations of a policy object keep: the handles of the
outstanding states are distinct and below the next handle, the handles offered to
`accept_policy_event` are distinct, below the next handle and not among the outstanding ones,
and the flag `m_has_outstanding_actions` is set whenever a state has no remaining action. -/
def policy_inv (p : security_policy) : Prop :=
  (∀ h ∈ handles p.m_outstanding_actions, h < p.m_next_handle) ∧
    (handles p.m_outstanding_actions).Nodup ∧
    (accepted_handles p.m_calls).Nodup ∧
    (∀ h ∈ accepted_handles p.m_calls, h < p.m_next_handle) ∧
    (∀ h ∈ accepted_handles p.m_calls, h ∉ handles p.m_outstanding_actions) ∧
    (∀ a ∈ p.m_outstanding_actions, a.m_num_remaining_actions = 0 →
      p.m_has_outstanding_actions = true)

/-- What a callback of the state with the handle `handle` and the slot `slot` may change in a
state `a`, giving `b`: nothing but the number of remaining actions and, in the slot of index
`slot` of the state with the handle `handle`, the fields other than the type and the token.
The number and the order of the slots, their types and tokens, the other fields of the event
and the flag `m_send_now` are the same. -/
def stamped_only (handle slot : Nat) (a b : actions_state) : Prop :=
  b.m_handle = a.m_handle ∧ b.m_send_now = a.m_send_now ∧
    { b.m_event with action_results := a.m_event.action_results } = a.m_event ∧
    b.m_event.action_results.map (fun r => (r.type, r.token)) =
      a.m_event.action_results.map (fun r => (r.type, r.token)) ∧
    ∀ i : Nat, a.m_handle ≠ handle ∨ i ≠ slot →
      b.m_event.action_results.get? i = a.m_event.action_results.get? i

/-- The policy object of a policy with a pause and a capture action after the example event
has been processed: the capture has started and the pause command is on its way. -/
def pause_capture_done : security_policy :=
  (process_event (policy_object [plain_action action_type.ACTION_PAUSE, capture_of 1 2]) willing
    example_evt).2

/-- The callbacks handed to `perform_docker_cmd` among a list of calls, in order: for each,
the handle of the state and the index of the result slot that the callback captures. -/
def docker_slots : List port_call → List (Nat × Nat)
  | [] => []
  | port_call.perform_docker_cmd _ _ handle slot :: rest => (handle, slot) :: docker_slots rest
  | _ :: rest => docker_slots rest

/-- Whether an action is carried out by a container command, which completes in a callback. -/
def is_docker_action (a : action) : Bool :=
  decide (a.type = action_type.ACTION_PAUSE) || decide (a.type = action_type.ACTION_STOP)

/-- Whether a call is a call of `start_capture`. -/
def is_start_capture : port_call → Bool
  | port_call.start_capture _ _ _ _ _ _ _ _ _ => true
  | _ => false

/-- The number of calls of `start_capture` among the calls `new_calls`, made in this order
after the calls `made`, that the security manager answered with success. -/
def started_captures (c : collaborators) : List port_call → List port_call → Nat
  | _, [] => 0
  | made, call :: rest =>
    (if is_start_capture call = true ∧ (c.start_capture (made ++ [call])).1 = true then 1
      else 0) + started_captures c (made ++ [call]) rest

/-- Whether an action is a capture action. -/
def is_capture_action (a : action) : Bool := decide (a.type = action_type.ACTION_CAPTURE)

/-- Collaborators like the willing ones, except that the security manager starts no capture
before two calls have been made to the collaborators. -/
def reluctant : collaborators :=
  { willing with start_capture := fun calls => (decide (2 ≤ calls.length), "busy") }

/-- Collaborators like the willing ones, except that the infrastructure state finds no event
in scope. -/
def out_of_scope : collaborators :=
  { willing with infra_match_scope := fun _ => false }

/-- A policy object whose policy has one scope predicate and the host scope, with a capture
action. -/
def scoped_object : security_policy :=
  security_policy.construct { policy_with [capture_of 1 2] with scope_predicates := 1 }
    (fun _ => true) true 1

/-- A policy object whose policy has one scope predicate and neither the host scope nor the
container scope. -/
def unscoped_object : security_policy :=
  security_policy.construct
    { policy_with [capture_of 1 2] with scope_predicates := 1, host_scope := false }
    (fun _ => true) true 1

/-- The policy object at the point where `match_event` asks the rule engine: the conditions
have been checked and `check_outstanding_actions` has run. -/
def before_engine (p : security_policy) (c : collaborators) (evt : sinsp_evt) :
    security_policy :=
  check_outstanding_actions (check_conditions p c evt).2 c evt.ts

/-- Collaborators like the willing ones, except that the rule engine throws a
`falco_exception` on every event. -/
def throwing : collaborators :=
  { willing with falco_process_event := fun _ => falco_answer.throws "bad rule" }

/-- Collaborators like the willing ones, except that the rule engine throws on every event the
`sinsp_exception` of a filter that compares a number with `contains`. -/
def throwing_other : collaborators :=
  { willing with
    falco_process_event := fun _ =>
      falco_answer.throws_other "'contains' not supported for numeric filters" }

/-- A policy object with a pause action whose event-type mask holds the type 3 only. -/
def masked_object : security_policy :=
  security_policy.construct (policy_with [plain_action action_type.ACTION_PAUSE])
    (fun t => decide (t = 3)) true 1

/-- The masked policy object after the example event has matched and the callback of its
pause command has run with success: the state of the event is complete. -/
def pause_complete : security_policy :=
  match run_ops willing
      [policy_op.process_event example_evt, policy_op.action_callback 0 0 true true ""]
      masked_object with
  | some p => p
  | none => masked_object

/-- An event at time 200 whose type, 4, is not in the mask of the masked policy object. -/
def other_evt : sinsp_evt := { example_evt with ts := 200, type := 4 }

/-- An event of type 3 at time 200 that carries `EF_DROP_FALCO`. -/
def dropped_evt : sinsp_evt := { example_evt with ts := 200, ef_drop_falco := true }

/-- An event of type 3 at time 200. -/
def next_evt : sinsp_evt := { example_evt with ts := 200 }

end secpolicy

namespace compliance

/-- A task of a compliance calendar (`draiosproto::comp_task`): identifier, name, name of the
module that runs it, whether it is enabled, its scope predicates and its parameters. -/
structure comp_task where
  id : Nat
  name : String
  mod_name : String
  enabled : Bool
  scope_predicates : String
  task_params : List (String × String)
deriving DecidableEq, Repr

/-- The request of the Start call (`sdc_internal::comp_start`). -/
structure comp_start where
  machine_id : String
  customer_id : String
  include_desc : Bool
  send_failed_results : Bool
  save_temp_files : Bool
  metrics_statsd_port : Nat
  calendar : List comp_task
deriving DecidableEq, Repr

/-- An event read from the Start stream (`sdc_internal::comp_task_event`); `results` and
`events` are the result and event records it carries. -/
structure comp_task_event where
  task_name : String
  init_successful : Bool
  errstr : String
  results : List String
  events : List String
deriving DecidableEq, Repr

/-- The state of `m_start_tasks_future`: not valid, valid with the stream still open, or valid
and ready with the status of the stream. -/
inductive start_future where
  | invalid
  | running
  | ready (ok : Bool) (error_message : String)
deriving DecidableEq, Repr

/-- A call made by the compliance manager: to the infrastructure state, to the compliance
module (Stop, Start) and to the result handler. -/
inductive comp_call where
  | register_scope (reg : String) (host_scope container_scope : Bool)
      (scope_predicates : String)
  | check_registered_scope (reg : String)
  | stop
  | start (request : comp_start)
  | comp_results_ready (ts_ns : Nat) (results : List String)
deriving DecidableEq, Repr

/-- The configuration read by `refresh_compliance_tasks`. -/
structure comp_config where
  machine_id : String
  customer_id : String
  include_desc_in_compliance_results : Bool
  compliance_send_failed_results : Bool
  compliance_save_temp_files : Bool
  udp_port : Nat
  compliance_kube_bench_variant : String
deriving DecidableEq, Repr

/-- The compliance manager (`compliance_mgr`). `m_analyzer` says whether the pointer is
non-null, `m_cur_compliance_tasks` is the set of identifiers of the tasks started,
`m_comp_events_queue` holds the events that the stream has pushed and that have not been
popped, oldest first, and `m_calls` lists the calls made so far. -/
structure compliance_mgr where
  m_num_grpc_errs : Nat
  m_send_compliance_results : Bool
  m_send_compliance_events : Bool
  m_should_refresh_compliance_tasks : Bool
  m_initialized : Bool
  m_analyzer : Bool
  m_save_errors : Bool
  m_compliance_calendar : List comp_task
  m_cur_compliance_tasks : Finset Nat
  m_start_tasks_future : start_future
  m_comp_events_queue : List comp_task_event
  m_task_errors : List (String × String)
  m_calls : List comp_call

/-- The constructor `compliance_mgr::compliance_mgr`. -/
def compliance_mgr.construct : compliance_mgr :=
  { m_num_grpc_errs := 0, m_send_compliance_results := false,
    m_send_compliance_events := false, m_should_refresh_compliance_tasks := false,
    m_initialized := false, m_analyzer := false, m_save_errors := false,
    m_compliance_calendar := [], m_cur_compliance_tasks := ∅,
    m_start_tasks_future := start_future.invalid, m_comp_events_queue := [],
    m_task_errors := [], m_calls := [] }

/-- The function `compliance_mgr::init`; `analyzer` says whether the analyzer given is
non-null. -/
def init (m : compliance_mgr) (analyzer save_errors : Bool) : compliance_mgr :=
  { m with
    m_analyzer := analyzer, m_save_errors := save_errors, m_comp_events_queue := [],
    m_initialized := true }

/-- The function `compliance_mgr::request_refresh_compliance_tasks`. -/
def request_refresh_compliance_tasks (m : compliance_mgr) : compliance_mgr :=
  { m with m_should_refresh_compliance_tasks := true }

/-- The function `compliance_mgr::set_compliance_calendar`. -/
def set_compliance_calendar (m : compliance_mgr) (calendar : List comp_task)
    (send_results send_events : Bool) : compliance_mgr :=
  request_refresh_compliance_tasks
    { m with
      m_compliance_calendar := calendar, m_send_compliance_results := send_results,
      m_send_compliance_events := send_events }

/-- The registration identifier of a task. -/
def reg_id (task : comp_task) : String := "compliance_tasks:" ++ task.name

/-- The state of the loop of `refresh_compliance_tasks` over the tasks of the calendar: the
tasks put into the Start request so far, the set `new_tasks` and the calls made so far. -/
structure refresh_loop where
  run_tasks : List comp_task
  new_tasks : Finset Nat
  calls : List comp_call

/-- The copy of a task that is put into the Start request: the task itself, with the
parameter `variant` added when a kube-bench variant is configured. -/
def run_task (cfg : comp_config) (task : comp_task) : comp_task :=
  if cfg.compliance_kube_bench_variant ≠ "" then
    { task with
      task_params := task.task_params ++ [("variant", cfg.compliance_kube_bench_variant)] }
  else task

/-- The body of the loop of `refresh_compliance_tasks` for one task; `scope reg` is what
`check_registered_scope(reg)` answers. -/
def refresh_task (analyzer : Bool) (cfg : comp_config) (scope : String → Bool)
    (st : refresh_loop) (task : comp_task) : refresh_loop :=
  if task.enabled = false then st
  else if analyzer then
    if scope (reg_id task) = false then
      { st with
        calls := st.calls ++
          [comp_call.register_scope (reg_id task) true true task.scope_predicates,
            comp_call.check_registered_scope (reg_id task)] }
    else
      { run_tasks := st.run_tasks ++ [run_task cfg task],
        new_tasks := insert task.id st.new_tasks,
        calls := st.calls ++
          [comp_call.register_scope (reg_id task) true true task.scope_predicates,
            comp_call.check_registered_scope (reg_id task)] }
  else
    { run_tasks := st.run_tasks ++ [run_task cfg task],
      new_tasks := insert task.id st.new_tasks,
      calls := st.calls }

/-- The loop of `refresh_compliance_tasks` over the tasks of the calendar. -/
def refresh_tasks (m : compliance_mgr) (cfg : comp_config) (scope : String → Bool) :
    refresh_loop :=
  m.m_compliance_calendar.foldl (refresh_task m.m_analyzer cfg scope)
    { run_tasks := [], new_tasks := ∅, calls := m.m_calls }

/-- The Start request that `refresh_compliance_tasks` builds. -/
def start_request (cfg : comp_config) (run_tasks : List comp_task) : comp_start :=
  { machine_id := cfg.machine_id, customer_id := cfg.customer_id,
    include_desc := cfg.include_desc_in_compliance_results,
    send_failed_results := cfg.compliance_send_failed_results,
    save_temp_files := cfg.compliance_save_temp_files,
    metrics_statsd_port := cfg.udp_port, calendar := run_tasks }

/-- The calls made by `stop_compliance_tasks`: the Stop call, when `m_start_tasks_future` is
valid. The function changes no member of the manager, whether the answer comes within ten
seconds or not. -/
def stop_calls (future : start_future) : List comp_call :=
  if future = start_future.invalid then [] else [comp_call.stop]

/-- The function `compliance_mgr::stop_compliance_tasks`. -/
def stop_compliance_tasks (m : compliance_mgr) : compliance_mgr :=
  { m with m_calls := m.m_calls ++ stop_calls m.m_start_tasks_future }

/-- The function `compliance_mgr::start_compliance_tasks`: the Start call is made by a new
thread, whose future is kept. -/
def start_compliance_tasks (m : compliance_mgr) (start : comp_start) : compliance_mgr :=
  { m with
    m_calls := m.m_calls ++ [comp_call.start start],
    m_start_tasks_future := start_future.running }

/-- The function `compliance_mgr::refresh_compliance_tasks`. -/
def refresh_compliance_tasks (m : compliance_mgr) (cfg : comp_config)
    (scope : String → Bool) : compliance_mgr :=
  if (refresh_tasks m cfg scope).new_tasks = m.m_cur_compliance_tasks then
    { m with m_calls := (refresh_tasks m cfg scope).calls }
  else if (refresh_tasks m cfg scope).new_tasks.card > 0 then
    start_compliance_tasks
      { stop_compliance_tasks { m with m_calls := (refresh_tasks m cfg scope).calls } with
        m_cur_compliance_tasks := (refresh_tasks m cfg scope).new_tasks }
      (start_request cfg (refresh_tasks m cfg scope).run_tasks)
  else
    { stop_compliance_tasks { m with m_calls := (refresh_tasks m cfg scope).calls } with
      m_cur_compliance_tasks := (refresh_tasks m cfg scope).new_tasks }

/-- The Start stream ends with the given status: the future of the thread becomes ready. -/
def stream_ends (m : compliance_mgr) (ok : Bool) (error_message : String) : compliance_mgr :=
  match m.m_start_tasks_future with
  | start_future.running => { m with m_start_tasks_future := start_future.ready ok error_message }
  | _ => m

/-- The first part of `check_pending_task_results`: a future that is ready is consumed by
`get()`, after which it is not valid. -/
def consume_start_future (future : start_future) : start_future :=
  match future with
  | start_future.ready _ _ => start_future.invalid
  | other => other

/-- The state of the loop of `check_pending_task_results` over the events popped from the
queue. -/
structure pending_loop where
  num_grpc_errs : Nat
  task_errors : List (String × String)
  calls : List comp_call

/-- The body of the loop of `check_pending_task_results` for one event popped from the
queue; `now_ns` is the value of `sinsp_utils::get_current_time_ns()`. -/
def handle_task_event (save_errors send_results : Bool) (now_ns : Nat) (st : pending_loop)
    (cevent : comp_task_event) : pending_loop :=
  { num_grpc_errs :=
      if cevent.init_successful = false then st.num_grpc_errs + 1 else st.num_grpc_errs,
    task_errors :=
      if cevent.init_successful = false ∧ save_errors = true then
        st.task_errors ++ [(cevent.task_name, cevent.errstr)]
      else st.task_errors,
    calls :=
      if send_results = true ∧ cevent.results.length > 0 then
        st.calls ++ [comp_call.comp_results_ready now_ns cevent.results]
      else st.calls }

/-- The loop of `check_pending_task_results` over the events of the queue. -/
def handle_task_events (m : compliance_mgr) (now_ns : Nat) : pending_loop :=
  m.m_comp_events_queue.foldl (handle_task_event m.m_save_errors m.m_send_compliance_results
    now_ns)
    { num_grpc_errs := m.m_num_grpc_errs, task_errors := m.m_task_errors, calls := m.m_calls }

/-- The function `compliance_mgr::check_pending_task_results`. -/
def check_pending_task_results (m : compliance_mgr) (now_ns : Nat) : compliance_mgr :=
  { m with
    m_start_tasks_future := consume_start_future m.m_start_tasks_future,
    m_comp_events_queue := [],
    m_num_grpc_errs := (handle_task_events m now_ns).num_grpc_errs,
    m_task_errors := (handle_task_events m now_ns).task_errors,
    m_calls := (handle_task_events m now_ns).calls }

/-- The Stop and Start calls among a list of calls, in order. -/
def rpc_calls : List comp_call → List comp_call
  | [] => []
  | comp_call.stop :: rest => comp_call.stop :: rpc_calls rest
  | comp_call.start request :: rest => comp_call.start request :: rpc_calls rest
  | _ :: rest => rpc_calls rest

/-- Whether a task of the calendar is taken by `refresh_compliance_tasks`: it is enabled and,
when an analyzer is set, its registered scope matches. -/
def task_selected (analyzer : Bool) (scope : String → Bool) (task : comp_task) : Bool :=
  task.enabled && (!analyzer || scope (reg_id task))

/-- An enabled kube-bench task with the identifier 1. -/
def bench_task : comp_task :=
  { id := 1, name := "bench", mod_name := "kube-bench", enabled := true,
    scope_predicates := "", task_params := [] }

/-- An enabled task with the identifier 2 and one parameter. -/
def docker_task : comp_task :=
  { id := 2, name := "docker", mod_name := "docker-bench-security", enabled := true,
    scope_predicates := "", task_params := [("level", "1")] }

/-- A task with the identifier 3 that is not enabled. -/
def idle_task : comp_task :=
  { id := 3, name := "idle", mod_name := "docker-bench-security", enabled := false,
    scope_predicates := "", task_params := [] }

/-- A configuration without kube-bench variant. -/
def plain_config : comp_config :=
  { machine_id := "machine", customer_id := "customer",
    include_desc_in_compliance_results := false, compliance_send_failed_results := true,
    compliance_save_temp_files := false, udp_port := 8125,
    compliance_kube_bench_variant := "" }

/-- A manager initialised with an analyzer. -/
def ready_mgr : compliance_mgr := init compliance_mgr.construct true false

/-- The manager after the calendar of the three example tasks has been set and refreshed,
every scope matching: the stream of the tasks 1 and 2 is open. -/
def started_mgr : compliance_mgr :=
  refresh_compliance_tasks
    (set_compliance_calendar ready_mgr [bench_task, idle_task, docker_task] true false)
    plain_config (fun _ => true)

/-- The started manager after its stream has ended with an error and
`check_pending_task_results` has consumed the status. -/
def failed_mgr : compliance_mgr :=
  check_pending_task_results (stream_ends started_mgr false "connection refused") 1000

/-- The calls of the result handler among a list of calls, in order: the results handed
over. -/
def handler_calls : List comp_call → List (List String)
  | [] => []
  | comp_call.comp_results_ready _ results :: rest => results :: handler_calls rest
  | _ :: rest => handler_calls rest

/-- The started manager with three events in its queue: a successful one with two results,
one without result, and one whose task could not be initialised and that carries a result. -/
def queued_mgr : compliance_mgr :=
  { started_mgr with
    m_comp_events_queue :=
      [{ task_name := "bench", init_successful := true, errstr := "",
          results := ["r1", "r2"], events := [] },
        { task_name := "docker", init_successful := true, errstr := "", results := [],
          events := ["e1"] },
        { task_name := "docker", init_successful := false, errstr := "no docker",
          results := ["r3"], events := [] }] }

end compliance

namespace protohandler

/-- The message types used by `protocol_handler.cpp` (`draiosproto::message_type`). -/
inductive message_type where
  | METRICS
  | POLICY_EVENTS
  | THROTTLED_POLICY_EVENTS
  | COMP_RESULTS
  | AUDIT_TAP
  | DIRTY_SHUTDOWN_REPORT
  | SECURE_AUDIT
  | SECURE_PROFILING_FINGERPRINT
  | SECURE_NETSEC_SUMMARY
deriving DecidableEq, Repr

/-- The priorities of the queue (`protocol_queue::item_priority`). -/
inductive item_priority where
  | BQ_PRIORITY_HIGH
  | BQ_PRIORITY_MEDIUM
  | BQ_PRIORITY_LOW
deriving DecidableEq, Repr

/-- The compression methods (`protocol_compression_method`). -/
inductive protocol_compression_method where
  | NONE
  | GZIP
deriving DecidableEq, Repr

/-- A protobuf message as the handler sees it: its debug string and the number of its
repeated records (`events_size()`, `results_size()`). -/
structure message where
  debug_string : String
  size : Nat
deriving DecidableEq, Repr

/-- A serialized frame (`serialized_buffer`). -/
structure serialized_buffer where
  ts_ns : Nat
  message_type : message_type
  buffer : String
  flush_interval : Nat
deriving DecidableEq, Repr

/-- A call of `m_queue.put`: the frame, the priority and the answer. -/
structure put_record where
  item : serialized_buffer
  priority : item_priority
  accepted : Bool
deriving DecidableEq, Repr

/-- What the handler reads from its surroundings: the configuration values, the function
`dragent_protocol::message_to_buffer` (`none` stands for a null buffer), the answer of
`m_queue.put` given the calls of `put` made so far, and the current time. -/
structure handler_env where
  print_protobuf : Bool
  compression_enabled : Bool
  metrics_dir : String
  message_to_buffer : Nat → message_type → message → protocol_compression_method →
    Option serialized_buffer
  queue_put : List put_record → serialized_buffer → item_priority → Bool
  current_time_ns : Nat

/-- The handler (`protocol_handler`): `m_last_loop_ns`, the calls of `m_queue.put` made so
far, the messages given to `m_file_emitter.emit_message_to_file` and the lines logged. -/
structure protocol_handler where
  m_last_loop_ns : Nat
  m_puts : List put_record
  m_emitted : List message
  m_log : List String
deriving DecidableEq, Repr

/-- The constructor `protocol_handler::protocol_handler`. -/
def protocol_handler.construct : protocol_handler :=
  { m_last_loop_ns := 0, m_puts := [], m_emitted := [], m_log := [] }

/-- The compression method chosen by the handlers. -/
def compression_of (env : handler_env) : protocol_compression_method :=
  if env.compression_enabled then protocol_compression_method.GZIP
  else protocol_compression_method.NONE

/-- The handler with some lines added to its log. -/
def logged (h : protocol_handler) (lines : List String) : protocol_handler :=
  { h with m_log := h.m_log ++ lines }

/-- The lines logged when `c_print_protobuf` is set. -/
def print_lines (env : handler_env) (label : String) (msg : message) : List String :=
  if env.print_protobuf then [label ++ msg.debug_string] else []

/-- The function `protocol_handler::security_mgr_policy_events_ready`. -/
def security_mgr_policy_events_ready (h : protocol_handler) (env : handler_env) (ts_ns : Nat)
    (events : message) : protocol_handler :=
  match env.message_to_buffer ts_ns message_type.POLICY_EVENTS events (compression_of env) with
  | none =>
    logged h (print_lines env "Security Events:" events ++
      ["NULL converting message to buffer"])
  | some buffer =>
    if env.queue_put h.m_puts buffer item_priority.BQ_PRIORITY_MEDIUM = false then
      { h with
        m_puts := h.m_puts ++
          [{ item := buffer, priority := item_priority.BQ_PRIORITY_MEDIUM, accepted := false }],
        m_log := h.m_log ++ print_lines env "Security Events:" events ++
          ["sec_evts len=" ++ toString buffer.buffer.length ++ ", ne=" ++ toString events.size,
            "Queue full, discarding sample"] }
    else
      { h with
        m_puts := h.m_puts ++
          [{ item := buffer, priority := item_priority.BQ_PRIORITY_MEDIUM, accepted := true }],
        m_log := h.m_log ++ print_lines env "Security Events:" events ++
          ["sec_evts len=" ++ toString buffer.buffer.length ++ ", ne=" ++
            toString events.size] }

/-- The function `protocol_handler::security_mgr_throttled_events_ready`. -/
def security_mgr_throttled_events_ready (h : protocol_handler) (env : handler_env)
    (ts_ns : Nat) (tevents : message) (total_throttled_count : Nat) : protocol_handler :=
  match env.message_to_buffer ts_ns message_type.THROTTLED_POLICY_EVENTS tevents
      (compression_of env) with
  | none =>
    logged h (print_lines env "Throttled Security Events:" tevents ++
      ["NULL converting message to buffer"])
  | some buffer =>
    if env.queue_put h.m_puts buffer item_priority.BQ_PRIORITY_LOW = false then
      { h with
        m_puts := h.m_puts ++
          [{ item := buffer, priority := item_priority.BQ_PRIORITY_LOW, accepted := false }],
        m_log := h.m_log ++ print_lines env "Throttled Security Events:" tevents ++
          ["sec_evts len=" ++ toString buffer.buffer.length ++ ", nte=" ++
            toString tevents.size ++ ", tcount=" ++ toString total_throttled_count,
            "Queue full, discarding sample"] }
    else
      { h with
        m_puts := h.m_puts ++
          [{ item := buffer, priority := item_priority.BQ_PRIORITY_LOW, accepted := true }],
        m_log := h.m_log ++ print_lines env "Throttled Security Events:" tevents ++
          ["sec_evts len=" ++ toString buffer.buffer.length ++ ", nte=" ++
            toString tevents.size ++ ", tcount=" ++ toString total_throttled_count] }

/-- The function `protocol_handler::security_mgr_comp_results_ready`. -/
def security_mgr_comp_results_ready (h : protocol_handler) (env : handler_env) (ts_ns : Nat)
    (results : message) : protocol_handler :=
  match env.message_to_buffer ts_ns message_type.COMP_RESULTS results (compression_of env) with
  | none =>
    logged h (print_lines env "Compliance Results:" results ++
      ["NULL converting message to buffer"])
  | some buffer =>
    if env.queue_put h.m_puts buffer item_priority.BQ_PRIORITY_LOW = false then
      { h with
        m_puts := h.m_puts ++
          [{ item := buffer, priority := item_priority.BQ_PRIORITY_LOW, accepted := false }],
        m_log := h.m_log ++ print_lines env "Compliance Results:" results ++
          ["sec_comp_results len=" ++ toString buffer.buffer.length ++ ", ne=" ++
            toString results.size,
            "Queue full, discarding sample"] }
    else
      { h with
        m_puts := h.m_puts ++
          [{ item := buffer, priority := item_priority.BQ_PRIORITY_LOW, accepted := true }],
        m_log := h.m_log ++ print_lines env "Compliance Results:" results ++
          ["sec_comp_results len=" ++ toString buffer.buffer.length ++ ", ne=" ++
            toString results.size] }

/-- The function `protocol_handler::transmit`; `type_value` is the number printed for the
message type. -/
def transmit (h : protocol_handler) (env : handler_env) (type : message_type)
    (type_value : Nat) (msg : message) (priority : item_priority) (ts_ns : Nat) :
    protocol_handler :=
  match env.message_to_buffer (if ts_ns = 0 then env.current_time_ns else ts_ns) type msg
      (compression_of env) with
  | none => logged h ["NULL converting message to item"]
  | some item =>
    if env.queue_put h.m_puts item priority = false then
      { h with
        m_puts := h.m_puts ++ [{ item := item, priority := priority, accepted := false }],
        m_log := h.m_log ++
          ["Queue is full, discarding message " ++ toString type_value] }
    else if env.metrics_dir ≠ "" then
      { h with
        m_puts := h.m_puts ++ [{ item := item, priority := priority, accepted := true }],
        m_emitted := h.m_emitted ++ [msg] }
    else
      { h with
        m_puts := h.m_puts ++ [{ item := item, priority := priority, accepted := true }] }

/-- The frame with the given text, for the given time and type. -/
def frame_of (ts_ns : Nat) (type : message_type) (msg : message) : serialized_buffer :=
  { ts_ns := ts_ns, message_type := type, buffer := msg.debug_string, flush_interval := 0 }

/-- Surroundings in which every message is serialized and the queue is full. -/
def full_queue_env : handler_env :=
  { print_protobuf := false, compression_enabled := true, metrics_dir := "/metrics",
    message_to_buffer := fun ts_ns type msg _ => some (frame_of ts_ns type msg),
    queue_put := fun _ _ _ => false,
    current_time_ns := 99 }

/-- A message with two records. -/
def two_events : message := { debug_string := "events", size := 2 }

/-- The calls of `put` expected of a handler that uses the given message type and priority:
none when the message cannot be serialized, and otherwise one, for the frame serialized, with
that priority and the answer of the queue. -/
def puts_of (h : protocol_handler) (env : handler_env) (ts_ns : Nat) (type : message_type)
    (priority : item_priority) (msg : message) : List put_record :=
  match env.message_to_buffer ts_ns type msg (compression_of env) with
  | none => []
  | some buffer =>
    [{ item := buffer, priority := priority,
       accepted := env.queue_put h.m_puts buffer priority }]

/-- The statement `buffer->flush_interval = flush_interval` of `handle_uncompressed_sample`:
the outer `none` stands for undefined behaviour, the dereference of a null pointer. -/
def set_flush_interval (buffer : Option serialized_buffer) (flush_interval : Nat) :
    Option (Option serialized_buffer) :=
  match buffer with
  | none => none
  | some b => some (some { b with flush_interval := flush_interval })

/-- The function `protocol_handler::handle_uncompressed_sample`, for a non-null `metrics`:
the buffer returned (`none` for `nullptr`) and the handler afterwards; the result is `none`
when the behaviour of the function is undefined. -/
def handle_uncompressed_sample (h : protocol_handler) (env : handler_env) (ts_ns : Nat)
    (metrics : message) (flush_interval : Nat) (compressor : protocol_compression_method) :
    Option (Option serialized_buffer × protocol_handler) :=
  match set_flush_interval (env.message_to_buffer ts_ns message_type.METRICS metrics compressor)
      flush_interval with
  | none => none
  | some none =>
    some (none,
      { h with
        m_last_loop_ns := env.current_time_ns,
        m_log := h.m_log ++ (if env.print_protobuf then [metrics.debug_string] else []) ++
          ["NULL converting message to buffer"] })
  | some (some buffer) =>
    some (some buffer,
      { h with
        m_last_loop_ns := env.current_time_ns,
        m_log := h.m_log ++ (if env.print_protobuf then [metrics.debug_string] else []) })

/-- Surroundings in which no message can be serialized: `message_to_buffer` yields a null
buffer. -/
def null_buffer_env : handler_env :=
  { full_queue_env with message_to_buffer := fun _ _ _ _ => none }

end protohandler

namespace libsinsp

/-- Modulus of `uint64_t` arithmetic. -/
def U64 : Nat := 2 ^ 64

/-- The comparison operators of a filter check (`ppm_cmp_operator`), as far as `filter.cpp`
names them. -/
inductive ppm_cmp_operator where
  | CO_NONE
  | CO_EQ
  | CO_NE
  | CO_LT
  | CO_LE
  | CO_GT
  | CO_GE
  | CO_CONTAINS
deriving DecidableEq, Repr

/-- The types of a parameter (`ppm_param_type`) that `flt_compare` names; `PT_OTHER` stands
for every other type. -/
inductive ppm_param_type where
  | PT_INT8
  | PT_INT16
  | PT_INT32
  | PT_INT64
  | PT_FD
  | PT_PID
  | PT_UINT8
  | PT_SIGTYPE
  | PT_UINT16
  | PT_SYSCALLID
  | PT_UINT32
  | PT_UINT64
  | PT_RELTIME
  | PT_ABSTIME
  | PT_CHARBUF
  | PT_BYTEBUF
  | PT_ERRNO
  | PT_SOCKADDR
  | PT_SOCKTUPLE
  | PT_FDLIST
  | PT_FSPATH
  | PT_OTHER
deriving DecidableEq, Repr

/-- How a comparison function ends: it returns a value or throws a `sinsp_exception` with the
given message, in both cases after the given number of failed assertions (which are written
to the log, as `ASSERT_TO_LOG` is defined in `settings.h`). -/
inductive outcome where
  | returns (value : Bool) (asserts : Nat)
  | throws (what : String) (asserts : Nat)
deriving DecidableEq, Repr

/-- The function `flt_compare_uint64`; the operands are below `2 ^ 64`. -/
def flt_compare_uint64 (op : ppm_cmp_operator) (operand1 operand2 : Nat) : outcome :=
  match op with
  | ppm_cmp_operator.CO_EQ => outcome.returns (decide (operand1 = operand2)) 0
  | ppm_cmp_operator.CO_NE => outcome.returns (decide (operand1 ≠ operand2)) 0
  | ppm_cmp_operator.CO_LT => outcome.returns (decide (operand1 < operand2)) 0
  | ppm_cmp_operator.CO_LE => outcome.returns (decide (operand1 ≤ operand2)) 0
  | ppm_cmp_operator.CO_GT => outcome.returns (decide (operand1 > operand2)) 0
  | ppm_cmp_operator.CO_GE => outcome.returns (decide (operand1 ≥ operand2)) 0
  | _ => outcome.throws "'contains' not supported for numeric filters" 0

/-- The function `flt_compare_int64`. -/
def flt_compare_int64 (op : ppm_cmp_operator) (operand1 operand2 : Int) : outcome :=
  match op with
  | ppm_cmp_operator.CO_EQ => outcome.returns (decide (operand1 = operand2)) 0
  | ppm_cmp_operator.CO_NE => outcome.returns (decide (operand1 ≠ operand2)) 0
  | ppm_cmp_operator.CO_LT => outcome.returns (decide (operand1 < operand2)) 0
  | ppm_cmp_operator.CO_LE => outcome.returns (decide (operand1 ≤ operand2)) 0
  | ppm_cmp_operator.CO_GT => outcome.returns (decide (operand1 > operand2)) 0
  | ppm_cmp_operator.CO_GE => outcome.returns (decide (operand1 ≥ operand2)) 0
  | _ => outcome.throws "'contains' not supported for numeric filters" 0

/-- The function `flt_compare_string`, on the two strings as lists of bytes without the
terminating zero; `op_string` is `std::to_string(op)`. -/
def flt_compare_string (op_string : ppm_cmp_operator → String) (op : ppm_cmp_operator)
    (operand1 operand2 : List Nat) : outcome :=
  match op with
  | ppm_cmp_operator.CO_EQ => outcome.returns (decide (operand1 = operand2)) 0
  | ppm_cmp_operator.CO_NE => outcome.returns (decide (operand1 ≠ operand2)) 0
  | ppm_cmp_operator.CO_CONTAINS => outcome.returns (decide (operand2 <:+: operand1)) 0
  | ppm_cmp_operator.CO_LT => outcome.throws "'<' not supported for numeric filters" 0
  | ppm_cmp_operator.CO_LE => outcome.throws "'<=' not supported for numeric filters" 0
  | ppm_cmp_operator.CO_GT => outcome.throws "'>' not supported for numeric filters" 0
  | ppm_cmp_operator.CO_GE => outcome.throws "'>=' not supported for numeric filters" 0
  | ppm_cmp_operator.CO_NONE => outcome.throws ("invalid filter oprator " ++ op_string op) 1

/-- The value of a list of bytes read as an unsigned integer, least significant byte first,
as on the little-endian machines the library is built for. -/
def le_value : List Nat → Nat
  | [] => 0
  | b :: rest => b % 256 + 256 * le_value rest

/-- The object of `n` bytes at the start of the memory an operand points to, as an unsigned
integer; `none` when the memory holds fewer than `n` bytes. -/
def read_unsigned (n : Nat) (mem : List Nat) : Option Nat :=
  if mem.length < n then none else some (le_value (mem.take n))

/-- The value of the bit pattern `v` of `n` bytes read through a pointer to a signed integer
of that size (`*(int8_t*)operand`, `*(int16_t*)operand`, ...), in two's complement. -/
def as_signed (n : Nat) (v : Nat) : Int :=
  if v < 2 ^ (8 * n - 1) then (v : Int) else (v : Int) - 2 ^ (8 * n)

/-- The conversion `(uint64_t)x` of a signed integer: the value modulo `2 ^ 64`. -/
def to_uint64 (x : Int) : Nat := (x % 2 ^ 64).toNat

/-- The string an operand points to: the bytes before the first zero byte; `none` when the
memory holds no zero byte. -/
def c_string (mem : List Nat) : Option (List Nat) :=
  if mem.all (fun b => decide (b % 256 ≠ 0)) then none
  else some ((mem.takeWhile (fun b => decide (b % 256 ≠ 0))).map (fun b => b % 256))

/-- The function `flt_compare`. An operand is the memory it points to, as a list of bytes;
the result is `none` when the function reads past the end of that memory. -/
def flt_compare (op_string : ppm_cmp_operator → String) (op : ppm_cmp_operator)
    (type : ppm_param_type) (operand1 operand2 : List Nat) : Option outcome :=
  match type with
  | ppm_param_type.PT_INT8 =>
    match read_unsigned 1 operand1, read_unsigned 1 operand2 with
    | some v1, some v2 => some (flt_compare_int64 op (as_signed 1 v1) (as_signed 1 v2))
    | _, _ => none
  | ppm_param_type.PT_INT16 =>
    match read_unsigned 2 operand1, read_unsigned 2 operand2 with
    | some v1, some v2 => some (flt_compare_int64 op (as_signed 2 v1) (as_signed 2 v2))
    | _, _ => none
  | ppm_param_type.PT_INT32 =>
    match read_unsigned 4 operand1, read_unsigned 4 operand2 with
    | some v1, some v2 => some (flt_compare_int64 op (as_signed 4 v1) (as_signed 4 v2))
    | _, _ => none
  | ppm_param_type.PT_INT64 | ppm_param_type.PT_FD | ppm_param_type.PT_PID =>
    match read_unsigned 8 operand1, read_unsigned 8 operand2 with
    | some v1, some v2 => some (flt_compare_int64 op (as_signed 8 v1) (as_signed 8 v2))
    | _, _ => none
  | ppm_param_type.PT_UINT8 | ppm_param_type.PT_SIGTYPE =>
    match read_unsigned 1 operand1, read_unsigned 1 operand2 with
    | some v1, some v2 =>
      some (flt_compare_uint64 op (to_uint64 (as_signed 1 v1)) (to_uint64 (as_signed 1 v2)))
    | _, _ => none
  | ppm_param_type.PT_UINT16 | ppm_param_type.PT_SYSCALLID =>
    match read_unsigned 2 operand1, read_unsigned 2 operand2 with
    | some v1, some v2 =>
      some (flt_compare_uint64 op (to_uint64 (as_signed 2 v1)) (to_uint64 (as_signed 2 v2)))
    | _, _ => none
  | ppm_param_type.PT_UINT32 =>
    match read_unsigned 4 operand1, read_unsigned 4 operand2 with
    | some v1, some v2 =>
      some (flt_compare_uint64 op (to_uint64 (as_signed 4 v1)) (to_uint64 (as_signed 4 v2)))
    | _, _ => none
  | ppm_param_type.PT_UINT64 | ppm_param_type.PT_RELTIME | ppm_param_type.PT_ABSTIME =>
    match read_unsigned 8 operand1, read_unsigned 8 operand2 with
    | some v1, some v2 => some (flt_compare_uint64 op v1 v2)
    | _, _ => none
  | ppm_param_type.PT_CHARBUF =>
    match c_string operand1, c_string operand2 with
    | some s1, some s2 => some (flt_compare_string op_string op s1 s2)
    | _, _ => none
  | _ => some (outcome.returns false 1)

/-- The comparison of two unsigned integers, as the operator says; `none` for an operator
that is not one of the six comparisons. -/
def compare_unsigned (op : ppm_cmp_operator) (v1 v2 : Nat) : Option Bool :=
  match op with
  | ppm_cmp_operator.CO_EQ => some (decide (v1 = v2))
  | ppm_cmp_operator.CO_NE => some (decide (v1 ≠ v2))
  | ppm_cmp_operator.CO_LT => some (decide (v1 < v2))
  | ppm_cmp_operator.CO_LE => some (decide (v1 ≤ v2))
  | ppm_cmp_operator.CO_GT => some (decide (v1 > v2))
  | ppm_cmp_operator.CO_GE => some (decide (v1 ≥ v2))
  | _ => none

/-- The number of bytes of the unsigned types that `flt_compare` reads through pointers to
signed integers. -/
def narrow_size : ppm_param_type → Option Nat
  | ppm_param_type.PT_UINT8 => some 1
  | ppm_param_type.PT_UINT16 => some 2
  | ppm_param_type.PT_UINT32 => some 4
  | _ => none

/-- How a check is joined to the checks before it (`boolop`). -/
inductive boolop where
  | BO_NONE
  | BO_NOT
  | BO_OR
  | BO_AND
  | BO_ORNOT
  | BO_ANDNOT
deriving DecidableEq, Repr

/-- An event (`sinsp_evt`), with the members of `event.h` that identify it. -/
structure sinsp_evt where
  m_cpuid : Nat
  m_evtnum : Nat
  m_iosize : Nat
deriving DecidableEq, Repr

/-- A filter check (`sinsp_filter_check`): its operator `m_boolop` and its virtual function
`compare`. -/
structure sinsp_filter_check where
  m_boolop : boolop
  compare : sinsp_evt → Bool

/-- The state of the loop of `sinsp_filter_expression::compare`: the value `res`, the indices
of the checks whose `compare` has run, in order, and the number of failed assertions. -/
structure compare_loop where
  res : Bool
  evaluated : List Nat
  asserts : Nat
deriving DecidableEq, Repr

/-- The body of the loop of `sinsp_filter_expression::compare` for the check of index `j`. -/
def compare_step (evt : sinsp_evt) (st : compare_loop) (j : Nat) (chk : sinsp_filter_check) :
    compare_loop :=
  if j = 0 then
    match chk.m_boolop with
    | boolop.BO_NONE =>
      { res := chk.compare evt, evaluated := st.evaluated ++ [j], asserts := st.asserts }
    | boolop.BO_NOT =>
      { res := !chk.compare evt, evaluated := st.evaluated ++ [j], asserts := st.asserts }
    | _ => { res := st.res, evaluated := st.evaluated ++ [j], asserts := st.asserts + 1 }
  else
    match chk.m_boolop with
    | boolop.BO_OR =>
      { res := st.res || chk.compare evt, evaluated := st.evaluated ++ [j],
        asserts := st.asserts }
    | boolop.BO_AND =>
      { res := st.res && chk.compare evt, evaluated := st.evaluated ++ [j],
        asserts := st.asserts }
    | boolop.BO_ORNOT =>
      { res := st.res || !chk.compare evt, evaluated := st.evaluated ++ [j],
        asserts := st.asserts }
    | boolop.BO_ANDNOT =>
      { res := st.res && !chk.compare evt, evaluated := st.evaluated ++ [j],
        asserts := st.asserts }
    | _ => { res := st.res, evaluated := st.evaluated ++ [j], asserts := st.asserts + 1 }

/-- The loop of `sinsp_filter_expression::compare` from the index `j` on, over the checks
that are left. -/
def compare_from (evt : sinsp_evt) : Nat → List sinsp_filter_check → compare_loop →
    compare_loop
  | _, [], st => st
  | j, chk :: rest, st => compare_from evt (j + 1) rest (compare_step evt st j chk)

/-- The function `sinsp_filter_expression::compare` on the checks `m_checks`: the loop runs
over the first `size` checks, where `size` is the number of checks as a `uint32_t`. -/
def sinsp_filter_expression.compare (m_checks : List sinsp_filter_check) (evt : sinsp_evt) :
    compare_loop :=
  compare_from evt 0 (m_checks.take (m_checks.length % 2 ^ 32))
    { res := true, evaluated := [], asserts := 0 }

/-- The value that the first check of an expression gives: the value of the check, negated
when the check is joined by `BO_NOT`. -/
def first_value (op : boolop) (c : Bool) : Bool :=
  match op with
  | boolop.BO_NOT => !c
  | _ => c

/-- The value that a later check with the value `c` makes of the value `r` so far. -/
def later_value (r : Bool) (op : boolop) (c : Bool) : Bool :=
  match op with
  | boolop.BO_OR => r || c
  | boolop.BO_AND => r && c
  | boolop.BO_ORNOT => r || !c
  | boolop.BO_ANDNOT => r && !c
  | _ => r

/-- The strict left-to-right fold of the checks of an expression, without precedence between
the operators; true for an expression without checks. -/
def strict_left_fold (checks : List sinsp_filter_check) (evt : sinsp_evt) : Bool :=
  match checks with
  | [] => true
  | first :: rest =>
    rest.foldl (fun r chk => later_value r chk.m_boolop (chk.compare evt))
      (first_value first.m_boolop (first.compare evt))

/-- Whether a check may be the first of an expression: it is joined by `BO_NONE` or by
`BO_NOT`. -/
def is_first_op (op : boolop) : Bool :=
  decide (op = boolop.BO_NONE) || decide (op = boolop.BO_NOT)

/-- Whether a check may follow another: it is joined by `BO_OR`, `BO_AND`, `BO_ORNOT` or
`BO_ANDNOT`. -/
def is_later_op (op : boolop) : Bool :=
  decide (op = boolop.BO_OR) || decide (op = boolop.BO_AND) ||
    decide (op = boolop.BO_ORNOT) || decide (op = boolop.BO_ANDNOT)

/-- Whether the checks of an expression are joined as the parser joins them. -/
def well_joined : List sinsp_filter_check → Bool
  | [] => true
  | first :: rest => is_first_op first.m_boolop && rest.all (fun chk => is_later_op chk.m_boolop)

/-- A check with a fixed value. -/
def constant_check (op : boolop) (value : Bool) : sinsp_filter_check :=
  { m_boolop := op, compare := fun _ => value }

/-- The event number 1 of the processor 0. -/
def first_evt : sinsp_evt := { m_cpuid := 0, m_evtnum := 1, m_iosize := 0 }

end libsinsp

/-! ## Theorems about the capture ring -/

namespace memdumper

/-- A property of both branches of a conditional holds of the conditional. -/
theorem ite_both {α : Type} (P : α → Prop) (c : Prop) [Decidable c] (a b : α)
    (ha : P a) (hb : P b) : P (if c then a else b) := by
  by_cases h : c
  · rw [if_pos h]; exact ha
  · rw [if_neg h]; exact hb

/-- The autodisable check leaves the deque and the reader alone. -/
theorem check_autodisable_frame {d d1 : sinsp_memory_dumper} {ts sys_ts_ns : Nat}
    (h : check_autodisable d ts sys_ts_ns = some d1) :
    d1.m_states = d.m_states ∧ d1.m_reader_active = d.m_reader_active ∧
      d1.m_reader_state = d.m_reader_state ∧ d1.m_bsize = d.m_bsize ∧
      d1.m_file_id = d.m_file_id ∧ d1.m_active_state = d.m_active_state := by
  unfold check_autodisable at h
  by_cases ha : d.m_autodisable = true
  · rw [if_pos ha] at h
    cases hc : autodisable_count d sys_ts_ns with
    | none => rw [hc] at h; exact absurd h (by simp)
    | some c =>
      rw [hc] at h
      by_cases h10 : c ≥ 10
      · simp only [h10, if_true, Option.some.injEq] at h
        subst h
        exact ⟨rfl, rfl, rfl, rfl, rfl, rfl⟩
      · simp only [h10, if_false, Option.some.injEq] at h
        subst h
        exact ⟨rfl, rfl, rfl, rfl, rfl, rfl⟩
  · rw [if_neg ha] at h
    cases h
    exact ⟨rfl, rfl, rfl, rfl, rfl, rfl⟩

/-- Clearing a delayed switch leaves the deque and the reader alone. -/
theorem clear_delayed_switch_frame (d : sinsp_memory_dumper) :
    (clear_delayed_switch d).m_states = d.m_states ∧
      (clear_delayed_switch d).m_reader_active = d.m_reader_active ∧
      (clear_delayed_switch d).m_reader_state = d.m_reader_state ∧
      (clear_delayed_switch d).m_bsize = d.m_bsize ∧
      (clear_delayed_switch d).m_file_id = d.m_file_id := by
  unfold clear_delayed_switch
  by_cases h : d.m_delayed_switch_states_needed = true
  · rw [if_pos h]; exact ⟨rfl, rfl, rfl, rfl, rfl⟩
  · rw [if_neg h]; exact ⟨rfl, rfl, rfl, rfl, rfl⟩

/-- The bookkeeping of the dump file leaves the deque and the reader alone. -/
theorem save_capture_frame (d : sinsp_memory_dumper) :
    (save_capture d).m_states = d.m_states ∧
      (save_capture d).m_reader_active = d.m_reader_active ∧
      (save_capture d).m_reader_state = d.m_reader_state ∧
      (save_capture d).m_bsize = d.m_bsize ∧
      (save_capture d).m_file_id = d.m_file_id := by
  unfold save_capture
  by_cases h : d.m_cf = true
  · rw [if_pos h]
    by_cases h2 : u64_sub d.m_switches_to_go 1 = 0 ∨
        u64_add d.m_cur_dump_size d.m_bsize ≥ d.m_max_disk_size
    · rw [if_pos h2]; exact ⟨rfl, rfl, rfl, rfl, rfl⟩
    · rw [if_neg h2]; exact ⟨rfl, rfl, rfl, rfl, rfl⟩
  · rw [if_neg h]; exact ⟨rfl, rfl, rfl, rfl, rfl⟩

/-- The dumper that `switch_states` hands to the rotation has the deque and the reader of the
dumper it was called on. -/
theorem before_rotation_frame {d d1 : sinsp_memory_dumper} {ts sys_ts_ns : Nat}
    (h : check_autodisable d ts sys_ts_ns = some d1) :
    (save_capture (clear_delayed_switch (set_last_switch_state d1 sys_ts_ns))).m_states =
        d.m_states ∧
      (save_capture (clear_delayed_switch (set_last_switch_state d1 sys_ts_ns))).m_reader_active =
        d.m_reader_active ∧
      (save_capture (clear_delayed_switch (set_last_switch_state d1 sys_ts_ns))).m_reader_state =
        d.m_reader_state ∧
      (save_capture (clear_delayed_switch (set_last_switch_state d1 sys_ts_ns))).m_bsize =
        d.m_bsize ∧
      (save_capture (clear_delayed_switch (set_last_switch_state d1 sys_ts_ns))).m_file_id =
        d.m_file_id := by
  obtain ⟨a1, a2, a3, a4, a5, _⟩ := check_autodisable_frame h
  obtain ⟨b1, b2, b3, b4, b5⟩ :=
    clear_delayed_switch_frame (set_last_switch_state d1 sys_ts_ns)
  obtain ⟨c1, c2, c3, c4, c5⟩ :=
    save_capture_frame (clear_delayed_switch (set_last_switch_state d1 sys_ts_ns))
  refine ⟨?_, ?_, ?_, ?_, ?_⟩
  · rw [c1, b1]; exact a1
  · rw [c2, b2]; exact a2
  · rw [c3, b3]; exact a3
  · rw [c4, b4]; exact a4
  · rw [c5, b5]; exact a5

/-- The rotation when no reader is active: the back segment moves to the front. -/
theorem rotate_states_no_reader {d : sinsp_memory_dumper} {s : sinsp_memory_dumper_state}
    (hr : d.m_reader_active = false) (hl : d.m_states.getLast? = some s) :
    rotate_states d = some { d with m_states := s :: d.m_states.dropLast } := by
  unfold rotate_states
  rw [if_neg (by rw [hr]; exact Bool.false_ne_true), hl]

/-- The rotation when a reader is active and fewer than three segments exist: a new segment
is put at the front. -/
theorem rotate_states_new {d : sinsp_memory_dumper}
    (hr : d.m_reader_active = true) (hl : d.m_states.length < 3) :
    rotate_states d = some { d with
      m_file_id := d.m_file_id + 1,
      m_states :=
        sinsp_memory_dumper_state.create d.m_bsize
          ("/dragent-memdumper-" ++ toString d.m_file_id) :: d.m_states,
      m_reader_state := d.m_reader_state + 1 } := by
  unfold rotate_states
  rw [if_pos hr, if_pos hl]

/-- The rotation when a reader is active and three segments exist: only the flags of the
delayed switch change. -/
theorem rotate_states_stall {d : sinsp_memory_dumper}
    (hr : d.m_reader_active = true) (hl : ¬ d.m_states.length < 3) :
    rotate_states d = some { d with
      m_delayed_switch_states_needed := true, m_delayed_switch_states_ready := false,
      m_delayed_switch_states_missed_events := 0 } := by
  unfold rotate_states
  rw [if_pos hr, if_neg hl]

/-- The length of a non-empty list with its last element moved to the front. -/
theorem length_rotate {α : Type} (l : List α) (x : α) (h : l.getLast? = some x) :
    (x :: l.dropLast).length = l.length := by
  cases l with
  | nil => simp at h
  | cons a t => simp

/-- The size of the deque and the reader flag after the rotation. -/
theorem rotate_states_length {d d1 : sinsp_memory_dumper} (h : rotate_states d = some d1) :
    d1.m_states.length =
        (if d.m_reader_active = true ∧ d.m_states.length < 3 then d.m_states.length + 1
          else d.m_states.length) ∧
      d1.m_reader_active = d.m_reader_active := by
  by_cases hr : d.m_reader_active = true
  · by_cases hl : d.m_states.length < 3
    · rw [rotate_states_new hr hl] at h
      cases h
      rw [if_pos ⟨hr, hl⟩]
      exact ⟨rfl, rfl⟩
    · rw [rotate_states_stall hr hl] at h
      cases h
      rw [if_neg (fun hh => hl hh.2)]
      exact ⟨rfl, rfl⟩
  · have hr2 : d.m_reader_active = false := by
      cases hv : d.m_reader_active with
      | true => exact absurd hv hr
      | false => rfl
    rw [if_neg (fun hh => hr hh.1)]
    cases hg : d.m_states.getLast? with
    | none =>
      unfold rotate_states at h
      rw [if_neg hr, hg] at h
      exact absurd h (by simp)
    | some st =>
      rw [rotate_states_no_reader hr2 hg] at h
      cases h
      exact ⟨length_rotate d.m_states st hg, rfl⟩

/-- The reopening of the front segment keeps the size of the deque and the reader flag, and
makes the front segment the active one. -/
theorem reopen_first_frame {d d1 : sinsp_memory_dumper} {open_ok : Bool}
    (h : reopen_first d open_ok = some d1) :
    d1.m_states.length = d.m_states.length ∧ d1.m_reader_active = d.m_reader_active ∧
      d1.m_active_state = 0 ∧ d1.m_states.tail = d.m_states.tail ∧
      d1.m_states.head? = d.m_states.head?.map (fun st => (st.reopen open_ok).2) ∧
      d1.m_reader_state = d.m_reader_state := by
  unfold reopen_first at h
  cases hs : d.m_states with
  | nil => rw [hs] at h; exact absurd h (by simp)
  | cons st rest =>
    rw [hs] at h
    cases h
    exact ⟨rfl, rfl, rfl, rfl, rfl, rfl⟩

/-- The three stages of a call of `switch_states` that returns. -/
theorem switch_states_stages {d d2 : sinsp_memory_dumper} {ts sys_ts_ns : Nat} {open_ok : Bool}
    (h : switch_states d ts sys_ts_ns open_ok = some d2) :
    ∃ d1 d3, check_autodisable d ts sys_ts_ns = some d1 ∧
      rotate_states (save_capture (clear_delayed_switch
        (set_last_switch_state d1 sys_ts_ns))) = some d3 ∧
      reopen_first d3 open_ok = some d2 := by
  unfold switch_states at h
  cases hc : check_autodisable d ts sys_ts_ns with
  | none => rw [hc] at h; exact absurd h (by simp)
  | some d1 =>
    rw [hc] at h
    dsimp only at h
    cases hrot : rotate_states (save_capture (clear_delayed_switch
        (set_last_switch_state d1 sys_ts_ns))) with
    | none => rw [hrot] at h; exact absurd h (by simp)
    | some d3 =>
      rw [hrot] at h
      exact ⟨d1, d3, rfl, hrot, h⟩

/-- The size of the deque and the reader flag after `switch_states`. -/
theorem switch_states_length {d d2 : sinsp_memory_dumper} {ts sys_ts_ns : Nat} {open_ok : Bool}
    (h : switch_states d ts sys_ts_ns open_ok = some d2) :
    d2.m_states.length =
        (if d.m_reader_active = true ∧ d.m_states.length < 3 then d.m_states.length + 1
          else d.m_states.length) ∧
      d2.m_reader_active = d.m_reader_active := by
  obtain ⟨d1, d3, hc, hrot, hre⟩ := switch_states_stages h
  obtain ⟨f1, f2, _, _, _⟩ := before_rotation_frame hc
  obtain ⟨r1, r2⟩ := rotate_states_length hrot
  obtain ⟨o1, o2, _⟩ := reopen_first_frame hre
  rw [f1, f2] at r1
  rw [f2] at r2
  exact ⟨by rw [o1, r1], by rw [o2, r2]⟩

/-- The trimming loop of `add_job` keeps the first two segments. -/
theorem pop_extra_states_eq_take (n : Nat) :
    ∀ l : List sinsp_memory_dumper_state, l.length ≤ n + 2 → pop_extra_states n l = l.take 2 := by
  induction n with
  | zero =>
    intro l hl
    unfold pop_extra_states
    exact (List.take_of_length_le (by omega)).symm
  | succ n ih =>
    intro l hl
    unfold pop_extra_states
    by_cases h2 : l.length > 2
    · rw [if_pos h2, ih l.dropLast (by rw [List.length_dropLast]; omega),
        List.dropLast_eq_take, List.take_take]
      congr 1
      omega
    · rw [if_neg h2]
      exact (List.take_of_length_le (by omega)).symm

/-- The trimming of `add_job` leaves two segments when there were at least two. -/
theorem pop_extra_states_length (l : List sinsp_memory_dumper_state) (h : 2 ≤ l.length) :
    (pop_extra_states l.length l).length = 2 := by
  rw [pop_extra_states_eq_take l.length l (by omega), List.length_take]
  omega

/-- The end of `add_job` trims the deque and marks the reader inactive. -/
theorem add_job_finish_frame (d : sinsp_memory_dumper) (job : sinsp_memory_dumper_job)
    (future : Nat) :
    (add_job_finish d job future).1.m_states = pop_extra_states d.m_states.length d.m_states ∧
      (add_job_finish d job future).1.m_reader_active = false := by
  unfold add_job_finish
  by_cases h : d.m_delayed_switch_states_needed = true
  · rw [if_pos h]; exact ⟨rfl, rfl⟩
  · rw [if_neg h]; exact ⟨rfl, rfl⟩

/-- One evaluation of the scan loop of `add_job` leaves the deque and the reader flag alone. -/
theorem add_job_iter_frame {d : sinsp_memory_dumper} {job : sinsp_memory_dumper_job}
    {membuf_mtx : Option Bool} {env : scan_env}
    {r : sinsp_memory_dumper × sinsp_memory_dumper_job × Option Bool}
    (h : add_job_iter d job membuf_mtx env = some r) :
    r.1.m_states = d.m_states ∧ r.1.m_reader_active = d.m_reader_active ∧
      r.1.m_reader_state = d.m_reader_state - 1 ∧ r.1.m_active_state = d.m_active_state := by
  unfold add_job_iter at h
  by_cases h0 : d.m_reader_state = 0
  · rw [if_pos h0] at h
    cases h
    exact ⟨rfl, rfl, by dsimp only; omega, rfl⟩
  · rw [if_neg h0] at h
    cases hg : d.m_states.get? (d.m_reader_state - 1) with
    | none => rw [hg] at h; exact absurd h (by simp)
    | some state =>
      rw [hg] at h
      dsimp only at h
      cases ha : apply_job_filter d state job membuf_mtx env with
      | none => rw [ha] at h; exact absurd h (by simp)
      | some x =>
        rw [ha] at h
        cases h
        exact ⟨rfl, rfl, rfl, rfl⟩

/-- The scan loop of `add_job` leaves the deque and the reader flag alone. -/
theorem add_job_loop_frame (envs : Nat → scan_env) (n : Nat) :
    ∀ (d : sinsp_memory_dumper) (job : sinsp_memory_dumper_job) (membuf_mtx : Option Bool)
      (r : sinsp_memory_dumper × sinsp_memory_dumper_job × Option Bool),
      add_job_loop envs n d job membuf_mtx = some r →
        r.1.m_states = d.m_states ∧ r.1.m_reader_active = d.m_reader_active := by
  induction n with
  | zero =>
    intro d job membuf_mtx r h
    unfold add_job_loop at h
    cases h
    exact ⟨rfl, rfl⟩
  | succ n ih =>
    intro d job membuf_mtx r h
    unfold add_job_loop at h
    by_cases h0 : d.m_reader_state = 0
    · rw [if_pos h0] at h
      cases h
      exact ⟨rfl, rfl⟩
    · rw [if_neg h0] at h
      cases hi : add_job_iter d job membuf_mtx (envs d.m_reader_state) with
      | none => rw [hi] at h; exact absurd h (by simp)
      | some x =>
        rw [hi] at h
        dsimp only at h
        obtain ⟨i1, i2, _, _⟩ := add_job_iter_frame hi
        obtain ⟨j1, j2⟩ := ih x.1 x.2.1 x.2.2 r h
        exact ⟨by rw [j1, i1], by rw [j2, i2]⟩

/-- A call of `add_job` that returns either stopped at the compilation of the filter and left
the dumper as it was, or trimmed the deque and left the reader inactive. -/
theorem add_job_frame {d : sinsp_memory_dumper} {ts : Nat} {filename filter : String}
    {past future : Nat} {membuf_mtx : Option Bool} {compile_exception : Option String}
    {envs : Nat → scan_env} {r : sinsp_memory_dumper × sinsp_memory_dumper_job × Option Bool}
    (h : add_job d ts filename filter past future membuf_mtx compile_exception envs = some r) :
    (filter ≠ "" ∧ compile_exception ≠ none ∧ r.1 = d) ∨
      (r.1.m_states = pop_extra_states d.m_states.length d.m_states ∧
        r.1.m_reader_active = false) := by
  unfold add_job at h
  have main : ∀ job1 : sinsp_memory_dumper_job,
      (match add_job_loop envs (add_job_begin d).m_reader_state (add_job_begin d) job1
          membuf_mtx with
        | none => none
        | some r =>
          some ((add_job_finish r.1 r.2.1 future).1, (add_job_finish r.1 r.2.1 future).2,
            r.2.2)) = some r →
      r.1.m_states = pop_extra_states d.m_states.length d.m_states ∧
        r.1.m_reader_active = false := by
    intro job1 hm
    cases hl : add_job_loop envs (add_job_begin d).m_reader_state (add_job_begin d) job1
        membuf_mtx with
    | none => rw [hl] at hm; exact absurd hm (by simp)
    | some x =>
      rw [hl] at hm
      cases hm
      obtain ⟨l1, _⟩ := add_job_loop_frame envs _ _ _ _ _ hl
      obtain ⟨f1, f2⟩ := add_job_finish_frame x.1 x.2.1 future
      have hb : (add_job_begin d).m_states = d.m_states := rfl
      exact ⟨by rw [f1, l1, hb], f2⟩
  by_cases hf : filter ≠ ""
  · cases compile_exception with
    | some e =>
      simp only [if_pos hf] at h
      cases h
      exact Or.inl ⟨hf, by simp, rfl⟩
    | none =>
      simp only [if_pos hf] at h
      exact Or.inr (main _ h)
  · simp only [if_neg hf] at h
    exact Or.inr (main _ h)

/-- The probe allocation of `init` leaves the deque alone. -/
theorem init_probe_states (d : sinsp_memory_dumper) (n : Nat) (env : init_env) :
    (init_probe d n env).m_states = d.m_states := by
  unfold init_probe
  by_cases h : init_probe_fails n env = true
  · rw [if_pos h]
  · rw [if_neg h]

/-- A dumper that `init` leaves enabled has exactly two segments and no active reader. -/
theorem init_enabled_states (junk : sinsp_memory_dumper)
    (bufsize max_disk_size max_init_attempts : Nat) (autodisable : Bool)
    (threshold time_ms re_enable : Nat) (env : init_env)
    (h : (init (sinsp_memory_dumper.construct junk) bufsize max_disk_size max_init_attempts
      autodisable threshold time_ms re_enable env).m_disabled = false) :
    (init (sinsp_memory_dumper.construct junk) bufsize max_disk_size max_init_attempts
        autodisable threshold time_ms re_enable env).m_states.length = 2 ∧
      (init (sinsp_memory_dumper.construct junk) bufsize max_disk_size max_init_attempts
        autodisable threshold time_ms re_enable env).m_reader_active = false := by
  unfold init at h ⊢
  by_cases hd : (init_probe (init_config (sinsp_memory_dumper.construct junk) autodisable
      threshold time_ms re_enable) max_init_attempts env).m_disabled = true
  · rw [if_pos hd] at h
    rw [hd] at h
    exact absurd h (by simp)
  · rw [if_neg hd]
    refine ⟨?_, rfl⟩
    show ((init_probe (init_config (sinsp_memory_dumper.construct junk) autodisable
      threshold time_ms re_enable) max_init_attempts env).m_states ++ [_] ++ [_]).length = 2
    rw [init_probe_states]
    rfl

/-- Every step keeps the bounds on the deque. -/
theorem apply_step_bounds {d d1 : sinsp_memory_dumper} (s : dumper_step)
    (hb : ring_bounds d) (h : apply_step d s = some d1) : ring_bounds d1 := by
  obtain ⟨b1, b2, b3⟩ := hb
  cases s with
  | switch_states ts sys_ts_ns open_ok =>
    obtain ⟨l1, l2⟩ := switch_states_length (show switch_states d ts sys_ts_ns open_ok = some d1
      from h)
    by_cases hc : d.m_reader_active = true ∧ d.m_states.length < 3
    · rw [if_pos hc] at l1
      refine ⟨by omega, by omega, ?_⟩
      intro hf
      rw [l2, hc.1] at hf
      exact absurd hf (by simp)
    · rw [if_neg hc] at l1
      refine ⟨by omega, by omega, ?_⟩
      intro hf
      rw [l2] at hf
      rw [l1]
      exact b3 hf
  | add_job ts filename filter past future membuf_mtx compile_exception envs =>
    have h2 : (add_job d ts filename filter past future membuf_mtx compile_exception envs).map
        (fun r => r.1) = some d1 := h
    cases ha : add_job d ts filename filter past future membuf_mtx compile_exception envs with
    | none => rw [ha] at h2; exact absurd h2 (by simp)
    | some r =>
      rw [ha] at h2
      simp only [Option.map_some', Option.some.injEq] at h2
      subst h2
      rcases add_job_frame ha with ⟨_, _, e⟩ | ⟨e1, e2⟩
      · rw [e]; exact ⟨b1, b2, b3⟩
      · have hl : r.1.m_states.length = 2 := by rw [e1]; exact pop_extra_states_length _ b1
        exact ⟨by omega, by omega, fun _ => hl⟩
  | add_job_begin =>
    have h2 : some (add_job_begin d) = some d1 := h
    cases h2
    refine ⟨b1, b2, ?_⟩
    intro hf
    exact absurd (show true = false from hf) (by simp)
  | add_job_iter job membuf_mtx env =>
    have h2 : (add_job_iter d job membuf_mtx env).map (fun r => r.1) = some d1 := h
    cases ha : add_job_iter d job membuf_mtx env with
    | none => rw [ha] at h2; exact absurd h2 (by simp)
    | some r =>
      rw [ha] at h2
      simp only [Option.map_some', Option.some.injEq] at h2
      subst h2
      obtain ⟨i1, i2, _, _⟩ := add_job_iter_frame ha
      unfold ring_bounds
      rw [i1, i2]
      exact ⟨b1, b2, b3⟩
  | add_job_finish job future =>
    have h2 : some (add_job_finish d job future).1 = some d1 := h
    cases h2
    obtain ⟨f1, f2⟩ := add_job_finish_frame d job future
    have hl : (add_job_finish d job future).1.m_states.length = 2 := by
      rw [f1]; exact pop_extra_states_length _ b1
    exact ⟨by omega, by omega, fun _ => hl⟩

/-- Every sequence of steps keeps the bounds on the deque. -/
theorem run_steps_bounds (steps : List dumper_step) :
    ∀ d d1 : sinsp_memory_dumper, ring_bounds d → run_steps steps d = some d1 →
      ring_bounds d1 := by
  induction steps with
  | nil =>
    intro d d1 hb h
    unfold run_steps at h
    cases h
    exact hb
  | cons s rest ih =>
    intro d d1 hb h
    unfold run_steps at h
    cases hs : apply_step d s with
    | none => rw [hs] at h; exact absurd h (by simp)
    | some d2 =>
      rw [hs] at h
      exact ih d2 d1 (apply_step_bounds s hb hs) h

/-- C1: after a successful `init` the deque holds exactly two segments; after every sequence
of `switch_states` and `add_job` calls, also when `switch_states` runs between the parts of a
call of `add_job`, it holds at least two and at most three; `switch_states` adds a segment
exactly when a reader is active and fewer than three exist; and a call of `add_job` that
starts while no reader is active, or that gets past the compilation of its filter, returns
with exactly two segments. -/
theorem ring_has_two_or_three_segments (junk : sinsp_memory_dumper)
    (bufsize max_disk_size max_init_attempts : Nat) (autodisable : Bool)
    (threshold time_ms re_enable : Nat) (env : init_env)
    (hinit : (init (sinsp_memory_dumper.construct junk) bufsize max_disk_size max_init_attempts
      autodisable threshold time_ms re_enable env).m_disabled = false) :
    (init (sinsp_memory_dumper.construct junk) bufsize max_disk_size max_init_attempts
        autodisable threshold time_ms re_enable env).m_states.length = 2 ∧
      (∀ (steps : List dumper_step) (d : sinsp_memory_dumper),
        run_steps steps (init (sinsp_memory_dumper.construct junk) bufsize max_disk_size
          max_init_attempts autodisable threshold time_ms re_enable env) = some d →
        2 ≤ d.m_states.length ∧ d.m_states.length ≤ 3) ∧
      (∀ (d d2 : sinsp_memory_dumper) (ts sys_ts_ns : Nat) (open_ok : Bool),
        switch_states d ts sys_ts_ns open_ok = some d2 →
        d2.m_states.length =
          (if d.m_reader_active = true ∧ d.m_states.length < 3 then d.m_states.length + 1
            else d.m_states.length)) ∧
      (∀ (steps : List dumper_step) (d : sinsp_memory_dumper),
        run_steps steps (init (sinsp_memory_dumper.construct junk) bufsize max_disk_size
          max_init_attempts autodisable threshold time_ms re_enable env) = some d →
        ∀ (ts : Nat) (filename filter : String) (past future : Nat) (membuf_mtx : Option Bool)
          (compile_exception : Option String) (envs : Nat → scan_env)
          (r : sinsp_memory_dumper × sinsp_memory_dumper_job × Option Bool),
          add_job d ts filename filter past future membuf_mtx compile_exception envs = some r →
          (d.m_reader_active = false ∨ filter = "" ∨ compile_exception = none) →
          r.1.m_states.length = 2) := by
  obtain ⟨i1, i2⟩ := init_enabled_states junk bufsize max_disk_size max_init_attempts
    autodisable threshold time_ms re_enable env hinit
  have hb0 : ring_bounds (init (sinsp_memory_dumper.construct junk) bufsize max_disk_size
      max_init_attempts autodisable threshold time_ms re_enable env) :=
    ⟨by omega, by omega, fun _ => i1⟩
  refine ⟨i1, ?_, ?_, ?_⟩
  · intro steps d hrun
    obtain ⟨b1, b2, _⟩ := run_steps_bounds steps _ d hb0 hrun
    exact ⟨b1, b2⟩
  · intro d d2 ts sys_ts_ns open_ok h
    exact (switch_states_length h).1
  · intro steps d hrun ts filename filter past future membuf_mtx compile_exception envs r ha hc
    obtain ⟨b1, b2, b3⟩ := run_steps_bounds steps _ d hb0 hrun
    rcases add_job_frame ha with ⟨n1, n2, e⟩ | ⟨e1, _⟩
    · rcases hc with hc | hc | hc
      · rw [e]; exact b3 hc
      · exact absurd hc n1
      · exact absurd hc n2
    · rw [e1]; exact pop_extra_states_length _ b1

/-- C1 on the example dumper: `init` succeeds, a call of `switch_states` made while a call of
`add_job` scans the ring gives a third segment, and the bounds hold there. -/
theorem ring_has_two_or_three_segments_witness :
    example_dumper.m_disabled = false ∧
      (∃ d : sinsp_memory_dumper,
        run_steps [dumper_step.add_job_begin, dumper_step.switch_states 5 7 true]
          example_dumper = some d ∧
        d.m_states.length = 3 ∧ 2 ≤ d.m_states.length ∧ d.m_states.length ≤ 3) := by
  have hinit : example_dumper.m_disabled = false := by decide
  have hrun : ∃ d : sinsp_memory_dumper,
      run_steps [dumper_step.add_job_begin, dumper_step.switch_states 5 7 true]
        example_dumper = some d ∧ d.m_states.length = 3 := ⟨_, rfl, rfl⟩
  obtain ⟨d, h1, h2⟩ := hrun
  exact ⟨hinit, d, h1, h2,
    (ring_has_two_or_three_segments blank_dumper 3000 100000 3 true 20 0 1 friendly_init_env
      hinit).2.1 _ d h1⟩

/-- The read loop leaves the time window of the job alone. -/
theorem read_loop_window (shm_name lasterr : String) (written : Nat)
    (l : List next_result) :
    ∀ (bytes_read : Nat) (job : sinsp_memory_dumper_job),
      same_window job (read_loop shm_name lasterr written l bytes_read job).2.1 := by
  induction l with
  | nil =>
    intro bytes_read job
    unfold read_loop
    exact ⟨rfl, rfl⟩
  | cons r rest ih =>
    intro bytes_read job
    unfold read_loop
    split_ifs
    · exact ⟨rfl, rfl⟩
    · exact ih _ _
    · exact ⟨rfl, rfl⟩
    · exact ih _ _
    · exact ih _ _
    · exact ⟨rfl, rfl⟩

/-- The read passes of `apply_job_filter` leave the time window of the job alone. -/
theorem apply_job_filter_read_window {d : sinsp_memory_dumper}
    {state : sinsp_memory_dumper_state} (job : sinsp_memory_dumper_job)
    {membuf_mtx : Option Bool} {env : scan_env}
    {r : sinsp_memory_dumper_job × Option Bool}
    (h : apply_job_filter_read d state job membuf_mtx env = some r) : same_window job r.1 := by
  have w1 : same_window job (first_pass env state job).2.1 := read_loop_window _ _ _ _ _ _
  have w2 : same_window job (second_pass env state job).2.1 := by
    have := read_loop_window state.m_shm_name env.lasterr env.flushed_second
      (first_pass env state job).2.2.pending (first_pass env state job).2.2.bytes_read
      (first_pass env state job).2.1
    exact ⟨this.1.trans w1.1, this.2.trans w1.2⟩
  unfold apply_job_filter_read at h
  by_cases h1 : (first_pass env state job).1 = false
  · rw [if_pos h1] at h
    cases h
    exact w1
  · rw [if_neg h1] at h
    cases hl : lock_if_active d state membuf_mtx with
    | none => rw [hl] at h; exact absurd h (by simp)
    | some mtx1 =>
      rw [hl] at h
      dsimp only at h
      by_cases h2 : (second_pass env state job).1 = false
      · rw [if_pos h2] at h
        cases h
        exact w2
      · rw [if_neg h2] at h
        cases h
        exact w2

/-- The function `apply_job_filter` leaves the time window of the job alone. -/
theorem apply_job_filter_window {d : sinsp_memory_dumper}
    {state : sinsp_memory_dumper_state} {job : sinsp_memory_dumper_job}
    {membuf_mtx : Option Bool} {env : scan_env}
    {r : sinsp_memory_dumper_job × Option Bool}
    (h : apply_job_filter d state job membuf_mtx env = some r) : same_window job r.1 := by
  unfold apply_job_filter at h
  by_cases h1 : state.m_is_open = false ∨ state.m_written_events = 0
  · rw [if_pos h1] at h; cases h; exact ⟨rfl, rfl⟩
  · rw [if_neg h1] at h
    by_cases h2 : job.m_start_time ≠ 0 ∧ state.m_end_ts < job.m_start_time
    · rw [if_pos h2] at h; cases h; exact ⟨rfl, rfl⟩
    · rw [if_neg h2] at h
      by_cases h3 : env.shm_open_ok = false
      · rw [if_pos h3] at h; cases h; exact ⟨rfl, rfl⟩
      · rw [if_neg h3] at h
        cases hf : env.fdopen_exception with
        | some e =>
          rw [hf] at h
          dsimp only at h
          cases hg : d.m_states.get? d.m_active_state with
          | none => rw [hg] at h; exact absurd h (by simp)
          | some act => rw [hg] at h; cases h; exact ⟨rfl, rfl⟩
        | none =>
          rw [hf] at h
          dsimp only at h
          by_cases h4 : job.m_dumper = false
          · rw [if_pos h4] at h
            cases hd : env.dump_open_exception with
            | some e => rw [hd] at h; cases h; exact ⟨rfl, rfl⟩
            | none =>
              rw [hd] at h
              dsimp only at h
              exact apply_job_filter_read_window { job with m_dumper := true } h
          · rw [if_neg h4] at h
            exact apply_job_filter_read_window job h

/-- The scan of a segment is defined when the iterator of the active segment is valid. -/
theorem apply_job_filter_defined (d : sinsp_memory_dumper) (state : sinsp_memory_dumper_state)
    (job : sinsp_memory_dumper_job) (membuf_mtx : Option Bool) (env : scan_env)
    (hact : d.m_active_state < d.m_states.length) :
    ∃ r, apply_job_filter d state job membuf_mtx env = some r := by
  obtain ⟨act, hg⟩ : ∃ act, d.m_states.get? d.m_active_state = some act :=
    ⟨_, List.get?_eq_get hact⟩
  have hlock : ∃ m, lock_if_active d state membuf_mtx = some m := by
    unfold lock_if_active
    cases membuf_mtx with
    | none => exact ⟨_, rfl⟩
    | some held =>
      dsimp only
      rw [hg]
      dsimp only
      by_cases hn : act.m_shm_name = state.m_shm_name
      · rw [if_pos hn]; exact ⟨_, rfl⟩
      · rw [if_neg hn]; exact ⟨_, rfl⟩
  have hread : ∀ j : sinsp_memory_dumper_job,
      ∃ r, apply_job_filter_read d state j membuf_mtx env = some r := by
    intro j
    unfold apply_job_filter_read
    by_cases h1 : (first_pass env state j).1 = false
    · rw [if_pos h1]; exact ⟨_, rfl⟩
    · rw [if_neg h1]
      obtain ⟨m, hm⟩ := hlock
      rw [hm]
      dsimp only
      by_cases h2 : (second_pass env state j).1 = false
      · rw [if_pos h2]; exact ⟨_, rfl⟩
      · rw [if_neg h2]; exact ⟨_, rfl⟩
  unfold apply_job_filter
  by_cases h1 : state.m_is_open = false ∨ state.m_written_events = 0
  · rw [if_pos h1]; exact ⟨_, rfl⟩
  · rw [if_neg h1]
    by_cases h2 : job.m_start_time ≠ 0 ∧ state.m_end_ts < job.m_start_time
    · rw [if_pos h2]; exact ⟨_, rfl⟩
    · rw [if_neg h2]
      by_cases h3 : env.shm_open_ok = false
      · rw [if_pos h3]; exact ⟨_, rfl⟩
      · rw [if_neg h3]
        cases hf : env.fdopen_exception with
        | some e =>
          dsimp only
          rw [hg]
          exact ⟨_, rfl⟩
        | none =>
          dsimp only
          by_cases h4 : job.m_dumper = false
          · rw [if_pos h4]
            cases hd : env.dump_open_exception with
            | some e => exact ⟨_, rfl⟩
            | none => exact hread _
          · rw [if_neg h4]
            exact hread _

/-- One evaluation of the scan loop leaves the time window of the job alone. -/
theorem add_job_iter_window {d : sinsp_memory_dumper} {job : sinsp_memory_dumper_job}
    {membuf_mtx : Option Bool} {env : scan_env}
    {r : sinsp_memory_dumper × sinsp_memory_dumper_job × Option Bool}
    (h : add_job_iter d job membuf_mtx env = some r) : same_window job r.2.1 := by
  unfold add_job_iter at h
  by_cases h0 : d.m_reader_state = 0
  · rw [if_pos h0] at h
    cases h
    exact ⟨rfl, rfl⟩
  · rw [if_neg h0] at h
    cases hg : d.m_states.get? (d.m_reader_state - 1) with
    | none => rw [hg] at h; exact absurd h (by simp)
    | some state =>
      rw [hg] at h
      dsimp only at h
      cases ha : apply_job_filter d state job membuf_mtx env with
      | none => rw [ha] at h; exact absurd h (by simp)
      | some x =>
        rw [ha] at h
        cases h
        exact apply_job_filter_window ha

/-- One evaluation of the scan loop is defined when the reader and the iterator of the active
segment are inside the deque. -/
theorem add_job_iter_defined (d : sinsp_memory_dumper) (job : sinsp_memory_dumper_job)
    (membuf_mtx : Option Bool) (env : scan_env)
    (hr : d.m_reader_state ≤ d.m_states.length) (hact : d.m_active_state < d.m_states.length) :
    ∃ r, add_job_iter d job membuf_mtx env = some r := by
  unfold add_job_iter
  by_cases h0 : d.m_reader_state = 0
  · rw [if_pos h0]; exact ⟨_, rfl⟩
  · rw [if_neg h0]
    have hlt : d.m_reader_state - 1 < d.m_states.length := by omega
    rw [List.get?_eq_get hlt]
    dsimp only
    obtain ⟨x, hx⟩ := apply_job_filter_defined d (d.m_states.get ⟨_, hlt⟩) job membuf_mtx env
      hact
    rw [hx]
    exact ⟨_, rfl⟩

/-- The scan loop run alone returns, and leaves the time window of the job alone. -/
theorem add_job_loop_returns (envs : Nat → scan_env) (n : Nat) :
    ∀ (d : sinsp_memory_dumper) (job : sinsp_memory_dumper_job) (membuf_mtx : Option Bool),
      d.m_reader_state ≤ d.m_states.length → d.m_active_state < d.m_states.length →
        ∃ r, add_job_loop envs n d job membuf_mtx = some r ∧ same_window job r.2.1 := by
  induction n with
  | zero =>
    intro d job membuf_mtx _ _
    exact ⟨_, rfl, rfl, rfl⟩
  | succ n ih =>
    intro d job membuf_mtx hr hact
    unfold add_job_loop
    by_cases h0 : d.m_reader_state = 0
    · rw [if_pos h0]; exact ⟨_, rfl, rfl, rfl⟩
    · rw [if_neg h0]
      obtain ⟨x, hx⟩ := add_job_iter_defined d job membuf_mtx (envs d.m_reader_state) hr hact
      obtain ⟨i1, _, i3, i4⟩ := add_job_iter_frame hx
      have w := add_job_iter_window hx
      rw [hx]
      dsimp only
      obtain ⟨r, hr1, hr2⟩ := ih x.1 x.2.1 x.2.2 (by rw [i1, i3]; omega) (by rw [i1, i4]; exact hact)
      exact ⟨r, hr1, hr2.1.trans w.1, hr2.2.trans w.2⟩

/-- A call of `add_job` run alone returns a job whose time window is the one of `new_job`. -/
theorem add_job_returns (d : sinsp_memory_dumper) (ts : Nat) (filename filter : String)
    (past future : Nat) (membuf_mtx : Option Bool) (compile_exception : Option String)
    (envs : Nat → scan_env) (hact : d.m_active_state < d.m_states.length) :
    ∃ r, add_job d ts filename filter past future membuf_mtx compile_exception envs = some r ∧
      same_window (new_job ts filename past future) r.2.1 := by
  have main : ∀ job1 : sinsp_memory_dumper_job,
      same_window (new_job ts filename past future) job1 →
      ∃ r, (match add_job_loop envs (add_job_begin d).m_reader_state (add_job_begin d) job1
          membuf_mtx with
        | none => none
        | some r =>
          some ((add_job_finish r.1 r.2.1 future).1, (add_job_finish r.1 r.2.1 future).2,
            r.2.2)) = some r ∧ same_window (new_job ts filename past future) r.2.1 := by
    intro job1 hw
    obtain ⟨x, hx, wx⟩ := add_job_loop_returns envs (add_job_begin d).m_reader_state
      (add_job_begin d) job1 membuf_mtx (Nat.le_refl _) hact
    rw [hx]
    refine ⟨_, rfl, ?_⟩
    have wf : same_window x.2.1 (add_job_finish x.1 x.2.1 future).2 := by
      unfold add_job_finish
      dsimp only
      by_cases hz : future = 0
      · rw [if_pos hz]; exact ⟨rfl, rfl⟩
      · rw [if_neg hz]; exact ⟨rfl, rfl⟩
    exact ⟨(wf.1.trans wx.1).trans hw.1, (wf.2.trans wx.2).trans hw.2⟩
  unfold add_job
  by_cases hf : filter ≠ ""
  · cases compile_exception with
    | some e =>
      simp only [if_pos hf]
      exact ⟨_, rfl, rfl, rfl⟩
    | none =>
      simp only [if_pos hf]
      exact main _ ⟨rfl, rfl⟩
  · simp only [if_neg hf]
    exact main _ ⟨rfl, rfl⟩

/-- C8, as the claim states it, fails: with `delta_time_past_ns = 0` the job that `add_job`
returns for `ts = 100` starts at `0`, while `ts - delta_time_past_ns` is `100`. -/
theorem add_job_window_counterexample :
    (add_job example_dumper 100 "capture.scap" "" 0 2 none none (fun _ => quiet_scan)).map
        (fun r => r.2.1.m_start_time) = some 0 ∧
      u64_sub 100 0 = 100 := by
  constructor
  · rfl
  · decide

/-- C8, amended: a call of `add_job` on a dumper whose active segment exists returns a job
with `m_start_time = ts - delta_time_past_ns` in 64-bit unsigned arithmetic when
`delta_time_past_ns` is not zero and `m_start_time = 0` when it is zero, and with
`m_end_time = ts + delta_time_future_ns` in 64-bit unsigned arithmetic; these are the exact
difference and sum when nothing wraps. -/
theorem add_job_window (d : sinsp_memory_dumper) (ts : Nat) (filename filter : String)
    (past future : Nat) (membuf_mtx : Option Bool) (compile_exception : Option String)
    (envs : Nat → scan_env) (hact : d.m_active_state < d.m_states.length) :
    ∃ r, add_job d ts filename filter past future membuf_mtx compile_exception envs = some r ∧
      r.2.1.m_start_time = (if past ≠ 0 then u64_sub ts past else 0) ∧
      r.2.1.m_end_time = u64_add ts future ∧
      (past ≠ 0 → past ≤ ts → ts < U64 → r.2.1.m_start_time = ts - past) ∧
      (ts + future < U64 → r.2.1.m_end_time = ts + future) := by
  obtain ⟨r, hr, w1, w2⟩ := add_job_returns d ts filename filter past future membuf_mtx
    compile_exception envs hact
  have e1 : r.2.1.m_start_time = (if past ≠ 0 then u64_sub ts past else 0) := w1
  have e2 : r.2.1.m_end_time = u64_add ts future := w2
  refine ⟨r, hr, e1, e2, ?_, ?_⟩
  · intro hp hle hlt
    rw [e1, if_pos hp]
    unfold u64_sub
    unfold U64 at hlt ⊢
    omega
  · intro hlt
    rw [e2]
    unfold u64_add
    exact Nat.mod_eq_of_lt hlt

/-- C8, amended, on the example of the spec: an event at 100 s with one second before and two
seconds after gives the window from 99 s to 102 s. -/
theorem add_job_window_witness :
    example_dumper.m_active_state < example_dumper.m_states.length ∧
      ∃ r, add_job example_dumper 100000000000 "capture.scap" "" 1000000000 2000000000 none
          none (fun _ => quiet_scan) = some r ∧
        r.2.1.m_start_time = 99000000000 ∧ r.2.1.m_end_time = 102000000000 := by
  have hact : example_dumper.m_active_state < example_dumper.m_states.length := by decide
  obtain ⟨r, hr, _, _, h1, h2⟩ := add_job_window example_dumper 100000000000 "capture.scap" ""
    1000000000 2000000000 none none (fun _ => quiet_scan) hact
  exact ⟨hact, r, hr, h1 (by decide) (by decide) (by decide), h2 (by decide)⟩

/-- A call of `switch_states` whose first two stages are known ends with the reopening of the
front segment. -/
theorem switch_states_of_stages {d d1 d3 : sinsp_memory_dumper} {ts sys_ts_ns : Nat}
    (open_ok : Bool) (hc : check_autodisable d ts sys_ts_ns = some d1)
    (hrot : rotate_states (save_capture (clear_delayed_switch
      (set_last_switch_state d1 sys_ts_ns))) = some d3) :
    switch_states d ts sys_ts_ns open_ok = reopen_first d3 open_ok := by
  unfold switch_states
  rw [hc]
  dsimp only
  rw [hrot]

/-- The reopening of the front segment of a deque that is not empty. -/
theorem reopen_first_cons {d : sinsp_memory_dumper} {s : sinsp_memory_dumper_state}
    {rest : List sinsp_memory_dumper_state} (open_ok : Bool) (h : d.m_states = s :: rest) :
    ∃ d2, reopen_first d open_ok = some d2 ∧ d2.m_states = (s.reopen open_ok).2 :: rest ∧
      d2.m_active_state = 0 := by
  unfold reopen_first
  rw [h]
  exact ⟨_, rfl, rfl, rfl⟩

/-- C9: when the autodisable check of a call of `switch_states` completes, the call changes
the deque as follows. With no reader active and a deque that is not empty, the back segment is
moved to the front and reopened there, the other segments keep their order and the size is
unchanged. With a reader active and fewer than three segments, a newly created segment, named
after `m_file_id` and of size `m_bsize`, is put at the front and opened, and the existing
segments follow in their order. In both cases the front segment is the active one. -/
theorem switch_states_rotation (d d1 : sinsp_memory_dumper) (ts sys_ts_ns : Nat)
    (open_ok : Bool) (hc : check_autodisable d ts sys_ts_ns = some d1) :
    (d.m_reader_active = false → ∀ st, d.m_states.getLast? = some st →
      ∃ d2, switch_states d ts sys_ts_ns open_ok = some d2 ∧
        d2.m_states = (st.reopen open_ok).2 :: d.m_states.dropLast ∧
        d2.m_states.map (fun x => x.m_shm_name) =
          st.m_shm_name :: d.m_states.dropLast.map (fun x => x.m_shm_name) ∧
        d2.m_states.length = d.m_states.length ∧
        d2.m_active_state = 0) ∧
    (d.m_reader_active = true → d.m_states.length < 3 →
      ∃ d2, switch_states d ts sys_ts_ns open_ok = some d2 ∧
        d2.m_states =
          ((sinsp_memory_dumper_state.create d.m_bsize
            ("/dragent-memdumper-" ++ toString d.m_file_id)).reopen open_ok).2 :: d.m_states ∧
        d2.m_states.length = d.m_states.length + 1 ∧
        d2.m_active_state = 0) := by
  obtain ⟨f1, f2, _, f4, f5⟩ := before_rotation_frame hc
  constructor
  · intro hr st hl
    have hrot := rotate_states_no_reader (d := save_capture (clear_delayed_switch
      (set_last_switch_state d1 sys_ts_ns))) (s := st) (by rw [f2]; exact hr)
      (by rw [f1]; exact hl)
    obtain ⟨d2, h1, h2, h3⟩ := reopen_first_cons open_ok
      (d := { save_capture (clear_delayed_switch (set_last_switch_state d1 sys_ts_ns)) with
        m_states := st :: (save_capture (clear_delayed_switch
          (set_last_switch_state d1 sys_ts_ns))).m_states.dropLast })
      (s := st) rfl
    rw [f1] at h2
    refine ⟨d2, ?_, h2, ?_, ?_, h3⟩
    · rw [switch_states_of_stages open_ok hc hrot]; exact h1
    · rw [h2]; rfl
    · rw [h2]; exact length_rotate d.m_states st hl
  · intro hr hl
    have hrot := rotate_states_new (d := save_capture (clear_delayed_switch
      (set_last_switch_state d1 sys_ts_ns))) (by rw [f2]; exact hr) (by rw [f1]; exact hl)
    obtain ⟨d2, h1, h2, h3⟩ := reopen_first_cons open_ok
      (d := { save_capture (clear_delayed_switch (set_last_switch_state d1 sys_ts_ns)) with
        m_file_id := (save_capture (clear_delayed_switch
          (set_last_switch_state d1 sys_ts_ns))).m_file_id + 1,
        m_states :=
          sinsp_memory_dumper_state.create
            (save_capture (clear_delayed_switch (set_last_switch_state d1 sys_ts_ns))).m_bsize
            ("/dragent-memdumper-" ++ toString (save_capture (clear_delayed_switch
              (set_last_switch_state d1 sys_ts_ns))).m_file_id) ::
            (save_capture (clear_delayed_switch (set_last_switch_state d1 sys_ts_ns))).m_states,
        m_reader_state := (save_capture (clear_delayed_switch
          (set_last_switch_state d1 sys_ts_ns))).m_reader_state + 1 })
      rfl
    rw [f1, f4, f5] at h2
    refine ⟨d2, ?_, h2, ?_, h3⟩
    · rw [switch_states_of_stages open_ok hc hrot]; exact h1
    · rw [h2]; rfl

/-- C9 on the example dumper: without a reader the two segments swap places, and with a
reader active a third segment named `/dragent-memdumper-2` is put in front of them. -/
theorem switch_states_rotation_witness :
    (∃ d1, check_autodisable example_dumper 5 7 = some d1) ∧
      (∃ d2, switch_states example_dumper 5 7 true = some d2 ∧
        d2.m_states.map (fun x => x.m_shm_name) =
          ["/dragent-memdumper-1", "/dragent-memdumper-0"] ∧ d2.m_active_state = 0) ∧
      (∃ d2, switch_states (add_job_begin example_dumper) 5 7 true = some d2 ∧
        d2.m_states.map (fun x => x.m_shm_name) =
          ["/dragent-memdumper-2", "/dragent-memdumper-0", "/dragent-memdumper-1"] ∧
        d2.m_active_state = 0) := by
  have hc : ∃ d1, check_autodisable example_dumper 5 7 = some d1 := ⟨_, rfl⟩
  have hc2 : ∃ d1, check_autodisable (add_job_begin example_dumper) 5 7 = some d1 := ⟨_, rfl⟩
  obtain ⟨d1, h1⟩ := hc
  obtain ⟨d1b, h1b⟩ := hc2
  obtain ⟨d2, a1, _, a3, _, a5⟩ := (switch_states_rotation example_dumper d1 5 7 true h1).1
    (by decide) _ (show example_dumper.m_states.getLast? = some _ from rfl)
  obtain ⟨d2b, b1, b2, _, b4⟩ :=
    (switch_states_rotation (add_job_begin example_dumper) d1b 5 7 true h1b).2
      (by decide) (by decide)
  refine ⟨⟨d1, h1⟩, ⟨d2, a1, ?_, a5⟩, ⟨d2b, b1, ?_, b4⟩⟩
  · rw [a3]; decide
  · rw [b2]; decide

/-- C10, the code at the failing input: `switch_states` is called on the stalled dumper (a
reader active, three segments, seven events in the active segment). The call sets
`m_delayed_switch_states_needed` and leaves the order of the deque and the active segment as
they were, but it reopens the active segment: the seven events it held are gone. -/
theorem switch_states_stall_reopens_active :
    stalled_dumper.m_reader_active = true ∧ stalled_dumper.m_states.length = 3 ∧
      stalled_dumper.m_states.map (fun x => (x.m_shm_name, x.m_written_events)) =
        [("/dragent-memdumper-2", 7), ("/dragent-memdumper-1", 3),
          ("/dragent-memdumper-0", 4)] ∧
      (switch_states stalled_dumper 9 11 true).map
          (fun d => d.m_delayed_switch_states_needed) = some true ∧
      (switch_states stalled_dumper 9 11 true).map (fun d => d.m_active_state) = some 0 ∧
      (switch_states stalled_dumper 9 11 true).map
          (fun d => d.m_states.map (fun x => (x.m_shm_name, x.m_written_events))) =
        some [("/dragent-memdumper-2", 0), ("/dragent-memdumper-1", 3),
          ("/dragent-memdumper-0", 4)] := by
  refine ⟨rfl, rfl, ?_, rfl, rfl, ?_⟩
  · decide
  · decide


/-- The function `check_autodisable` with autodisable on, given the new value of the counter
that its first `if` chain computes. -/
theorem check_autodisable_of_count {d : sinsp_memory_dumper} {c : Nat} (evt_ts_ns : Nat)
    {sys_ts_ns : Nat} (ha : d.m_autodisable = true)
    (hc : autodisable_count d sys_ts_ns = some c) :
    check_autodisable d evt_ts_ns sys_ts_ns =
      some (if c ≥ 10 then
        { d with
          m_disabled := true, m_disabled_by_autodisable := true,
          m_last_autodisable_ns := evt_ts_ns, m_autodisable_threshold_reached_count := 0 }
      else { d with m_autodisable_threshold_reached_count := c }) := by
  unfold check_autodisable
  rw [if_pos ha, hc]
  dsimp only
  by_cases h10 : c ≥ 10
  · rw [if_pos h10, if_pos h10]
  · rw [if_neg h10, if_neg h10]

/-- A call of `check_autodisable` that comes too soon after the last switch counts a hit. -/
theorem autodisable_count_rapid {d : sinsp_memory_dumper} {sys_ts_ns : Nat}
    (h : u64_sub sys_ts_ns d.m_last_switch_state_ns < d.m_min_time_between_switch_states_ns) :
    autodisable_count d sys_ts_ns = some (d.m_autodisable_threshold_reached_count + 1) := by
  unfold autodisable_count
  rw [if_pos h]

/-- The first `if` chain of `check_autodisable` either counts a hit or resets the counter. -/
theorem autodisable_count_cases {d : sinsp_memory_dumper} {sys_ts_ns c : Nat}
    (h : autodisable_count d sys_ts_ns = some c) :
    c = d.m_autodisable_threshold_reached_count + 1 ∨ c = 0 := by
  unfold autodisable_count at h
  by_cases h1 : u64_sub sys_ts_ns d.m_last_switch_state_ns <
      d.m_min_time_between_switch_states_ns
  · rw [if_pos h1] at h
    cases h
    exact Or.inl rfl
  · rw [if_neg h1] at h
    cases hg : d.m_states.get? d.m_active_state with
    | none => rw [hg] at h; exact absurd h (by simp)
    | some st =>
      rw [hg] at h
      dsimp only at h
      by_cases h2 : st.m_bufsize = 0
      · rw [if_pos h2] at h; exact absurd h (by simp)
      · rw [if_neg h2] at h
        by_cases h3 : u64_mul d.m_dump_buffer_headers_size 100 / st.m_bufsize >
            d.m_capture_headers_percentage_threshold
        · rw [if_pos h3] at h
          cases h
          exact Or.inl rfl
        · rw [if_neg h3] at h
          cases h
          exact Or.inr rfl

/-- Rapid switches from a counter `c`: while the counter stays below ten, each call adds one
and the dumper stays as enabled as it was. -/
theorem check_autodisable_calls_below_ten (calls : List (Nat × Nat)) :
    ∀ d : sinsp_memory_dumper, d.m_autodisable = true →
      rapid_switches d.m_min_time_between_switch_states_ns d.m_last_switch_state_ns calls →
      d.m_autodisable_threshold_reached_count + calls.length ≤ 9 →
      ∃ d1, check_autodisable_calls calls d = some d1 ∧
        d1.m_autodisable_threshold_reached_count =
          d.m_autodisable_threshold_reached_count + calls.length ∧
        d1.m_disabled = d.m_disabled ∧
        d1.m_disabled_by_autodisable = d.m_disabled_by_autodisable ∧
        d1.m_autodisable = true ∧
        d1.m_min_time_between_switch_states_ns = d.m_min_time_between_switch_states_ns ∧
        (calls ≠ [] → ∀ last, calls.getLast? = some last → d1.m_last_switch_state_ns = last.2) ∧
        (calls = [] → d1 = d) := by
  induction calls with
  | nil =>
    intro d ha _ _
    exact ⟨d, rfl, rfl, rfl, rfl, ha, rfl, fun h => absurd rfl h, fun _ => rfl⟩
  | cons call rest ih =>
    intro d ha hr hc
    obtain ⟨hr1, hr2⟩ := hr
    have hlen : (call :: rest).length = rest.length + 1 := rfl
    have hcount := autodisable_count_rapid hr1
    have hstep := check_autodisable_of_count call.1 ha hcount
    rw [if_neg (by omega)] at hstep
    unfold check_autodisable_calls
    rw [hstep]
    dsimp only
    obtain ⟨d1, r1, r2, r3, r4, r5, r6, r7, r8⟩ := ih
      (set_last_switch_state
        { d with m_autodisable_threshold_reached_count :=
          d.m_autodisable_threshold_reached_count + 1 } call.2)
      ha hr2 (by show d.m_autodisable_threshold_reached_count + 1 + rest.length ≤ 9; omega)
    refine ⟨d1, r1, ?_, r3, r4, r5, r6, ?_, fun h => absurd h (List.cons_ne_nil _ _)⟩
    · rw [r2, hlen]
      show d.m_autodisable_threshold_reached_count + 1 + rest.length = _
      omega
    · intro _ last hl
      cases rest with
      | nil =>
        rw [r8 rfl]
        have : call = last := by simpa using hl
        rw [← this]
        rfl
      | cons x xs =>
        refine r7 (List.cons_ne_nil _ _) last ?_
        rw [List.getLast?_cons_cons] at hl
        exact hl

/-- C11: with autodisable on, a call of `check_autodisable` made with a counter of at most
nine leaves a counter of at most nine; a call that hits no threshold resets the counter to
zero and leaves the dumper as enabled as it was; a hit below the tenth adds one to the counter
and leaves the dumper as enabled as it was; the tenth hit in a row sets `m_disabled` and
`m_disabled_by_autodisable`, records the event time and resets the counter. Starting from a
counter of zero, fewer than ten rapid switches in a row leave the dumper as it was, with the
counter at their number, and the tenth disables it. -/
theorem autodisable_on_tenth_hit (d : sinsp_memory_dumper) (ha : d.m_autodisable = true) :
    (∀ (evt_ts_ns sys_ts_ns : Nat) (d1 : sinsp_memory_dumper),
      d.m_autodisable_threshold_reached_count ≤ 9 →
      check_autodisable d evt_ts_ns sys_ts_ns = some d1 →
        d1.m_autodisable_threshold_reached_count ≤ 9 ∧
        (autodisable_count d sys_ts_ns = some 0 →
          d1.m_autodisable_threshold_reached_count = 0 ∧ d1.m_disabled = d.m_disabled ∧
            d1.m_disabled_by_autodisable = d.m_disabled_by_autodisable) ∧
        (autodisable_count d sys_ts_ns =
            some (d.m_autodisable_threshold_reached_count + 1) →
          d.m_autodisable_threshold_reached_count < 9 →
          d1.m_autodisable_threshold_reached_count =
              d.m_autodisable_threshold_reached_count + 1 ∧
            d1.m_disabled = d.m_disabled ∧
            d1.m_disabled_by_autodisable = d.m_disabled_by_autodisable) ∧
        (autodisable_count d sys_ts_ns =
            some (d.m_autodisable_threshold_reached_count + 1) →
          d.m_autodisable_threshold_reached_count = 9 →
          d1.m_disabled = true ∧ d1.m_disabled_by_autodisable = true ∧
            d1.m_last_autodisable_ns = evt_ts_ns ∧
            d1.m_autodisable_threshold_reached_count = 0) ∧
        (autodisable_count d sys_ts_ns = some 0 ∨
          autodisable_count d sys_ts_ns =
            some (d.m_autodisable_threshold_reached_count + 1))) ∧
    (∀ calls : List (Nat × Nat),
      d.m_autodisable_threshold_reached_count = 0 →
      rapid_switches d.m_min_time_between_switch_states_ns d.m_last_switch_state_ns calls →
        (calls.length ≤ 9 →
          ∃ d1, check_autodisable_calls calls d = some d1 ∧
            d1.m_autodisable_threshold_reached_count = calls.length ∧
            d1.m_disabled = d.m_disabled ∧
            d1.m_disabled_by_autodisable = d.m_disabled_by_autodisable) ∧
        (calls.length = 10 →
          ∃ d1, check_autodisable_calls calls d = some d1 ∧
            d1.m_disabled = true ∧ d1.m_disabled_by_autodisable = true ∧
            d1.m_autodisable_threshold_reached_count = 0)) := by
  constructor
  · intro evt_ts_ns sys_ts_ns d1 hc h
    cases hcount : autodisable_count d sys_ts_ns with
    | none =>
      unfold check_autodisable at h
      rw [if_pos ha, hcount] at h
      exact absurd h (by simp)
    | some c =>
      have hstep := check_autodisable_of_count evt_ts_ns ha hcount
      rw [hstep] at h
      rcases autodisable_count_cases hcount with hc1 | hc0
      · by_cases h10 : c ≥ 10
        · rw [if_pos h10] at h
          cases h
          refine ⟨Nat.zero_le _, ?_, ?_, ?_, Or.inr (by rw [hc1])⟩
          · intro h0; cases h0; omega
          · intro _ hlt; omega
          · intro _ _; exact ⟨rfl, rfl, rfl, rfl⟩
        · rw [if_neg h10] at h
          cases h
          refine ⟨by show c ≤ 9; omega, ?_, ?_, ?_, Or.inr (by rw [hc1])⟩
          · intro h0; cases h0; omega
          · intro _ _; exact ⟨hc1, rfl, rfl⟩
          · intro _ h9; omega
      · rw [if_neg (by omega)] at h
        cases h
        refine ⟨by show c ≤ 9; omega, ?_, ?_, ?_, Or.inl (by rw [hc0])⟩
        · intro _; exact ⟨hc0, rfl, rfl⟩
        · intro h1; cases h1; omega
        · intro h1; cases h1; omega
  · intro calls h0 hr
    constructor
    · intro hlen
      obtain ⟨d1, r1, r2, r3, r4, _⟩ := check_autodisable_calls_below_ten calls d ha hr
        (by omega)
      exact ⟨d1, r1, by rw [r2, h0]; omega, r3, r4⟩
    · intro hlen
      have hne : calls ≠ [] := by
        intro he; rw [he] at hlen; simp at hlen
      obtain ⟨front, last, hsplit⟩ : ∃ front last, calls = front ++ [last] :=
        ⟨calls.dropLast, calls.getLast hne, (List.dropLast_append_getLast hne).symm⟩
      have hfl : front.length = 9 := by
        rw [hsplit] at hlen; simp at hlen; exact hlen
      have hsplit_r : ∀ (l : List (Nat × Nat)) (prev : Nat),
          rapid_switches d.m_min_time_between_switch_states_ns prev (l ++ [last]) →
          rapid_switches d.m_min_time_between_switch_states_ns prev l ∧
            u64_sub last.2 (match l.getLast? with
              | some x => x.2
              | none => prev) < d.m_min_time_between_switch_states_ns := by
        intro l
        induction l with
        | nil => intro prev h; exact ⟨trivial, h.1⟩
        | cons x xs ihx =>
          intro prev h
          obtain ⟨h1, h2⟩ := h
          obtain ⟨i1, i2⟩ := ihx x.2 h2
          refine ⟨⟨h1, i1⟩, ?_⟩
          cases xs with
          | nil => exact i2
          | cons y ys => rw [List.getLast?_cons_cons]; exact i2
      have hrun_app : ∀ (l : List (Nat × Nat)) (a b : sinsp_memory_dumper),
          check_autodisable_calls l a = some b →
          check_autodisable_calls (l ++ [last]) a = check_autodisable_calls [last] b := by
        intro l
        induction l with
        | nil => intro a b h; cases h; rfl
        | cons x xs ihx =>
          intro a b h
          unfold check_autodisable_calls at h
          show check_autodisable_calls (x :: (xs ++ [last])) a = _
          unfold check_autodisable_calls
          cases hx : check_autodisable a x.1 x.2 with
          | none => rw [hx] at h; exact absurd h (by simp)
          | some a1 =>
            rw [hx] at h
            exact ihx _ b h
      rw [hsplit] at hr
      obtain ⟨hrf, hrl⟩ := hsplit_r front d.m_last_switch_state_ns hr
      obtain ⟨d9, r1, r2, r3, r4, r5, r6, r7, r8⟩ :=
        check_autodisable_calls_below_ten front d ha hrf (by omega)
      have hfne : front ≠ [] := by
        intro he; rw [he] at hfl; simp at hfl
      obtain ⟨fl, hflast⟩ : ∃ x, front.getLast? = some x :=
        ⟨front.getLast hfne, List.getLast?_eq_getLast _ hfne⟩
      rw [hflast] at hrl
      have hlast9 : u64_sub last.2 d9.m_last_switch_state_ns <
          d9.m_min_time_between_switch_states_ns := by
        rw [r7 hfne fl hflast, r6]; exact hrl
      have hcount := autodisable_count_rapid hlast9
      have hstep := check_autodisable_of_count last.1 r5 hcount
      rw [if_pos (by rw [r2, h0]; omega)] at hstep
      rw [hsplit, hrun_app front d d9 r1]
      unfold check_autodisable_calls
      rw [hstep]
      exact ⟨_, rfl, rfl, rfl, rfl⟩

/-- C11 on the busy dumper: ten switches 10 ms apart, with at least 100 ms required between
two switches, disable the dumper; the first nine leave it enabled with the counter at nine. -/
theorem autodisable_on_tenth_hit_witness :
    busy_dumper.m_autodisable = true ∧
      (∃ d1, check_autodisable_calls ten_rapid_calls busy_dumper = some d1 ∧
        d1.m_disabled = true ∧ d1.m_disabled_by_autodisable = true ∧
        d1.m_autodisable_threshold_reached_count = 0) ∧
      (∃ d1, check_autodisable_calls ten_rapid_calls.dropLast busy_dumper = some d1 ∧
        d1.m_autodisable_threshold_reached_count = 9 ∧ d1.m_disabled = false) ∧
      (∃ d1, check_autodisable busy_dumper 1 10000000 = some d1 ∧
        d1.m_autodisable_threshold_reached_count = 1 ∧ d1.m_disabled = false) := by
  have ha : busy_dumper.m_autodisable = true := by decide
  have hone : ∃ d1, check_autodisable busy_dumper 1 10000000 = some d1 := ⟨_, rfl⟩
  have h0 : busy_dumper.m_autodisable_threshold_reached_count = 0 := by decide
  have hr : rapid_switches busy_dumper.m_min_time_between_switch_states_ns
      busy_dumper.m_last_switch_state_ns ten_rapid_calls := by
    unfold ten_rapid_calls
    simp only [rapid_switches]
    decide
  have hr9 : rapid_switches busy_dumper.m_min_time_between_switch_states_ns
      busy_dumper.m_last_switch_state_ns ten_rapid_calls.dropLast := by
    unfold ten_rapid_calls
    simp only [List.dropLast, rapid_switches]
    decide
  have hd : busy_dumper.m_disabled = false := by decide
  obtain ⟨d1, a1, a2, a3, a4⟩ :=
    ((autodisable_on_tenth_hit busy_dumper ha).2 ten_rapid_calls h0 hr).2 (by decide)
  obtain ⟨d2, b1, b2, b3, _⟩ :=
    ((autodisable_on_tenth_hit busy_dumper ha).2 ten_rapid_calls.dropLast h0 hr9).1
      (by decide)
  obtain ⟨d3, c1⟩ := hone
  obtain ⟨_, _, c3, _, _⟩ :=
    (autodisable_on_tenth_hit busy_dumper ha).1 1 10000000 d3 (by decide) c1
  obtain ⟨c4, c5, _⟩ := c3 (by decide) (by decide)
  refine ⟨ha, ⟨d1, a1, a2, a3, a4⟩, ⟨d2, b1, ?_, ?_⟩, ⟨d3, c1, ?_, ?_⟩⟩
  · rw [b2]; decide
  · rw [b3]; exact hd
  · rw [c4]; decide
  · rw [c5]; exact hd

/-- C12, as the claim states it, fails: with 201 bytes of headers, a segment of 1000 bytes and
a threshold of 20 percent, `m_dump_buffer_headers_size * 100` exceeds
`m_capture_headers_percentage_threshold * m_bufsize`, yet no hit is counted: the counter is
reset to zero. -/
theorem autodisable_hit_counterexample :
    (header_dumper.m_states.get? header_dumper.m_active_state).map (fun st => st.m_bufsize) =
        some 1000 ∧
      header_dumper.m_dump_buffer_headers_size * 100 >
        header_dumper.m_capture_headers_percentage_threshold * 1000 ∧
      ¬ (u64_sub 7 header_dumper.m_last_switch_state_ns <
        header_dumper.m_min_time_between_switch_states_ns) ∧
      autodisable_count header_dumper 7 = some 0 := by
  refine ⟨rfl, by decide, by decide, rfl⟩

/-- C12, amended: when the active segment exists and its size is not zero, the first `if`
chain of `check_autodisable` counts a hit if and only if the 64-bit unsigned difference
between the system time and the time of the last switch is below
`m_min_time_between_switch_states_ns`, or the percentage
`m_dump_buffer_headers_size * 100 / m_bufsize`, rounded down, exceeds
`m_capture_headers_percentage_threshold`; otherwise it resets the counter. When the product
does not wrap, the percentage exceeds the threshold if and only if
`m_dump_buffer_headers_size * 100 ≥ (threshold + 1) * m_bufsize`. -/
theorem autodisable_hit_iff (d : sinsp_memory_dumper) (st : sinsp_memory_dumper_state)
    (sys_ts_ns : Nat) (hg : d.m_states.get? d.m_active_state = some st)
    (hb : st.m_bufsize ≠ 0) :
    ∃ c, autodisable_count d sys_ts_ns = some c ∧
      (c = d.m_autodisable_threshold_reached_count + 1 ∨ c = 0) ∧
      (c = d.m_autodisable_threshold_reached_count + 1 ↔
        (u64_sub sys_ts_ns d.m_last_switch_state_ns < d.m_min_time_between_switch_states_ns ∨
          u64_mul d.m_dump_buffer_headers_size 100 / st.m_bufsize >
            d.m_capture_headers_percentage_threshold)) ∧
      (d.m_dump_buffer_headers_size * 100 < U64 →
        (u64_mul d.m_dump_buffer_headers_size 100 / st.m_bufsize >
            d.m_capture_headers_percentage_threshold ↔
          d.m_dump_buffer_headers_size * 100 ≥
            (d.m_capture_headers_percentage_threshold + 1) * st.m_bufsize)) := by
  have hdiv : d.m_dump_buffer_headers_size * 100 < U64 →
      (u64_mul d.m_dump_buffer_headers_size 100 / st.m_bufsize >
          d.m_capture_headers_percentage_threshold ↔
        d.m_dump_buffer_headers_size * 100 ≥
          (d.m_capture_headers_percentage_threshold + 1) * st.m_bufsize) := by
    intro hlt
    have e : u64_mul d.m_dump_buffer_headers_size 100 = d.m_dump_buffer_headers_size * 100 :=
      Nat.mod_eq_of_lt hlt
    rw [e]
    exact (Nat.le_div_iff_mul_le (Nat.pos_of_ne_zero hb)).trans Iff.rfl
  unfold autodisable_count
  by_cases h1 : u64_sub sys_ts_ns d.m_last_switch_state_ns <
      d.m_min_time_between_switch_states_ns
  · rw [if_pos h1]
    exact ⟨_, rfl, Or.inl rfl, ⟨fun _ => Or.inl h1, fun _ => rfl⟩, hdiv⟩
  · rw [if_neg h1, hg]
    dsimp only
    rw [if_neg hb]
    by_cases h3 : u64_mul d.m_dump_buffer_headers_size 100 / st.m_bufsize >
        d.m_capture_headers_percentage_threshold
    · rw [if_pos h3]
      exact ⟨_, rfl, Or.inl rfl, ⟨fun _ => Or.inr h3, fun _ => rfl⟩, hdiv⟩
    · rw [if_neg h3]
      refine ⟨_, rfl, Or.inr rfl, ⟨fun h => absurd h (by omega), ?_⟩, hdiv⟩
      intro h
      rcases h with h | h
      · exact absurd h h1
      · exact absurd h h3

/-- C12, amended, on two examples: 201 bytes of headers in a segment of 1000 bytes are 20
percent, rounded down, and no hit against a threshold of 20; 210 bytes are 21 percent and a
hit. -/
theorem autodisable_hit_iff_witness :
    (∃ st, header_dumper.m_states.get? header_dumper.m_active_state = some st ∧
      st.m_bufsize ≠ 0) ∧
      autodisable_count header_dumper 7 = some 0 ∧
      autodisable_count { header_dumper with m_dump_buffer_headers_size := 210 } 7 = some 1 ∧
      (u64_mul 201 100 / 1000 > 20 ↔ 201 * 100 ≥ (20 + 1) * 1000) := by
  have hg : ∃ st, header_dumper.m_states.get? header_dumper.m_active_state = some st ∧
      st.m_bufsize = 1000 := ⟨_, rfl, rfl⟩
  obtain ⟨st, h1, h2⟩ := hg
  have hb : st.m_bufsize ≠ 0 := by rw [h2]; decide
  obtain ⟨c, _, _, _, h4⟩ := autodisable_hit_iff header_dumper st 7 h1 hb
  have h5 := h4 (by decide)
  rw [h2] at h5
  exact ⟨⟨st, h1, hb⟩, rfl, rfl, h5⟩

/-- C13, the code at the failing input: `add_job` is called with
`delta_time_future_ns = 0` on a dumper whose two segments hold events, and the shared-memory
region of each segment cannot be opened. The job that is returned has a non-empty `m_lasterr`
but is in state `ST_DONE_OK`: the last statement of `add_job` overwrites `ST_DONE_ERROR`. With
`delta_time_future_ns = 5` the same scan returns a job in state `ST_DONE_ERROR`. -/
theorem add_job_error_overwritten :
    (add_job filled_dumper 100 "capture.scap" "" 0 0 none none (fun _ => failing_scan)).map
        (fun r => (r.2.1.m_state, r.2.1.m_lasterr)) =
      some (job_state.ST_DONE_OK,
        "Could not open shared memory region /dragent-memdumper-0 for reading: " ++
          "Permission denied") ∧
    (add_job filled_dumper 100 "capture.scap" "" 0 5 none none (fun _ => failing_scan)).map
        (fun r => (r.2.1.m_state, r.2.1.m_lasterr)) =
      some (job_state.ST_DONE_ERROR,
        "Could not open shared memory region /dragent-memdumper-0 for reading: " ++
          "Permission denied") := by
  constructor
  · decide
  · decide

/-- The read loop forwards only events that are not older than the start of the job, and
counts each event it forwards. -/
theorem read_loop_forwards (shm_name lasterr : String) (written : Nat)
    (l : List next_result) :
    ∀ (bytes_read : Nat) (job : sinsp_memory_dumper_job),
      ∃ forwarded : List Nat,
        (read_loop shm_name lasterr written l bytes_read job).2.1.m_dumped =
            job.m_dumped ++ forwarded ∧
          (read_loop shm_name lasterr written l bytes_read job).2.1.m_n_events =
            job.m_n_events + forwarded.length ∧
          (read_loop shm_name lasterr written l bytes_read job).2.1.m_start_time =
            job.m_start_time ∧
          ∀ ts ∈ forwarded, job.m_start_time ≤ ts := by
  induction l with
  | nil =>
    intro bytes_read job
    unfold read_loop
    exact ⟨[], by simp, rfl, rfl, by simp⟩
  | cons r rest ih =>
    intro bytes_read job
    unfold read_loop
    by_cases h1 : bytes_read < written
    · rw [if_pos h1]
      by_cases h2 : r.res = SCAP_EOF ∨ job.m_state = job_state.ST_STOPPPED
      · rw [if_pos h2]
        exact ⟨[], by simp, rfl, rfl, by simp⟩
      · rw [if_neg h2]
        by_cases h3 : r.res = SCAP_TIMEOUT
        · rw [if_pos h3]
          exact ih _ _
        · rw [if_neg h3]
          by_cases h4 : r.res ≠ SCAP_SUCCESS ∧ r.res ≠ SCAP_TIMEOUT
          · rw [if_pos h4]
            exact ⟨[], by simp, rfl, rfl, by simp⟩
          · rw [if_neg h4]
            by_cases h5 : job.m_start_time ≠ 0 ∧ r.ts < job.m_start_time
            · rw [if_pos h5]
              exact ih _ _
            · rw [if_neg h5]
              obtain ⟨fw, f1, f2, f3, f4⟩ := ih r.bytes_read
                { job with m_n_events := job.m_n_events + 1, m_dumped := job.m_dumped ++ [r.ts] }
              refine ⟨r.ts :: fw, ?_, ?_, f3, ?_⟩
              · rw [f1]; simp
              · rw [f2]; simp; omega
              · intro ts hts
                rcases List.mem_cons.mp hts with h | h
                · rw [h]
                  by_cases hz : job.m_start_time = 0
                  · rw [hz]; exact Nat.zero_le _
                  · exact Nat.le_of_not_lt (fun hlt => h5 ⟨hz, hlt⟩)
                · exact f4 ts h
    · rw [if_neg h1]
      exact ⟨[], by simp, rfl, rfl, by simp⟩

/-- C14, the code at the failing input: for the job with the window from 10 to 20,
`read_membuf_using_inspector` forwards an event with the timestamp 30, which lies after the
end of the window, to the writer. -/
theorem read_membuf_forwards_late_event :
    window_job.m_start_time = 10 ∧ window_job.m_end_time = 20 ∧
      (read_membuf_using_inspector late_inspector "" (sinsp_memory_dumper_state.create 1000
        "/dragent-memdumper-0") 10 window_job).2.1.m_dumped = [30] ∧
      ¬ (30 ≤ window_job.m_end_time) := by
  refine ⟨by decide, by decide, by decide, by decide⟩

/-- The lower bound of the window is kept: every event that `read_membuf_using_inspector`
forwards to the writer of the job has a timestamp that is not below the start of the job,
`m_start_time ≤ ts`; the events forwarded are appended to the ones already written, and
`m_n_events` grows by their number. -/
theorem read_membuf_forwards_from_start (inspector : reader_inspector) (lasterr : String)
    (state : sinsp_memory_dumper_state) (dumper_bytes_written : Nat)
    (job : sinsp_memory_dumper_job) :
    ∃ forwarded : List Nat,
      (read_membuf_using_inspector inspector lasterr state dumper_bytes_written
          job).2.1.m_dumped = job.m_dumped ++ forwarded ∧
        (read_membuf_using_inspector inspector lasterr state dumper_bytes_written
          job).2.1.m_n_events = job.m_n_events + forwarded.length ∧
        ∀ ts ∈ forwarded, job.m_start_time ≤ ts := by
  obtain ⟨fw, f1, f2, _, f4⟩ := read_loop_forwards state.m_shm_name lasterr
    dumper_bytes_written inspector.pending inspector.bytes_read job
  exact ⟨fw, f1, f2, f4⟩

/-- The autodisable check never enables a disabled dumper. -/
theorem check_autodisable_disabled {d d1 : sinsp_memory_dumper} {ts sys_ts_ns : Nat}
    (h : check_autodisable d ts sys_ts_ns = some d1) (hd : d.m_disabled = true) :
    d1.m_disabled = true := by
  unfold check_autodisable at h
  by_cases ha : d.m_autodisable = true
  · rw [if_pos ha] at h
    cases hc : autodisable_count d sys_ts_ns with
    | none => rw [hc] at h; exact absurd h (by simp)
    | some c =>
      rw [hc] at h
      dsimp only at h
      by_cases h10 : c ≥ 10
      · rw [if_pos h10] at h; cases h; rfl
      · rw [if_neg h10] at h; cases h; exact hd
  · rw [if_neg ha] at h
    cases h
    exact hd

/-- The stages of `switch_states` before the rotation leave `m_disabled` alone. -/
theorem before_rotation_disabled (d : sinsp_memory_dumper) (sys_ts_ns : Nat) :
    (save_capture (clear_delayed_switch (set_last_switch_state d sys_ts_ns))).m_disabled =
      d.m_disabled := by
  have h1 : ∀ x : sinsp_memory_dumper, (save_capture x).m_disabled = x.m_disabled := by
    intro x
    unfold save_capture
    by_cases h : x.m_cf = true
    · rw [if_pos h]
      by_cases h2 : u64_sub x.m_switches_to_go 1 = 0 ∨
          u64_add x.m_cur_dump_size x.m_bsize ≥ x.m_max_disk_size
      · rw [if_pos h2]
      · rw [if_neg h2]
    · rw [if_neg h]
  have h2 : ∀ x : sinsp_memory_dumper, (clear_delayed_switch x).m_disabled = x.m_disabled := by
    intro x
    unfold clear_delayed_switch
    by_cases h : x.m_delayed_switch_states_needed = true
    · rw [if_pos h]
    · rw [if_neg h]
  rw [h1, h2]
  rfl

/-- The rotation leaves `m_disabled` alone. -/
theorem rotate_states_disabled {d d1 : sinsp_memory_dumper} (h : rotate_states d = some d1) :
    d1.m_disabled = d.m_disabled := by
  by_cases hr : d.m_reader_active = true
  · by_cases hl : d.m_states.length < 3
    · rw [rotate_states_new hr hl] at h; cases h; rfl
    · rw [rotate_states_stall hr hl] at h; cases h; rfl
  · cases hg : d.m_states.getLast? with
    | none =>
      unfold rotate_states at h
      rw [if_neg hr, hg] at h
      exact absurd h (by simp)
    | some st =>
      have hr2 : d.m_reader_active = false := by
        cases hv : d.m_reader_active with
        | true => exact absurd hv hr
        | false => rfl
      rw [rotate_states_no_reader hr2 hg] at h
      cases h
      rfl

/-- The reopening of the front segment never enables a disabled dumper. -/
theorem reopen_first_disabled {d d1 : sinsp_memory_dumper} {open_ok : Bool}
    (h : reopen_first d open_ok = some d1) (hd : d.m_disabled = true) :
    d1.m_disabled = true := by
  unfold reopen_first at h
  cases hs : d.m_states with
  | nil => rw [hs] at h; exact absurd h (by simp)
  | cons st rest =>
    rw [hs] at h
    cases h
    show (if (st.reopen open_ok).1 = true then d.m_disabled else true) = true
    by_cases ho : (st.reopen open_ok).1 = true
    · rw [if_pos ho]; exact hd
    · rw [if_neg ho]

/-- The function `switch_states` never enables a disabled dumper. -/
theorem switch_states_disabled {d d2 : sinsp_memory_dumper} {ts sys_ts_ns : Nat}
    {open_ok : Bool} (h : switch_states d ts sys_ts_ns open_ok = some d2)
    (hd : d.m_disabled = true) : d2.m_disabled = true := by
  obtain ⟨d1, d3, hc, hrot, hre⟩ := switch_states_stages h
  have a := check_autodisable_disabled hc hd
  have b := before_rotation_disabled d1 sys_ts_ns
  have c := rotate_states_disabled hrot
  exact reopen_first_disabled hre (by rw [c, b]; exact a)

/-- The scan loop of `add_job` leaves `m_disabled` alone. -/
theorem add_job_loop_disabled (envs : Nat → scan_env) (n : Nat) :
    ∀ (d : sinsp_memory_dumper) (job : sinsp_memory_dumper_job) (membuf_mtx : Option Bool)
      (r : sinsp_memory_dumper × sinsp_memory_dumper_job × Option Bool),
      add_job_loop envs n d job membuf_mtx = some r → r.1.m_disabled = d.m_disabled := by
  induction n with
  | zero =>
    intro d job membuf_mtx r h
    unfold add_job_loop at h
    cases h
    rfl
  | succ n ih =>
    intro d job membuf_mtx r h
    unfold add_job_loop at h
    by_cases h0 : d.m_reader_state = 0
    · rw [if_pos h0] at h
      cases h
      rfl
    · rw [if_neg h0] at h
      cases hi : add_job_iter d job membuf_mtx (envs d.m_reader_state) with
      | none => rw [hi] at h; exact absurd h (by simp)
      | some x =>
        rw [hi] at h
        dsimp only at h
        have hx : x.1.m_disabled = d.m_disabled := by
          unfold add_job_iter at hi
          rw [if_neg h0] at hi
          cases hg : d.m_states.get? (d.m_reader_state - 1) with
          | none => rw [hg] at hi; exact absurd hi (by simp)
          | some state =>
            rw [hg] at hi
            dsimp only at hi
            cases ha : apply_job_filter d state job membuf_mtx (envs d.m_reader_state) with
            | none => rw [ha] at hi; exact absurd hi (by simp)
            | some y =>
              rw [ha] at hi
              cases hi
              rfl
        rw [ih x.1 x.2.1 x.2.2 r h, hx]

/-- The function `add_job` leaves `m_disabled` alone. -/
theorem add_job_disabled {d : sinsp_memory_dumper} {ts : Nat} {filename filter : String}
    {past future : Nat} {membuf_mtx : Option Bool} {compile_exception : Option String}
    {envs : Nat → scan_env} {r : sinsp_memory_dumper × sinsp_memory_dumper_job × Option Bool}
    (h : add_job d ts filename filter past future membuf_mtx compile_exception envs = some r) :
    r.1.m_disabled = d.m_disabled := by
  unfold add_job at h
  have main : ∀ job1 : sinsp_memory_dumper_job,
      (match add_job_loop envs (add_job_begin d).m_reader_state (add_job_begin d) job1
          membuf_mtx with
        | none => none
        | some r =>
          some ((add_job_finish r.1 r.2.1 future).1, (add_job_finish r.1 r.2.1 future).2,
            r.2.2)) = some r →
      r.1.m_disabled = d.m_disabled := by
    intro job1 hm
    cases hl : add_job_loop envs (add_job_begin d).m_reader_state (add_job_begin d) job1
        membuf_mtx with
    | none => rw [hl] at hm; exact absurd hm (by simp)
    | some x =>
      rw [hl] at hm
      cases hm
      have l1 := add_job_loop_disabled envs _ _ _ _ _ hl
      have f1 : (add_job_finish x.1 x.2.1 future).1.m_disabled = x.1.m_disabled := by
        unfold add_job_finish
        by_cases hn : x.1.m_delayed_switch_states_needed = true
        · rw [if_pos hn]
        · rw [if_neg hn]
      have hb : (add_job_begin d).m_disabled = d.m_disabled := rfl
      show (add_job_finish x.1 x.2.1 future).1.m_disabled = d.m_disabled
      rw [f1, l1, hb]
  by_cases hf : filter ≠ ""
  · cases compile_exception with
    | some e =>
      simp only [if_pos hf] at h
      cases h
      rfl
    | none =>
      simp only [if_pos hf] at h
      exact main _ h
  · simp only [if_neg hf] at h
    exact main _ h

/-- No call enables a disabled dumper. -/
theorem apply_call_disabled {d d1 : sinsp_memory_dumper} (call : dumper_call)
    (h : apply_call d call = some d1) (hd : d.m_disabled = true) : d1.m_disabled = true := by
  cases call with
  | switch_states ts sys_ts_ns open_ok =>
    exact switch_states_disabled (show switch_states d ts sys_ts_ns open_ok = some d1 from h) hd
  | check_autodisable evt_ts_ns sys_ts_ns =>
    exact check_autodisable_disabled
      (show check_autodisable d evt_ts_ns sys_ts_ns = some d1 from h) hd
  | add_job ts filename filter past future membuf_mtx compile_exception envs =>
    have h2 : (add_job d ts filename filter past future membuf_mtx compile_exception envs).map
        (fun r => r.1) = some d1 := h
    cases ha : add_job d ts filename filter past future membuf_mtx compile_exception envs with
    | none => rw [ha] at h2; exact absurd h2 (by simp)
    | some r =>
      rw [ha] at h2
      simp only [Option.map_some', Option.some.injEq] at h2
      subst h2
      rw [add_job_disabled ha]
      exact hd
  | close sys_ts_ns open_ok =>
    have h2 : close d sys_ts_ns open_ok = some d1 := h
    unfold close at h2
    cases hs : switch_states d 0 sys_ts_ns open_ok with
    | none => rw [hs] at h2; exact absurd h2 (by simp)
    | some x =>
      rw [hs] at h2
      cases h2
      show x.m_disabled = true
      exact switch_states_disabled hs hd

/-- No sequence of calls enables a disabled dumper. -/
theorem run_calls_disabled (calls : List dumper_call) :
    ∀ d d1 : sinsp_memory_dumper, d.m_disabled = true → run_calls calls d = some d1 →
      d1.m_disabled = true := by
  induction calls with
  | nil =>
    intro d d1 hd h
    unfold run_calls at h
    cases h
    exact hd
  | cons call rest ih =>
    intro d d1 hd h
    unfold run_calls at h
    cases hs : apply_call d call with
    | none => rw [hs] at h; exact absurd h (by simp)
    | some d2 =>
      rw [hs] at h
      exact ih d2 d1 (apply_call_disabled call hs hd) h

/-- A call of `add_job` on a dumper without segments returns: it finds nothing to scan and
leaves the dumper without segments, as disabled as it was and with the same autodisable
setting. -/
theorem add_job_without_segments (d : sinsp_memory_dumper) (ts : Nat)
    (filename filter : String) (past future : Nat) (membuf_mtx : Option Bool)
    (compile_exception : Option String) (envs : Nat → scan_env) (hs : d.m_states = []) :
    ∃ r, add_job d ts filename filter past future membuf_mtx compile_exception envs = some r ∧
      r.1.m_states = [] ∧ r.1.m_disabled = d.m_disabled ∧
      r.1.m_autodisable = d.m_autodisable := by
  have hloop : ∀ job1 : sinsp_memory_dumper_job,
      add_job_loop envs (add_job_begin d).m_reader_state (add_job_begin d) job1 membuf_mtx =
        some (add_job_begin d, job1, membuf_mtx) := by
    intro job1
    have h0 : (add_job_begin d).m_reader_state = 0 := by
      show d.m_states.length = 0
      rw [hs]
      rfl
    rw [h0]
    rfl
  have hfin : ∀ job1 : sinsp_memory_dumper_job,
      (add_job_finish (add_job_begin d) job1 future).1.m_states = [] ∧
        (add_job_finish (add_job_begin d) job1 future).1.m_disabled = d.m_disabled ∧
        (add_job_finish (add_job_begin d) job1 future).1.m_autodisable = d.m_autodisable := by
    intro job1
    have hb : (add_job_begin d).m_states = [] := hs
    have hpop : pop_extra_states (add_job_begin d).m_states.length (add_job_begin d).m_states =
        [] := by
      rw [hb]
      rfl
    unfold add_job_finish
    by_cases hn : (add_job_begin d).m_delayed_switch_states_needed = true
    · rw [if_pos hn]
      exact ⟨hpop, rfl, rfl⟩
    · rw [if_neg hn]
      exact ⟨hpop, rfl, rfl⟩
  have main : ∀ job1 : sinsp_memory_dumper_job,
      ∃ r, (match add_job_loop envs (add_job_begin d).m_reader_state (add_job_begin d) job1
          membuf_mtx with
        | none => none
        | some r =>
          some ((add_job_finish r.1 r.2.1 future).1, (add_job_finish r.1 r.2.1 future).2,
            r.2.2)) = some r ∧
        r.1.m_states = [] ∧ r.1.m_disabled = d.m_disabled ∧
        r.1.m_autodisable = d.m_autodisable := by
    intro job1
    rw [hloop job1]
    exact ⟨_, rfl, (hfin job1).1, (hfin job1).2.1, (hfin job1).2.2⟩
  unfold add_job
  by_cases hf : filter ≠ ""
  · cases compile_exception with
    | some e =>
      simp only [if_pos hf]
      exact ⟨_, rfl, hs, rfl, rfl⟩
    | none =>
      simp only [if_pos hf]
      exact main _
  · simp only [if_neg hf]
    exact main _

/-- A call of `switch_states` on a dumper without segments and without active reader has no
defined result: `m_states.back()` is called on the empty deque, unless the autodisable check
before it has already dereferenced the missing active segment. The same holds for `close`,
which calls `switch_states`. -/
theorem switch_states_without_segments (d : sinsp_memory_dumper) (ts sys_ts_ns : Nat)
    (open_ok : Bool) (hs : d.m_states = []) (hr : d.m_reader_active = false) :
    switch_states d ts sys_ts_ns open_ok = none ∧ close d sys_ts_ns open_ok = none := by
  have key : ∀ t : Nat, switch_states d t sys_ts_ns open_ok = none := by
    intro t
    unfold switch_states
    cases hc : check_autodisable d t sys_ts_ns with
    | none => rfl
    | some d1 =>
      dsimp only
      obtain ⟨b1, b2, _, _, _⟩ := before_rotation_frame hc
      have hrot : rotate_states (save_capture (clear_delayed_switch
          (set_last_switch_state d1 sys_ts_ns))) = none := by
        unfold rotate_states
        rw [if_neg (by rw [b2, hr]; simp), b1, hs]
        rfl
      rw [hrot]
  refine ⟨key ts, ?_⟩
  unfold close
  rw [key 0]

/-- On a disabled dumper without segments, every sequence of calls of `add_job`, and of
`check_autodisable` when autodisable is off, has a defined result, which is a disabled dumper
without segments. -/
theorem run_calls_without_segments (autodisable : Bool) (calls : List dumper_call) :
    ∀ d : sinsp_memory_dumper, d.m_states = [] → d.m_disabled = true →
      d.m_autodisable = autodisable →
      (∀ call ∈ calls, needs_no_segment autodisable call = true) →
      ∃ d1, run_calls calls d = some d1 ∧ d1.m_disabled = true ∧ d1.m_states = [] := by
  induction calls with
  | nil =>
    intro d hs hd _ _
    exact ⟨d, rfl, hd, hs⟩
  | cons call rest ih =>
    intro d hs hd ha hall
    have hcall := hall call (List.mem_cons_self _ _)
    have hrest : ∀ x ∈ rest, needs_no_segment autodisable x = true :=
      fun x hx => hall x (List.mem_cons_of_mem _ hx)
    have step : ∃ d2, apply_call d call = some d2 ∧ d2.m_states = [] ∧ d2.m_disabled = true ∧
        d2.m_autodisable = autodisable := by
      cases call with
      | switch_states ts sys_ts_ns open_ok => exact absurd hcall (by simp [needs_no_segment])
      | close sys_ts_ns open_ok => exact absurd hcall (by simp [needs_no_segment])
      | check_autodisable evt_ts_ns sys_ts_ns =>
        have hoff : autodisable = false := by
          cases autodisable with
          | false => rfl
          | true => exact absurd hcall (by simp [needs_no_segment])
        refine ⟨d, ?_, hs, hd, ha⟩
        show check_autodisable d evt_ts_ns sys_ts_ns = some d
        unfold check_autodisable
        rw [if_neg (by rw [ha, hoff]; simp)]
      | add_job ts filename filter past future membuf_mtx compile_exception envs =>
        obtain ⟨r, h1, h2, h3, h4⟩ := add_job_without_segments d ts filename filter past future
          membuf_mtx compile_exception envs hs
        refine ⟨r.1, ?_, h2, h3.trans hd, h4.trans ha⟩
        show (add_job d ts filename filter past future membuf_mtx compile_exception envs).map
          (fun r => r.1) = some r.1
        rw [h1]
        rfl
    obtain ⟨d2, e1, e2, e3, e4⟩ := step
    obtain ⟨d1, f1, f2, f3⟩ := ih d2 e2 e3 e4 hrest
    refine ⟨d1, ?_, f2, f3⟩
    unfold run_calls
    rw [e1]
    exact f1

/-- C15, as the claim states it, fails: the probe file of `init` cannot be opened, and `init`
leaves the dumper disabled without segments. A later call of `switch_states` or of `close`,
also after a call of `add_job`, has no defined result, since it calls `m_states.back()` on the
empty deque; with autodisable on, a call of `check_autodisable` that does not hit the time
threshold has none either, since it dereferences the active segment. So there is no dumper
after a call of `switch_states` whose `m_disabled` is true. -/
theorem init_probe_failure_counterexample :
    init_probe_fails 3 hostile_init_env = true ∧
      (init (sinsp_memory_dumper.construct blank_dumper) 3000 100000 3 false 20 100 1
        hostile_init_env).m_states = [] ∧
      (¬ ∃ d, run_calls [dumper_call.switch_states 5 6 true]
          (init (sinsp_memory_dumper.construct blank_dumper) 3000 100000 3 false 20 100 1
            hostile_init_env) = some d ∧ d.m_disabled = true) ∧
      run_calls [dumper_call.switch_states 5 6 true]
        (init (sinsp_memory_dumper.construct blank_dumper) 3000 100000 3 false 20 100 1
          hostile_init_env) = none ∧
      run_calls [dumper_call.close 6 true]
        (init (sinsp_memory_dumper.construct blank_dumper) 3000 100000 3 false 20 100 1
          hostile_init_env) = none ∧
      run_calls
        [dumper_call.add_job 100 "capture.scap" "" 1 2 none none (fun _ => quiet_scan),
          dumper_call.switch_states 5 6 true]
        (init (sinsp_memory_dumper.construct blank_dumper) 3000 100000 3 false 20 100 1
          hostile_init_env) = none ∧
      run_calls [dumper_call.check_autodisable 1 1000000000]
        (init (sinsp_memory_dumper.construct blank_dumper) 3000 100000 3 true 20 100 1
          hostile_init_env) = none := by
  have hnone : run_calls [dumper_call.switch_states 5 6 true]
      (init (sinsp_memory_dumper.construct blank_dumper) 3000 100000 3 false 20 100 1
        hostile_init_env) = none := by decide
  refine ⟨by decide, by decide, ?_, hnone, by decide, by decide, by decide⟩
  rintro ⟨d, h, _⟩
  rw [hnone] at h
  exact absurd h (by simp)

/-- C15, amended: when the probe allocation of `init` fails, `init` leaves the dumper disabled
with no segment. None of `switch_states`, `check_autodisable`, `add_job` and `close` clears
`m_disabled`: it is true after every later sequence of these calls that has a defined result.
Every sequence of calls of `add_job`, and of `check_autodisable` when autodisable is off, has
one, which is a disabled dumper without segments. A call of `switch_states` or of `close` on
the dumper that `init` leaves has none when the member `m_reader_active`, which neither the
constructor nor the failed `init` has set, holds false. -/
theorem init_probe_failure_is_final (junk : sinsp_memory_dumper)
    (bufsize max_disk_size max_init_attempts : Nat) (autodisable : Bool)
    (threshold time_ms re_enable : Nat) (env : init_env)
    (hfail : init_probe_fails max_init_attempts env = true) :
    (init (sinsp_memory_dumper.construct junk) bufsize max_disk_size max_init_attempts
        autodisable threshold time_ms re_enable env).m_disabled = true ∧
      (init (sinsp_memory_dumper.construct junk) bufsize max_disk_size max_init_attempts
        autodisable threshold time_ms re_enable env).m_states = [] ∧
      (∀ (calls : List dumper_call) (d : sinsp_memory_dumper),
        run_calls calls (init (sinsp_memory_dumper.construct junk) bufsize max_disk_size
          max_init_attempts autodisable threshold time_ms re_enable env) = some d →
        d.m_disabled = true) ∧
      (∀ calls : List dumper_call,
        (∀ call ∈ calls, needs_no_segment autodisable call = true) →
        ∃ d, run_calls calls (init (sinsp_memory_dumper.construct junk) bufsize max_disk_size
            max_init_attempts autodisable threshold time_ms re_enable env) = some d ∧
          d.m_disabled = true ∧ d.m_states = []) ∧
      (junk.m_reader_active = false →
        ∀ (ts sys_ts_ns : Nat) (open_ok : Bool),
          switch_states (init (sinsp_memory_dumper.construct junk) bufsize max_disk_size
              max_init_attempts autodisable threshold time_ms re_enable env) ts sys_ts_ns
              open_ok = none ∧
            close (init (sinsp_memory_dumper.construct junk) bufsize max_disk_size
              max_init_attempts autodisable threshold time_ms re_enable env) sys_ts_ns
              open_ok = none) := by
  have hp : (init_probe (init_config (sinsp_memory_dumper.construct junk) autodisable
      threshold time_ms re_enable) max_init_attempts env).m_disabled = true := by
    unfold init_probe
    rw [if_pos hfail]
  have e : init (sinsp_memory_dumper.construct junk) bufsize max_disk_size max_init_attempts
      autodisable threshold time_ms re_enable env =
      init_probe (init_config (sinsp_memory_dumper.construct junk) autodisable
        threshold time_ms re_enable) max_init_attempts env := by
    unfold init
    rw [if_pos hp]
  have hst : (init_probe (init_config (sinsp_memory_dumper.construct junk) autodisable
      threshold time_ms re_enable) max_init_attempts env).m_states = [] := by
    rw [init_probe_states]
    rfl
  have hauto : (init_probe (init_config (sinsp_memory_dumper.construct junk) autodisable
      threshold time_ms re_enable) max_init_attempts env).m_autodisable = autodisable := by
    unfold init_probe
    rw [if_pos hfail]
    rfl
  have hreader : (init_probe (init_config (sinsp_memory_dumper.construct junk) autodisable
      threshold time_ms re_enable) max_init_attempts env).m_reader_active =
      junk.m_reader_active := by
    unfold init_probe
    rw [if_pos hfail]
    rfl
  rw [e]
  refine ⟨hp, hst, ?_, ?_, ?_⟩
  · intro calls d h
    exact run_calls_disabled calls _ d hp h
  · intro calls hall
    exact run_calls_without_segments autodisable calls _ hst hp hauto hall
  · intro hj ts sys_ts_ns open_ok
    exact switch_states_without_segments _ ts sys_ts_ns open_ok hst (hreader.trans hj)

/-- C15, amended, on two examples: the probe file cannot be opened, and `posix_fallocate` is
interrupted at each of the three attempts allowed. The dumper is disabled without segments,
and still so after a call of `check_autodisable` and two calls of `add_job`; a call of
`switch_states` on it has no defined result. -/
theorem init_probe_failure_is_final_witness :
    init_probe_fails 3 hostile_init_env = true ∧
      init_probe_fails 3 interrupted_init_env = true ∧
      (∃ d, run_calls
          [dumper_call.check_autodisable 1 2,
            dumper_call.add_job 100 "capture.scap" "" 1 2 none none (fun _ => quiet_scan),
            dumper_call.add_job 200 "capture.scap" "evt.type=open" 0 0 none none
              (fun _ => failing_scan)]
          (init (sinsp_memory_dumper.construct blank_dumper) 3000 100000 3 false 20 100 1
            hostile_init_env) = some d ∧
        d.m_disabled = true ∧ d.m_states = []) ∧
      (init (sinsp_memory_dumper.construct blank_dumper) 3000 100000 3 false 20 100 1
        interrupted_init_env).m_disabled = true ∧
      switch_states (init (sinsp_memory_dumper.construct blank_dumper) 3000 100000 3 false 20
        100 1 interrupted_init_env) 5 6 true = none := by
  have h1 : init_probe_fails 3 hostile_init_env = true := by decide
  have h2 : init_probe_fails 3 interrupted_init_env = true := by decide
  obtain ⟨_, _, _, a4, _⟩ := init_probe_failure_is_final blank_dumper 3000 100000 3 false 20
    100 1 hostile_init_env h1
  obtain ⟨b1, _, _, _, b5⟩ := init_probe_failure_is_final blank_dumper 3000 100000 3 false 20
    100 1 interrupted_init_env h2
  refine ⟨h1, h2, a4 _ ?_, b1, (b5 rfl 5 6 true).1⟩
  intro call hc
  simp only [List.mem_cons, List.mem_singleton, List.not_mem_nil, or_false] at hc
  rcases hc with hc | hc | hc <;> subst hc <;> rfl

end memdumper

/-! ## Theorems about the policy engine -/

namespace secpolicy

/-- The function `perform_actions` returns true. -/
theorem perform_actions_true (p : security_policy) (c : collaborators) (evt : sinsp_evt)
    (event : policy_event) : (perform_actions p c evt event).1 = true := rfl

/-- C6: `process_event` returns true if and only if the policy is enabled, the type of the
event is set in the event-type mask and `match_event` gives a policy event; the value does not
depend on the outcome of the actions, as `perform_actions` returns true for every policy
event. -/
theorem process_event_true_iff (p : security_policy) (c : collaborators) (evt : sinsp_evt) :
    ((process_event p c evt).1 = true ↔
        (p.m_policy.enabled = true ∧ p.m_evttypes evt.type = true ∧
          (match_event p c evt).1.isSome = true)) ∧
      (∀ (q : security_policy) (event : policy_event),
        (perform_actions q c evt event).1 = true) := by
  refine ⟨?_, fun q event => rfl⟩
  unfold process_event
  by_cases he : p.m_policy.enabled = false
  · rw [if_pos he]
    constructor
    · intro h; exact absurd h (by simp)
    · intro h; rw [he] at h; exact absurd h.1 (by simp)
  · rw [if_neg he]
    have he2 : p.m_policy.enabled = true := by
      cases hv : p.m_policy.enabled with
      | true => rfl
      | false => exact absurd hv he
    by_cases ht : p.m_evttypes evt.type = true
    · rw [if_pos ht]
      cases hm : (match_event p c evt).1 with
      | none =>
        dsimp only
        constructor
        · intro h; exact absurd h (by simp)
        · intro h; exact absurd h.2.2 (by simp)
      | some event =>
        dsimp only
        constructor
        · intro _; exact ⟨he2, ht, rfl⟩
        · intro _; rfl
    · rw [if_neg ht]
      constructor
      · intro h; exact absurd h (by simp)
      · intro h; exact absurd h.2.1 ht

/-- C7: for a disabled policy `process_event` returns false and does nothing but increment
`EVM_POLICY_DISABLED`: that counter grows by one, every other counter keeps its value, no call
is made to a collaborator (so neither the rule engine is asked nor an action performed), and
the outstanding states and their flag are unchanged. -/
theorem process_event_disabled (p : security_policy) (c : collaborators) (evt : sinsp_evt)
    (h : p.m_policy.enabled = false) :
    process_event p c evt = (false, count p evt_reason.EVM_POLICY_DISABLED) ∧
      (process_event p c evt).2.m_metrics evt_reason.EVM_POLICY_DISABLED =
        p.m_metrics evt_reason.EVM_POLICY_DISABLED + 1 ∧
      (∀ r : evt_reason, r ≠ evt_reason.EVM_POLICY_DISABLED →
        (process_event p c evt).2.m_metrics r = p.m_metrics r) ∧
      (process_event p c evt).2.m_calls = p.m_calls ∧
      (process_event p c evt).2.m_outstanding_actions = p.m_outstanding_actions ∧
      (process_event p c evt).2.m_has_outstanding_actions = p.m_has_outstanding_actions ∧
      (process_event p c evt).2.m_next_handle = p.m_next_handle := by
  have e : process_event p c evt = (false, count p evt_reason.EVM_POLICY_DISABLED) := by
    unfold process_event
    rw [if_pos h]
  rw [e]
  refine ⟨rfl, ?_, ?_, rfl, rfl, rfl, rfl⟩
  · show incr p.m_metrics evt_reason.EVM_POLICY_DISABLED evt_reason.EVM_POLICY_DISABLED = _
    unfold incr
    rw [if_pos rfl]
  · intro r hr
    show incr p.m_metrics evt_reason.EVM_POLICY_DISABLED r = _
    unfold incr
    rw [if_neg hr]

/-- C7 on a disabled policy with a capture action and an event that matches: the call
returns false, the counter is one and no call has been made. -/
theorem process_event_disabled_witness :
    disabled_object.m_policy.enabled = false ∧
      (process_event disabled_object willing example_evt).1 = false ∧
      (process_event disabled_object willing example_evt).2.m_metrics
        evt_reason.EVM_POLICY_DISABLED = 1 ∧
      (process_event disabled_object willing example_evt).2.m_calls = [] := by
  have h : disabled_object.m_policy.enabled = false := rfl
  have t := process_event_disabled disabled_object willing example_evt h
  refine ⟨h, ?_, ?_, ?_⟩
  · rw [t.1]
  · rw [t.2.1]; rfl
  · rw [t.2.2.2.1]; rfl

/-- C2, the code at the failing input: a policy with two capture actions, both started. The
state is complete and its event holds two successful capture results with the tokens
`token-1` and `token-2`. `check_outstanding_actions` offers the event once, which is accepted,
and calls `start_sending_capture` for `token-1` only: for `token-2` it calls neither
`start_sending_capture` nor `stop_capture`. -/
theorem check_outstanding_actions_second_capture :
    two_captures_done.m_has_outstanding_actions = true ∧
      two_captures_done.m_outstanding_actions.map
          (fun a => (a.m_num_remaining_actions,
            a.m_event.action_results.map (fun r => (r.type, r.successful, r.token)))) =
        [(0, [(action_type.ACTION_CAPTURE, true, "token-1"),
          (action_type.ACTION_CAPTURE, true, "token-2")])] ∧
      accepted_handles (check_outstanding_actions two_captures_done willing 200).m_calls =
        [0] ∧
      sent_tokens (check_outstanding_actions two_captures_done willing 200).m_calls =
        ["token-1"] ∧
      stopped_tokens (check_outstanding_actions two_captures_done willing 200).m_calls = [] ∧
      (check_outstanding_actions two_captures_done willing 200).m_outstanding_actions = [] := by
  refine ⟨rfl, ?_, ?_, ?_, ?_, ?_⟩
  · decide
  · decide
  · decide
  · decide
  · decide

/-- C3, the code at the failing input: a policy whose only action has an unknown type. After
`perform_actions` no callback has been handed out (no call has been made at all), the result
slot is stamped as failed, and the number of remaining actions is still one: the state is not
complete, and `check_outstanding_actions` neither offers its event nor removes it. -/
theorem perform_actions_unknown_action :
    unknown_action_done.m_calls = [] ∧
      unknown_action_done.m_outstanding_actions.map
          (fun a => (a.m_num_remaining_actions,
            a.m_event.action_results.map (fun r => (r.type, r.successful, r.errmsg)))) =
        [(1, [(action_type.ACTION_OTHER 4, false, "Policy Action 4 not implemented yet")])] ∧
      unknown_action_done.m_has_outstanding_actions = false ∧
      (check_outstanding_actions unknown_action_done willing 200).m_calls = [] ∧
      (check_outstanding_actions unknown_action_done willing 200).m_outstanding_actions.map
          (fun a => a.m_num_remaining_actions) = [1] := by
  refine ⟨rfl, ?_, rfl, rfl, ?_⟩
  · decide
  · decide

/-- The handles offered to `accept_policy_event` in a concatenation of calls. -/
theorem accepted_handles_append (l1 l2 : List port_call) :
    accepted_handles (l1 ++ l2) = accepted_handles l1 ++ accepted_handles l2 := by
  induction l1 with
  | nil => rfl
  | cons x rest ih =>
    cases x <;> simp [accepted_handles, ih]

/-- The calls that follow `accept_policy_event` for a state offer no event. -/
theorem accepted_handles_capture_calls (accepted : Bool) (act : actions_state) :
    accepted_handles (capture_calls accepted act) = [] := by
  unfold capture_calls
  cases has_action_result act.m_event action_type.ACTION_CAPTURE with
  | none => rfl
  | some aresult =>
    dsimp only
    by_cases h1 : aresult.successful = true
    · rw [if_pos h1]
      by_cases h2 : aresult.token = ""
      · rw [if_pos h2]; rfl
      · rw [if_neg h2]
        by_cases h3 : accepted = true
        · rw [if_pos h3]; rfl
        · rw [if_neg h3]; rfl
    · rw [if_neg h1]; rfl

/-- What `erase(remove_if(...))` does in `check_outstanding_actions`: the states with
remaining actions are kept, in order and unchanged, and `accept_policy_event` is called for
the others, in order. -/
theorem erase_remove_if_spec (c : collaborators) (ts_ns : Nat) (l : List actions_state) :
    ∀ calls : List port_call,
      (erase_remove_if c ts_ns l calls).1 =
          l.filter (fun a => decide (a.m_num_remaining_actions ≠ 0)) ∧
        accepted_handles (erase_remove_if c ts_ns l calls).2 =
          accepted_handles calls ++
            handles (l.filter (fun a => decide (a.m_num_remaining_actions = 0))) := by
  induction l with
  | nil =>
    intro calls
    exact ⟨rfl, by simp [erase_remove_if, handles]⟩
  | cons a rest ih =>
    intro calls
    unfold erase_remove_if
    by_cases h0 : a.m_num_remaining_actions = 0
    · have e : no_outstanding_actions c ts_ns calls a =
          (true, calls ++ [accept_call ts_ns a] ++
            capture_calls (c.accept_policy_event (calls ++ [accept_call ts_ns a])) a) := by
        unfold no_outstanding_actions
        rw [if_pos h0]
      rw [e]
      dsimp only
      rw [if_pos rfl]
      obtain ⟨i1, i2⟩ := ih (calls ++ [accept_call ts_ns a] ++
        capture_calls (c.accept_policy_event (calls ++ [accept_call ts_ns a])) a)
      constructor
      · rw [i1]; simp [h0]
      · rw [i2, accepted_handles_append, accepted_handles_append,
          accepted_handles_capture_calls]
        simp [h0, handles, accept_call, accepted_handles]
    · have e : no_outstanding_actions c ts_ns calls a = (false, calls) := by
        unfold no_outstanding_actions
        rw [if_neg h0]
      rw [e]
      dsimp only
      rw [if_neg (by simp)]
      obtain ⟨i1, i2⟩ := ih calls
      constructor
      · dsimp only; rw [i1]; simp [h0]
      · dsimp only; rw [i2]; simp [h0]

/-- The function `note_action_complete` keeps the handle and the calls, and never clears the
flag. -/
theorem note_action_complete_frame (st : action_loop) :
    (note_action_complete st).astate.m_handle = st.astate.m_handle ∧
      (note_action_complete st).calls = st.calls ∧
      (st.has_outstanding = true → (note_action_complete st).has_outstanding = true) := by
  unfold note_action_complete
  refine ⟨rfl, rfl, ?_⟩
  intro h
  by_cases h0 : decrement st.astate.m_num_remaining_actions = 0
  · exact if_pos h0
  · exact (if_neg h0).trans h

/-- One action of `perform_actions` keeps the handle of the state, offers no event to
`accept_policy_event` and never clears the flag. -/
theorem perform_action_frame (c : collaborators) (pol : policy) (evt : sinsp_evt)
    (container_id : String) (pid : Nat) (st : action_loop) (a : action) :
    (perform_action c pol evt container_id pid st a).astate.m_handle = st.astate.m_handle ∧
      accepted_handles (perform_action c pol evt container_id pid st a).calls =
        accepted_handles st.calls ∧
      (st.has_outstanding = true →
        (perform_action c pol evt container_id pid st a).has_outstanding = true) := by
  unfold perform_action
  cases a.type with
  | ACTION_CAPTURE =>
    dsimp only
    by_cases hs : (c.start_capture (st.calls ++
        [capture_call pol evt container_id pid a (c.create_random_uuid st.calls)])).1 = false
    · rw [if_pos hs]
      refine ⟨rfl, ?_, ?_⟩
      · show accepted_handles (st.calls ++ [_]) = _
        rw [accepted_handles_append]
        simp [capture_call, accepted_handles]
      · intro h
        exact (note_action_complete_frame _).2.2 h
    · rw [if_neg hs]
      refine ⟨rfl, ?_, ?_⟩
      · show accepted_handles (st.calls ++ [_]) = _
        rw [accepted_handles_append]
        simp [capture_call, accepted_handles]
      · intro h
        exact (note_action_complete_frame _).2.2 h
  | ACTION_PAUSE =>
    refine ⟨rfl, ?_, fun h => h⟩
    show accepted_handles (st.calls ++ [_]) = _
    rw [accepted_handles_append]
    simp [accepted_handles]
  | ACTION_STOP =>
    refine ⟨rfl, ?_, fun h => h⟩
    show accepted_handles (st.calls ++ [_]) = _
    rw [accepted_handles_append]
    simp [accepted_handles]
  | ACTION_OTHER v =>
    exact ⟨rfl, rfl, fun h => h⟩

/-- The loop of `perform_actions` keeps the handle of the state, offers no event to
`accept_policy_event` and never clears the flag. -/
theorem foldl_perform_action_frame (c : collaborators) (pol : policy) (evt : sinsp_evt)
    (container_id : String) (pid : Nat) (l : List action) :
    ∀ st : action_loop,
      (l.foldl (perform_action c pol evt container_id pid) st).astate.m_handle =
          st.astate.m_handle ∧
        accepted_handles (l.foldl (perform_action c pol evt container_id pid) st).calls =
          accepted_handles st.calls ∧
        (st.has_outstanding = true →
          (l.foldl (perform_action c pol evt container_id pid) st).has_outstanding = true) := by
  induction l with
  | nil => intro st; exact ⟨rfl, rfl, fun h => h⟩
  | cons a rest ih =>
    intro st
    obtain ⟨a1, a2, a3⟩ := perform_action_frame c pol evt container_id pid st a
    obtain ⟨b1, b2, b3⟩ := ih (perform_action c pol evt container_id pid st a)
    rw [List.foldl_cons]
    exact ⟨b1.trans a1, b2.trans a2, fun h => b3 (a3 h)⟩

/-- The state that `perform_actions` appends has the next handle, no event is offered to
`accept_policy_event`, and the flag is not cleared. -/
theorem perform_actions_loop_frame (p : security_policy) (c : collaborators) (evt : sinsp_evt)
    (event : policy_event) :
    (perform_actions_loop p c evt event).astate.m_handle = p.m_next_handle ∧
      accepted_handles (perform_actions_loop p c evt event).calls =
        accepted_handles p.m_calls ∧
      (p.m_has_outstanding_actions = true →
        (perform_actions_loop p c evt event).has_outstanding = true) := by
  unfold perform_actions_loop
  exact foldl_perform_action_frame c p.m_policy evt _ _ p.m_policy.actions _

/-- The function `perform_actions` keeps the bookkeeping. -/
theorem perform_actions_inv (p : security_policy) (c : collaborators) (evt : sinsp_evt)
    (event : policy_event) (hp : policy_inv p) :
    policy_inv (perform_actions p c evt event).2 := by
  obtain ⟨h1, h2, h3, h4, h5, h6⟩ := hp
  obtain ⟨f1, f2, f3⟩ := perform_actions_loop_frame p c evt event
  have hh : handles (p.m_outstanding_actions ++ [(perform_actions_loop p c evt event).astate]) =
      handles p.m_outstanding_actions ++ [p.m_next_handle] := by
    unfold handles
    rw [List.map_append, List.map_singleton, f1]
  refine ⟨?_, ?_, ?_, ?_, ?_, ?_⟩
  · intro h hm
    have hm2 : h ∈ handles p.m_outstanding_actions ++ [p.m_next_handle] := hh ▸ hm
    rcases List.mem_append.mp hm2 with hm3 | hm3
    · exact Nat.lt_succ_of_lt (h1 h hm3)
    · rw [List.mem_singleton.mp hm3]; exact Nat.lt_succ_self _
  · show (handles (p.m_outstanding_actions ++ [(perform_actions_loop p c evt event).astate])).Nodup
    rw [hh]
    refine List.nodup_append.mpr ⟨h2, List.nodup_singleton _, ?_⟩
    intro x hx hy
    rw [List.mem_singleton.mp hy] at hx
    exact absurd (h1 _ hx) (Nat.lt_irrefl _)
  · show (accepted_handles (perform_actions_loop p c evt event).calls).Nodup
    rw [f2]; exact h3
  · intro h hm
    have hm2 : h ∈ accepted_handles p.m_calls := f2 ▸ hm
    exact Nat.lt_succ_of_lt (h4 h hm2)
  · intro h hm hn
    have hm2 : h ∈ accepted_handles p.m_calls := f2 ▸ hm
    have hn2 : h ∈ handles p.m_outstanding_actions ++ [p.m_next_handle] := hh ▸ hn
    rcases List.mem_append.mp hn2 with hn3 | hn3
    · exact h5 h hm2 hn3
    · rw [List.mem_singleton.mp hn3] at hm2
      exact absurd (h4 _ hm2) (Nat.lt_irrefl _)
  · intro a ha h0
    show (if (perform_actions_loop p c evt event).astate.m_num_remaining_actions = 0 then true
      else (perform_actions_loop p c evt event).has_outstanding) = true
    have ha2 : a ∈ p.m_outstanding_actions ++ [(perform_actions_loop p c evt event).astate] := ha
    rcases List.mem_append.mp ha2 with ha3 | ha3
    · by_cases hz : (perform_actions_loop p c evt event).astate.m_num_remaining_actions = 0
      · rw [if_pos hz]
      · rw [if_neg hz]; exact f3 (h6 a ha3 h0)
    · rw [List.mem_singleton.mp ha3] at h0
      rw [if_pos h0]

/-- The handles of the states kept by a filter are among the handles of all states. -/
theorem handles_filter_sublist (f : actions_state → Bool) (l : List actions_state) :
    (handles (l.filter f)).Sublist (handles l) := by
  unfold handles
  exact (List.filter_sublist l).map _

/-- The handles of the states a filter keeps and of those it drops are disjoint when the
handles are distinct. -/
theorem handles_filter_disjoint (l : List actions_state) (hn : (handles l).Nodup) :
    ∀ h, h ∈ handles (l.filter (fun a => decide (a.m_num_remaining_actions = 0))) →
      h ∉ handles (l.filter (fun a => decide (a.m_num_remaining_actions ≠ 0))) := by
  induction l with
  | nil => intro h hm; simp [handles] at hm
  | cons a rest ih =>
    have hn2 : a.m_handle ∉ handles rest ∧ (handles rest).Nodup := by
      have : (a.m_handle :: handles rest).Nodup := hn
      exact List.nodup_cons.mp this
    intro h hm hk
    by_cases h0 : a.m_num_remaining_actions = 0
    · have e1 : (a :: rest).filter (fun a => decide (a.m_num_remaining_actions = 0)) =
          a :: rest.filter (fun a => decide (a.m_num_remaining_actions = 0)) := by
        simp [h0]
      have e2 : (a :: rest).filter (fun a => decide (a.m_num_remaining_actions ≠ 0)) =
          rest.filter (fun a => decide (a.m_num_remaining_actions ≠ 0)) := by
        simp [h0]
      rw [e1] at hm
      rw [e2] at hk
      have hm2 : h = a.m_handle ∨
          h ∈ handles (rest.filter (fun a => decide (a.m_num_remaining_actions = 0))) := by
        simpa [handles] using hm
      rcases hm2 with hm3 | hm3
      · rw [hm3] at hk
        exact hn2.1 ((handles_filter_sublist _ rest).subset hk)
      · exact ih hn2.2 h hm3 hk
    · have e1 : (a :: rest).filter (fun a => decide (a.m_num_remaining_actions = 0)) =
          rest.filter (fun a => decide (a.m_num_remaining_actions = 0)) := by
        simp [h0]
      have e2 : (a :: rest).filter (fun a => decide (a.m_num_remaining_actions ≠ 0)) =
          a :: rest.filter (fun a => decide (a.m_num_remaining_actions ≠ 0)) := by
        simp [h0]
      rw [e1] at hm
      rw [e2] at hk
      have hk2 : h = a.m_handle ∨
          h ∈ handles (rest.filter (fun a => decide (a.m_num_remaining_actions ≠ 0))) := by
        simpa [handles] using hk
      rcases hk2 with hk3 | hk3
      · rw [hk3] at hm
        exact hn2.1 ((handles_filter_sublist _ rest).subset hm)
      · exact ih hn2.2 h hm hk3

/-- The function `check_outstanding_actions` when the flag is set: the states with remaining
actions are kept and the others are offered to `accept_policy_event`. -/
theorem check_outstanding_actions_flagged (p : security_policy) (c : collaborators)
    (ts_ns : Nat) (hf : p.m_has_outstanding_actions = true) :
    (check_outstanding_actions p c ts_ns).m_outstanding_actions =
        p.m_outstanding_actions.filter (fun a => decide (a.m_num_remaining_actions ≠ 0)) ∧
      accepted_handles (check_outstanding_actions p c ts_ns).m_calls =
        accepted_handles p.m_calls ++
          handles (p.m_outstanding_actions.filter
            (fun a => decide (a.m_num_remaining_actions = 0))) ∧
      (check_outstanding_actions p c ts_ns).m_has_outstanding_actions = false ∧
      (check_outstanding_actions p c ts_ns).m_next_handle = p.m_next_handle := by
  obtain ⟨e1, e2⟩ := erase_remove_if_spec c ts_ns p.m_outstanding_actions p.m_calls
  unfold check_outstanding_actions
  rw [if_neg (by rw [hf]; simp)]
  exact ⟨e1, e2, rfl, rfl⟩

/-- A list of states none of which is complete is left alone by the filter. -/
theorem filter_no_complete (l : List actions_state)
    (h : ∀ a ∈ l, a.m_num_remaining_actions ≠ 0) :
    l.filter (fun a => decide (a.m_num_remaining_actions ≠ 0)) = l ∧
      l.filter (fun a => decide (a.m_num_remaining_actions = 0)) = [] := by
  constructor
  · apply List.filter_eq_self.mpr
    intro a ha
    simpa using h a ha
  · apply List.filter_eq_nil_iff.mpr
    intro a ha
    simpa using h a ha

/-- The function `check_outstanding_actions` on a policy object that keeps the bookkeeping,
whatever the flag: the states with remaining actions are kept, in order and unchanged, and
the others are offered to `accept_policy_event`. -/
theorem check_outstanding_actions_spec (p : security_policy) (c : collaborators)
    (ts_ns : Nat) (hp : policy_inv p) :
    (check_outstanding_actions p c ts_ns).m_outstanding_actions =
        p.m_outstanding_actions.filter (fun a => decide (a.m_num_remaining_actions ≠ 0)) ∧
      accepted_handles (check_outstanding_actions p c ts_ns).m_calls =
        accepted_handles p.m_calls ++
          handles (p.m_outstanding_actions.filter
            (fun a => decide (a.m_num_remaining_actions = 0))) ∧
      (check_outstanding_actions p c ts_ns).m_next_handle = p.m_next_handle := by
  by_cases hf : p.m_has_outstanding_actions = true
  · obtain ⟨a1, a2, _, a4⟩ := check_outstanding_actions_flagged p c ts_ns hf
    exact ⟨a1, a2, a4⟩
  · have hnone : ∀ a ∈ p.m_outstanding_actions, a.m_num_remaining_actions ≠ 0 :=
      fun a ha h0 => hf (hp.2.2.2.2.2 a ha h0)
    obtain ⟨f1, f2⟩ := filter_no_complete p.m_outstanding_actions hnone
    have e : check_outstanding_actions p c ts_ns = p := by
      unfold check_outstanding_actions
      rw [if_pos (by simpa using hf)]
    rw [e, f1, f2]
    exact ⟨rfl, by simp [handles], rfl⟩

/-- The function `check_outstanding_actions` keeps the bookkeeping. -/
theorem check_outstanding_actions_inv (p : security_policy) (c : collaborators) (ts_ns : Nat)
    (hp : policy_inv p) : policy_inv (check_outstanding_actions p c ts_ns) := by
  by_cases hf : p.m_has_outstanding_actions = true
  · obtain ⟨h1, h2, h3, h4, h5, _⟩ := hp
    obtain ⟨a1, a2, _, a4⟩ := check_outstanding_actions_flagged p c ts_ns hf
    have sub1 := handles_filter_sublist (fun a => decide (a.m_num_remaining_actions ≠ 0))
      p.m_outstanding_actions
    have sub0 := handles_filter_sublist (fun a => decide (a.m_num_remaining_actions = 0))
      p.m_outstanding_actions
    refine ⟨?_, ?_, ?_, ?_, ?_, ?_⟩
    · intro h hm
      rw [a1] at hm
      rw [a4]
      exact h1 h (sub1.subset hm)
    · rw [a1]; exact h2.sublist sub1
    · rw [a2]
      refine List.nodup_append.mpr ⟨h3, h2.sublist sub0, ?_⟩
      intro x hx hy
      exact h5 x hx (sub0.subset hy)
    · intro h hm
      rw [a2] at hm
      rw [a4]
      rcases List.mem_append.mp hm with hm2 | hm2
      · exact h4 h hm2
      · exact h1 h (sub0.subset hm2)
    · intro h hm hk
      rw [a2] at hm
      rw [a1] at hk
      rcases List.mem_append.mp hm with hm2 | hm2
      · exact h5 h hm2 (sub1.subset hk)
      · exact handles_filter_disjoint p.m_outstanding_actions h2 h hm2 hk
    · intro a ha h0
      rw [a1] at ha
      have := (List.mem_filter.mp ha).2
      simp [h0] at this
  · have e : check_outstanding_actions p c ts_ns = p := by
      unfold check_outstanding_actions
      rw [if_pos (by simpa using hf)]
    rw [e]; exact hp

/-- A callback changes no handle, and a state is complete after it only if it was complete
before or the callback reports that its state became complete. -/
theorem complete_in_spec (handle slot : Nat) (successful res_successful : Bool)
    (res_errstr : String) (l : List actions_state) :
    ∀ r, complete_in handle slot successful res_successful res_errstr l = some r →
      handles r.1 = handles l ∧
        (∀ a ∈ r.1, a.m_num_remaining_actions = 0 →
          (∃ b ∈ l, b.m_num_remaining_actions = 0) ∨ r.2 = true) := by
  induction l with
  | nil =>
    intro r h
    unfold complete_in at h
    exact absurd h (by simp)
  | cons a rest ih =>
    intro r h
    unfold complete_in at h
    by_cases hh : a.m_handle = handle
    · rw [if_pos hh] at h
      cases h
      refine ⟨rfl, ?_⟩
      intro x hx h0
      rcases List.mem_cons.mp hx with hx2 | hx2
      · right
        rw [hx2] at h0
        exact decide_eq_true h0
      · left
        exact ⟨x, List.mem_cons_of_mem _ hx2, h0⟩
    · rw [if_neg hh] at h
      cases hc : complete_in handle slot successful res_successful res_errstr rest with
      | none => rw [hc] at h; exact absurd h (by simp)
      | some x =>
        rw [hc] at h
        cases h
        obtain ⟨i1, i2⟩ := ih x hc
        refine ⟨?_, ?_⟩
        · show a.m_handle :: handles x.1 = a.m_handle :: handles rest
          rw [i1]
        · intro y hy h0
          rcases List.mem_cons.mp hy with hy2 | hy2
          · left
            exact ⟨a, List.mem_cons_self _ _, hy2 ▸ h0⟩
          · rcases i2 y hy2 h0 with ⟨b, hb, hb0⟩ | hr
            · left; exact ⟨b, List.mem_cons_of_mem _ hb, hb0⟩
            · right; exact hr

/-- A callback keeps the bookkeeping and makes no call. -/
theorem action_callback_inv {p q : security_policy} {handle slot : Nat}
    {successful res_successful : Bool} {res_errstr : String}
    (h : action_callback p handle slot successful res_successful res_errstr = some q)
    (hp : policy_inv p) : policy_inv q ∧ q.m_calls = p.m_calls := by
  obtain ⟨h1, h2, h3, h4, h5, h6⟩ := hp
  unfold action_callback at h
  cases hc : complete_in handle slot successful res_successful res_errstr
      p.m_outstanding_actions with
  | none => rw [hc] at h; exact absurd h (by simp)
  | some r =>
    rw [hc] at h
    cases h
    obtain ⟨c1, c2⟩ := complete_in_spec _ _ _ _ _ _ r hc
    refine ⟨⟨?_, ?_, h3, h4, ?_, ?_⟩, rfl⟩
    · intro x hx
      have hx2 : x ∈ handles p.m_outstanding_actions := c1 ▸ hx
      exact h1 x hx2
    · show (handles r.1).Nodup
      rw [c1]; exact h2
    · intro x hx hk
      have hk2 : x ∈ handles p.m_outstanding_actions := c1 ▸ hk
      exact h5 x hx hk2
    · intro a ha h0
      show (if r.2 = true then true else p.m_has_outstanding_actions) = true
      rcases c2 a ha h0 with ⟨b, hb, hb0⟩ | hr
      · by_cases hr : r.2 = true
        · rw [if_pos hr]
        · rw [if_neg hr]; exact h6 b hb hb0
      · rw [if_pos hr]

/-- A change of the counters alone keeps the bookkeeping. -/
theorem count_inv (p : security_policy) (r : evt_reason) (hp : policy_inv p) :
    policy_inv (count p r) := hp

/-- The function `match_scope` keeps the bookkeeping. -/
theorem match_scope_inv (p : security_policy) (c : collaborators) (evt : sinsp_evt)
    (hp : policy_inv p) : policy_inv (match_scope p c evt).2 := by
  unfold match_scope
  by_cases hs : p.m_policy.container_scope = false ∧ p.m_policy.host_scope = false
  · rw [if_pos hs]; exact hp
  · rw [if_neg hs]
    obtain ⟨h1, h2, h3, h4, h5, h6⟩ := hp
    have e : accepted_handles (p.m_calls ++ [scope_call c evt]) = accepted_handles p.m_calls := by
      rw [accepted_handles_append]
      simp [scope_call, accepted_handles]
    refine ⟨h1, h2, ?_, ?_, ?_, h6⟩
    · show (accepted_handles (p.m_calls ++ [scope_call c evt])).Nodup
      rw [e]; exact h3
    · intro x hx
      have hx2 : x ∈ accepted_handles p.m_calls := e ▸ hx
      exact h4 x hx2
    · intro x hx
      have hx2 : x ∈ accepted_handles p.m_calls := e ▸ hx
      exact h5 x hx2

/-- The function `check_conditions` keeps the bookkeeping. -/
theorem check_conditions_inv (p : security_policy) (c : collaborators) (evt : sinsp_evt)
    (hp : policy_inv p) : policy_inv (check_conditions p c evt).2 := by
  unfold check_conditions
  by_cases h1 : p.m_falco_engine = false
  · rw [if_pos h1]; exact hp
  · rw [if_neg h1]
    by_cases h2 : evt.ef_drop_falco = true
    · rw [if_pos h2]; exact hp
    · rw [if_neg h2]
      by_cases h3 : p.m_policy.scope_predicates > 0
      · rw [if_pos h3]
        by_cases h4 : (match_scope p c evt).1 = false
        · rw [if_pos h4]; exact match_scope_inv p c evt hp
        · rw [if_neg h4]; exact match_scope_inv p c evt hp
      · rw [if_neg h3]; exact hp

/-- The question to the rule engine keeps the bookkeeping. -/
theorem ask_engine_inv (p : security_policy) (c : collaborators) (evt : sinsp_evt)
    (hp : policy_inv p) : policy_inv (ask_engine p c evt).2 := by
  obtain ⟨h1, h2, h3, h4, h5, h6⟩ := hp
  have e : accepted_handles (p.m_calls ++ [engine_call p evt]) = accepted_handles p.m_calls := by
    rw [accepted_handles_append]
    simp [engine_call, accepted_handles]
  have key : ∀ m : evt_reason → Nat,
      policy_inv { p with m_calls := p.m_calls ++ [engine_call p evt], m_metrics := m } := by
    intro m
    refine ⟨h1, h2, ?_, ?_, ?_, h6⟩
    · show (accepted_handles (p.m_calls ++ [engine_call p evt])).Nodup
      rw [e]; exact h3
    · intro x hx
      have hx2 : x ∈ accepted_handles p.m_calls := e ▸ hx
      exact h4 x hx2
    · intro x hx
      have hx2 : x ∈ accepted_handles p.m_calls := e ▸ hx
      exact h5 x hx2
  unfold ask_engine
  cases c.falco_process_event (p.m_calls ++ [engine_call p evt]) with
  | no_result => exact key _
  | rule_result rule format => exact key _
  | throws what => exact key _
  | throws_other what => exact key p.m_metrics

/-- The function `match_event` keeps the bookkeeping. -/
theorem match_event_inv (p : security_policy) (c : collaborators) (evt : sinsp_evt)
    (hp : policy_inv p) : policy_inv (match_event p c evt).2 := by
  unfold match_event
  by_cases h1 : (check_conditions p c evt).1 = false
  · rw [if_pos h1]; exact check_conditions_inv p c evt hp
  · rw [if_neg h1]
    exact ask_engine_inv _ c evt
      (check_outstanding_actions_inv _ c evt.ts (check_conditions_inv p c evt hp))

/-- The function `process_event` keeps the bookkeeping. -/
theorem process_event_inv (p : security_policy) (c : collaborators) (evt : sinsp_evt)
    (hp : policy_inv p) : policy_inv (process_event p c evt).2 := by
  unfold process_event
  by_cases h1 : p.m_policy.enabled = false
  · rw [if_pos h1]; exact hp
  · rw [if_neg h1]
    by_cases h2 : p.m_evttypes evt.type = true
    · rw [if_pos h2]
      cases hm : (match_event p c evt).1 with
      | none => exact match_event_inv p c evt hp
      | some event => exact perform_actions_inv _ c evt event (match_event_inv p c evt hp)
    · rw [if_neg h2]; exact hp

/-- A newly constructed policy object keeps the bookkeeping. -/
theorem construct_inv (pol : policy) (evttypes : Nat → Bool) (falco_engine : Bool)
    (ruleset_id : Nat) :
    policy_inv (security_policy.construct pol evttypes falco_engine ruleset_id) := by
  refine ⟨?_, List.nodup_nil, List.nodup_nil, ?_, ?_, ?_⟩
  · intro h hm; exact absurd hm (List.not_mem_nil _)
  · intro h hm; exact absurd hm (List.not_mem_nil _)
  · intro h hm; exact absurd hm (List.not_mem_nil _)
  · intro a ha; exact absurd ha (List.not_mem_nil _)

/-- Every operation keeps the bookkeeping. -/
theorem apply_op_inv (c : collaborators) {p q : security_policy} (op : policy_op)
    (h : apply_op c p op = some q) (hp : policy_inv p) : policy_inv q := by
  cases op with
  | process_event evt =>
    have h2 : some (process_event p c evt).2 = some q := h
    cases h2
    exact process_event_inv p c evt hp
  | perform_actions evt event =>
    have h2 : some (perform_actions p c evt event).2 = some q := h
    cases h2
    exact perform_actions_inv p c evt event hp
  | action_callback handle slot successful res_successful res_errstr =>
    exact (action_callback_inv (show action_callback p handle slot successful res_successful
      res_errstr = some q from h) hp).1
  | check_outstanding_actions ts_ns =>
    have h2 : some (check_outstanding_actions p c ts_ns) = some q := h
    cases h2
    exact check_outstanding_actions_inv p c ts_ns hp

/-- Every sequence of operations keeps the bookkeeping. -/
theorem run_ops_inv (c : collaborators) (ops : List policy_op) :
    ∀ p q : security_policy, policy_inv p → run_ops c ops p = some q → policy_inv q := by
  induction ops with
  | nil =>
    intro p q hp h
    unfold run_ops at h
    cases h
    exact hp
  | cons op rest ih =>
    intro p q hp h
    unfold run_ops at h
    cases ha : apply_op c p op with
    | none => rw [ha] at h; exact absurd h (by simp)
    | some p1 =>
      rw [ha] at h
      exact ih p1 q (apply_op_inv c op ha hp) h

/-- C4: after every sequence of operations on a newly constructed policy object, each policy
event has been offered to `accept_policy_event` at most once. The calls are made by
`check_outstanding_actions` only: `perform_actions` and the callbacks of the actions make
none, and `check_outstanding_actions` makes one for each state without remaining actions, in
order, and leaves none of these states in `m_outstanding_actions`. -/
theorem accept_policy_event_at_most_once (c : collaborators) (pol : policy)
    (evttypes : Nat → Bool) (falco_engine : Bool) (ruleset_id : Nat) (ops : List policy_op)
    (p : security_policy)
    (h : run_ops c ops (security_policy.construct pol evttypes falco_engine ruleset_id) =
      some p) :
    (∀ handle : Nat, (accepted_handles p.m_calls).count handle ≤ 1) ∧
      (∀ (evt : sinsp_evt) (event : policy_event),
        accepted_handles (perform_actions p c evt event).2.m_calls =
          accepted_handles p.m_calls) ∧
      (∀ (handle slot : Nat) (successful res_successful : Bool) (res_errstr : String)
        (q : security_policy),
        action_callback p handle slot successful res_successful res_errstr = some q →
          q.m_calls = p.m_calls) ∧
      (∀ ts_ns : Nat,
        accepted_handles (check_outstanding_actions p c ts_ns).m_calls =
            accepted_handles p.m_calls ++
              handles (p.m_outstanding_actions.filter
                (fun a => decide (a.m_num_remaining_actions = 0))) ∧
          (∀ a ∈ (check_outstanding_actions p c ts_ns).m_outstanding_actions,
            a.m_num_remaining_actions ≠ 0) ∧
          (∀ x ∈ handles (p.m_outstanding_actions.filter
              (fun a => decide (a.m_num_remaining_actions = 0))),
            x ∉ handles (check_outstanding_actions p c ts_ns).m_outstanding_actions)) := by
  have hp : policy_inv p := run_ops_inv c ops _ p (construct_inv _ _ _ _) h
  refine ⟨?_, ?_, ?_, ?_⟩
  · intro handle
    exact List.nodup_iff_count_le_one.mp hp.2.2.1 handle
  · intro evt event
    exact (perform_actions_loop_frame p c evt event).2.1
  · intro handle slot successful res_successful res_errstr q hq
    exact (action_callback_inv hq hp).2
  · intro ts_ns
    obtain ⟨s1, s2, _⟩ := check_outstanding_actions_spec p c ts_ns hp
    refine ⟨s2, ?_, ?_⟩
    · intro a ha h0
      rw [s1] at ha
      have := (List.mem_filter.mp ha).2
      simp [h0] at this
    · intro x hx
      rw [s1]
      exact handles_filter_disjoint p.m_outstanding_actions hp.2.1 x hx

/-- C4 on an example: an event matches a policy with one capture action and
`check_outstanding_actions` runs twice afterwards; the event has been offered once. -/
theorem accept_policy_event_at_most_once_witness :
    ∃ p : security_policy,
      run_ops willing
          [policy_op.process_event example_evt, policy_op.check_outstanding_actions 200,
            policy_op.check_outstanding_actions 300]
          (security_policy.construct (policy_with [capture_of 1 2]) (fun _ => true) true 1) =
        some p ∧
      accepted_handles p.m_calls = [0] ∧
      (accepted_handles p.m_calls).count 0 ≤ 1 := by
  have hrun : ∃ p : security_policy,
      run_ops willing
          [policy_op.process_event example_evt, policy_op.check_outstanding_actions 200,
            policy_op.check_outstanding_actions 300]
          (security_policy.construct (policy_with [capture_of 1 2]) (fun _ => true) true 1) =
        some p ∧ accepted_handles p.m_calls = [0] := ⟨_, rfl, by decide⟩
  obtain ⟨p, h1, h2⟩ := hrun
  exact ⟨p, h1, h2,
    (accept_policy_event_at_most_once willing (policy_with [capture_of 1 2]) (fun _ => true)
      true 1 _ p h1).1 0⟩

/-- C5: on every policy object reached by a sequence of operations from a newly constructed
one, `check_outstanding_actions` leaves in `m_outstanding_actions` exactly the states whose
number of remaining actions is not zero, unchanged and in their order; no event of such a
state has been offered to `accept_policy_event` afterwards, and every state without remaining
actions is gone. -/
theorem check_outstanding_actions_erases_completed (c : collaborators) (pol : policy)
    (evttypes : Nat → Bool) (falco_engine : Bool) (ruleset_id : Nat) (ops : List policy_op)
    (p : security_policy) (ts_ns : Nat)
    (h : run_ops c ops (security_policy.construct pol evttypes falco_engine ruleset_id) =
      some p) :
    (check_outstanding_actions p c ts_ns).m_outstanding_actions =
        p.m_outstanding_actions.filter (fun a => decide (a.m_num_remaining_actions ≠ 0)) ∧
      (∀ a ∈ p.m_outstanding_actions, a.m_num_remaining_actions ≠ 0 →
        a ∈ (check_outstanding_actions p c ts_ns).m_outstanding_actions ∧
          a.m_handle ∉ accepted_handles (check_outstanding_actions p c ts_ns).m_calls) ∧
      (∀ a ∈ p.m_outstanding_actions, a.m_num_remaining_actions = 0 →
        a ∉ (check_outstanding_actions p c ts_ns).m_outstanding_actions) := by
  have hp : policy_inv p := run_ops_inv c ops _ p (construct_inv _ _ _ _) h
  have hq : policy_inv (check_outstanding_actions p c ts_ns) :=
    check_outstanding_actions_inv p c ts_ns hp
  obtain ⟨s1, _, _⟩ := check_outstanding_actions_spec p c ts_ns hp
  refine ⟨s1, ?_, ?_⟩
  · intro a ha h0
    have hin : a ∈ (check_outstanding_actions p c ts_ns).m_outstanding_actions := by
      rw [s1]
      exact List.mem_filter.mpr ⟨ha, by simpa using h0⟩
    refine ⟨hin, ?_⟩
    intro hacc
    exact hq.2.2.2.2.1 a.m_handle hacc (List.mem_map_of_mem _ hin)
  · intro a ha h0 hin
    rw [s1] at hin
    have := (List.mem_filter.mp hin).2
    simp [h0] at this

/-- C5 on an example: two events match a policy with one pause action and the callback of the
first one runs; `check_outstanding_actions` then removes the first state and keeps the
second, whose event is not offered. -/
theorem check_outstanding_actions_erases_completed_witness :
    ∃ p : security_policy,
      run_ops willing
          [policy_op.process_event example_evt, policy_op.process_event example_evt,
            policy_op.action_callback 0 0 true true ""]
          (security_policy.construct (policy_with [plain_action action_type.ACTION_PAUSE])
            (fun _ => true) true 1) = some p ∧
      p.m_outstanding_actions.map (fun a => (a.m_handle, a.m_num_remaining_actions)) =
        [(0, 0), (1, 1)] ∧
      (check_outstanding_actions p willing 200).m_outstanding_actions =
        p.m_outstanding_actions.filter (fun a => decide (a.m_num_remaining_actions ≠ 0)) ∧
      (check_outstanding_actions p willing 200).m_outstanding_actions.map
          (fun a => (a.m_handle, a.m_num_remaining_actions)) = [(1, 1)] ∧
      accepted_handles (check_outstanding_actions p willing 200).m_calls = [0] := by
  have hrun : ∃ p : security_policy,
      run_ops willing
          [policy_op.process_event example_evt, policy_op.process_event example_evt,
            policy_op.action_callback 0 0 true true ""]
          (security_policy.construct (policy_with [plain_action action_type.ACTION_PAUSE])
            (fun _ => true) true 1) = some p ∧
      p.m_outstanding_actions.map (fun a => (a.m_handle, a.m_num_remaining_actions)) =
        [(0, 0), (1, 1)] ∧
      (check_outstanding_actions p willing 200).m_outstanding_actions.map
          (fun a => (a.m_handle, a.m_num_remaining_actions)) = [(1, 1)] ∧
      accepted_handles (check_outstanding_actions p willing 200).m_calls = [0] :=
    ⟨_, rfl, by decide, by decide, by decide⟩
  obtain ⟨p, h1, h2, h3, h4⟩ := hrun
  exact ⟨p, h1, h2,
    (check_outstanding_actions_erases_completed willing
      (policy_with [plain_action action_type.ACTION_PAUSE]) (fun _ => true) true 1 _ p 200
      h1).1, h3, h4⟩

/-- One action of `perform_actions` adds one result slot, of the type of the action, after the
slots that are there. -/
theorem perform_action_results (c : collaborators) (pol : policy) (evt : sinsp_evt)
    (container_id : String) (pid : Nat) (st : action_loop) (a : action) :
    ∃ r : action_result,
      (perform_action c pol evt container_id pid st a).astate.m_event.action_results =
          st.astate.m_event.action_results ++ [r] ∧
        r.type = a.type := by
  unfold perform_action
  cases ht : a.type with
  | ACTION_CAPTURE =>
    dsimp only
    by_cases hs : (c.start_capture (st.calls ++
        [capture_call pol evt container_id pid a (c.create_random_uuid st.calls)])).1 = false
    · rw [if_pos hs]
      exact ⟨_, rfl, ht⟩
    · rw [if_neg hs]
      exact ⟨_, rfl, ht⟩
  | ACTION_PAUSE => exact ⟨_, rfl, ht⟩
  | ACTION_STOP => exact ⟨_, rfl, ht⟩
  | ACTION_OTHER v => exact ⟨_, rfl, ht⟩

/-- The loop of `perform_actions` adds one result slot for each action, in the order of the
actions and of their types. -/
theorem foldl_perform_action_results (c : collaborators) (pol : policy) (evt : sinsp_evt)
    (container_id : String) (pid : Nat) (l : List action) :
    ∀ st : action_loop,
      (l.foldl (perform_action c pol evt container_id pid) st).astate.m_event.action_results.map
          (fun r => r.type) =
        st.astate.m_event.action_results.map (fun r => r.type) ++ l.map (fun a => a.type) := by
  induction l with
  | nil => intro st; simp
  | cons a rest ih =>
    intro st
    obtain ⟨r, h1, h2⟩ := perform_action_results c pol evt container_id pid st a
    rw [List.foldl_cons, ih, h1, List.map_append, List.map_singleton, h2, List.map_cons,
      List.append_assoc, List.singleton_append]

/-- The stamping of a result slot changes neither its type nor its token. -/
theorem stamp_result_type (successful res_successful : Bool) (res_errstr : String)
    (r : action_result) :
    (stamp_result successful res_successful res_errstr r).type = r.type ∧
      (stamp_result successful res_successful res_errstr r).token = r.token := by
  unfold stamp_result
  by_cases h1 : res_successful = false
  · rw [if_pos h1]
    by_cases h2 : successful = false
    · rw [if_pos h2]; exact ⟨rfl, rfl⟩
    · rw [if_neg h2]; exact ⟨rfl, rfl⟩
  · rw [if_neg h1]
    by_cases h2 : successful = false
    · rw [if_pos h2]; exact ⟨rfl, rfl⟩
    · rw [if_neg h2]; exact ⟨rfl, rfl⟩

/-- A change of one slot that keeps its type and token keeps the number, the order, the types
and the tokens of the slots, and every other slot. -/
theorem modify_slot_spec (f : action_result → action_result)
    (hf : ∀ r, (f r).type = r.type ∧ (f r).token = r.token) (l : List action_result) :
    ∀ slot : Nat,
      (modify_slot f slot l).map (fun r => (r.type, r.token)) =
          l.map (fun r => (r.type, r.token)) ∧
        ∀ i : Nat, i ≠ slot → (modify_slot f slot l).get? i = l.get? i := by
  induction l with
  | nil => intro slot; cases slot <;> exact ⟨rfl, fun i _ => rfl⟩
  | cons r rest ih =>
    intro slot
    cases slot with
    | zero =>
      refine ⟨?_, ?_⟩
      · show ((f r).type, (f r).token) :: _ = _
        rw [(hf r).1, (hf r).2]; rfl
      · intro i hi
        cases i with
        | zero => exact absurd rfl hi
        | succ j => rfl
    | succ n =>
      obtain ⟨h1, h2⟩ := ih n
      refine ⟨?_, ?_⟩
      · show (r.type, r.token) :: (modify_slot f n rest).map _ = _
        rw [h1]; rfl
      · intro i hi
        cases i with
        | zero => rfl
        | succ j =>
          show (modify_slot f n rest).get? j = rest.get? j
          exact h2 j (fun h => hi (congrArg Nat.succ h))

/-- A state is changed by no callback that leaves it alone. -/
theorem stamped_only_refl (handle slot : Nat) (a : actions_state) :
    stamped_only handle slot a a :=
  ⟨rfl, rfl, rfl, rfl, fun _ _ => rfl⟩

/-- The effect of a callback on the state it captured. -/
theorem complete_action_stamped (handle slot : Nat) (successful res_successful : Bool)
    (res_errstr : String) (a : actions_state) (ha : a.m_handle = handle) :
    stamped_only handle slot a
      (complete_action slot successful res_successful res_errstr a) := by
  obtain ⟨h1, h2⟩ := modify_slot_spec (stamp_result successful res_successful res_errstr)
    (stamp_result_type successful res_successful res_errstr) a.m_event.action_results slot
  refine ⟨rfl, rfl, rfl, h1, ?_⟩
  intro i hi
  by_cases hs : i = slot
  · rcases hi with hi | hi
    · exact absurd ha hi
    · exact absurd hs hi
  · exact h2 i hs

/-- A callback changes nothing but the number of remaining actions of its state and the
fields other than the type and the token of its slot. -/
theorem complete_in_stamped (handle slot : Nat) (successful res_successful : Bool)
    (res_errstr : String) (l : List actions_state) :
    ∀ r, complete_in handle slot successful res_successful res_errstr l = some r →
      List.Forall₂ (stamped_only handle slot) l r.1 := by
  induction l with
  | nil => intro r h; exact absurd h (by simp [complete_in])
  | cons a rest ih =>
    intro r h
    unfold complete_in at h
    by_cases ha : a.m_handle = handle
    · rw [if_pos ha] at h
      cases h
      refine List.Forall₂.cons
        (complete_action_stamped handle slot successful res_successful res_errstr a ha) ?_
      exact List.forall₂_same.mpr (fun x _ => stamped_only_refl handle slot x)
    · rw [if_neg ha] at h
      cases hc : complete_in handle slot successful res_successful res_errstr rest with
      | none => rw [hc] at h; exact absurd h (by simp)
      | some r1 =>
        rw [hc] at h
        dsimp only at h
        cases h
        exact List.Forall₂.cons (stamped_only_refl handle slot a) (ih r1 hc)

/-- The handle and the slot that a container command captures: one action of
`perform_actions` hands a callback to `perform_docker_cmd` if and only if it is a pause or a
stop action, and the callback captures the state of the loop and the slot just added. -/
theorem perform_action_docker_slots (c : collaborators) (pol : policy) (evt : sinsp_evt)
    (container_id : String) (pid : Nat) (st : action_loop) (a : action) :
    docker_slots (perform_action c pol evt container_id pid st a).calls =
      docker_slots st.calls ++
        (if is_docker_action a then
          [(st.astate.m_handle, st.astate.m_event.action_results.length)] else []) := by
  have happ : ∀ (l : List port_call) (x : port_call),
      docker_slots (l ++ [x]) = docker_slots l ++ docker_slots [x] := by
    intro l x
    induction l with
    | nil => rfl
    | cons y rest ih =>
      cases y <;> simp [docker_slots, ih]
  unfold perform_action is_docker_action
  cases ht : a.type with
  | ACTION_CAPTURE =>
    dsimp only
    by_cases hs : (c.start_capture (st.calls ++
        [capture_call pol evt container_id pid a (c.create_random_uuid st.calls)])).1 = false
    · rw [if_pos hs]
      show docker_slots (st.calls ++ [_]) = _
      rw [happ]
      simp [capture_call, docker_slots]
    · rw [if_neg hs]
      show docker_slots (st.calls ++ [_]) = _
      rw [happ]
      simp [capture_call, docker_slots]
  | ACTION_PAUSE =>
    show docker_slots (st.calls ++ [_]) = _
    rw [happ]
    simp [docker_slots]
  | ACTION_STOP =>
    show docker_slots (st.calls ++ [_]) = _
    rw [happ]
    simp [docker_slots]
  | ACTION_OTHER v =>
    show docker_slots st.calls = _
    simp

/-- The callbacks handed out by the loop of `perform_actions`: one for each pause or stop
action, in order, capturing the state of the loop and the slot of the action. -/
theorem foldl_perform_action_docker_slots (c : collaborators) (pol : policy) (evt : sinsp_evt)
    (container_id : String) (pid : Nat) (l : List action) :
    ∀ st : action_loop,
      docker_slots (l.foldl (perform_action c pol evt container_id pid) st).calls =
        docker_slots st.calls ++
          ((l.enumFrom st.astate.m_event.action_results.length).filter
            (fun x => is_docker_action x.2)).map (fun x => (st.astate.m_handle, x.1)) := by
  induction l with
  | nil => intro st; simp
  | cons a rest ih =>
    intro st
    obtain ⟨r, h1, _⟩ := perform_action_results c pol evt container_id pid st a
    have h2 := (perform_action_frame c pol evt container_id pid st a).1
    have h3 := perform_action_docker_slots c pol evt container_id pid st a
    rw [List.foldl_cons, ih, h1, h2, h3, List.length_append, List.length_singleton,
      List.enumFrom_cons]
    by_cases hd : is_docker_action a = true
    · rw [if_pos hd, List.filter_cons_of_pos (by exact hd), List.map_cons, List.append_assoc,
        List.singleton_append]
    · rw [if_neg hd, List.filter_cons_of_neg (by exact hd), List.append_nil]

/-- C21: after `perform_actions` on a policy event that has no result yet, the state appended
to `m_outstanding_actions` holds one result slot for each action of the policy, the slot of
index `i` having the type of the action of index `i`, and the callback handed out for a pause
or stop action of index `i` captures this state and the slot of index `i`. A callback, on any
policy object, changes in the states only the number of remaining actions of its state and
the fields `successful` and `errmsg` of its slot: the number and the order of the slots, their
types and their tokens, and every other slot stay as they are. -/
theorem perform_actions_result_slots (p : security_policy) (c : collaborators)
    (evt : sinsp_evt) (event : policy_event) (hfresh : event.action_results = []) :
    (∃ astate : actions_state,
      (perform_actions p c evt event).2.m_outstanding_actions =
          p.m_outstanding_actions ++ [astate] ∧
        astate.m_handle = p.m_next_handle ∧
        astate.m_event.action_results.length = p.m_policy.actions.length ∧
        astate.m_event.action_results.map (fun r => r.type) =
          p.m_policy.actions.map (fun a => a.type) ∧
        docker_slots (perform_actions p c evt event).2.m_calls =
          docker_slots p.m_calls ++
            (p.m_policy.actions.enum.filter (fun x => is_docker_action x.2)).map
              (fun x => (p.m_next_handle, x.1))) ∧
      (∀ (q r : security_policy) (handle slot : Nat) (successful res_successful : Bool)
        (res_errstr : String),
        action_callback q handle slot successful res_successful res_errstr = some r →
          List.Forall₂ (stamped_only handle slot) q.m_outstanding_actions
            r.m_outstanding_actions) := by
  constructor
  · have ht := foldl_perform_action_results c p.m_policy evt
      (match evt.tinfo with
        | some tinfo => tinfo.m_container_id
        | none => "")
      (match evt.tinfo with
        | some tinfo => tinfo.m_pid
        | none => 0) p.m_policy.actions
      { astate := new_actions_state p event, has_outstanding := p.m_has_outstanding_actions,
        calls := p.m_calls }
    have hd := foldl_perform_action_docker_slots c p.m_policy evt
      (match evt.tinfo with
        | some tinfo => tinfo.m_container_id
        | none => "")
      (match evt.tinfo with
        | some tinfo => tinfo.m_pid
        | none => 0) p.m_policy.actions
      { astate := new_actions_state p event, has_outstanding := p.m_has_outstanding_actions,
        calls := p.m_calls }
    have he : (new_actions_state p event).m_event.action_results = [] := hfresh
    have hh : (new_actions_state p event).m_handle = p.m_next_handle := rfl
    dsimp only at ht hd
    rw [he, List.map_nil, List.nil_append] at ht
    rw [he, hh, List.length_nil] at hd
    refine ⟨(perform_actions_loop p c evt event).astate, rfl,
      (perform_actions_loop_frame p c evt event).1, ?_, ht, hd⟩
    have hl := congrArg List.length ht
    rw [List.length_map, List.length_map] at hl
    exact hl
  · intro q r handle slot successful res_successful res_errstr h
    unfold action_callback at h
    cases hc : complete_in handle slot successful res_successful res_errstr
        q.m_outstanding_actions with
    | none => rw [hc] at h; exact absurd h (by simp)
    | some x =>
      rw [hc] at h
      dsimp only at h
      cases h
      exact complete_in_stamped handle slot successful res_successful res_errstr _ x hc

/-- C21 on an example: a policy with a pause and a capture action. After the example event
the state holds a pause slot and a capture slot, and the callback of the pause command has
the slot 0. When this callback reports a failure, the pause slot is stamped as failed and the
capture slot, with its token, is as before. -/
theorem perform_actions_result_slots_witness :
    example_event.action_results = [] ∧
      (∃ astate : actions_state,
        (perform_actions (policy_object [plain_action action_type.ACTION_PAUSE, capture_of 1 2])
            willing example_evt example_event).2.m_outstanding_actions = [] ++ [astate] ∧
          astate.m_event.action_results.map (fun r => r.type) =
            [action_type.ACTION_PAUSE, action_type.ACTION_CAPTURE]) ∧
      docker_slots pause_capture_done.m_calls = [(0, 0)] ∧
      (action_callback pause_capture_done 0 0 true false "no such container").map
          (fun r => r.m_outstanding_actions.map (fun a => a.m_event.action_results)) =
        some [[{ type := action_type.ACTION_PAUSE, successful := false,
                  errmsg := "Could not perform docker command: no such container",
                  token := "" },
                { type := action_type.ACTION_CAPTURE, successful := true, errmsg := "",
                  token := "token-3" }]] := by
  obtain ⟨⟨astate, h1, _, _, h4, _⟩, _⟩ := perform_actions_result_slots
    (policy_object [plain_action action_type.ACTION_PAUSE, capture_of 1 2]) willing example_evt
    example_event rfl
  exact ⟨rfl, ⟨astate, h1, h4⟩, by decide, by decide⟩

/-- The captures started among the calls of a concatenation. -/
theorem started_captures_append (c : collaborators) (l1 : List port_call) :
    ∀ (made l2 : List port_call),
      started_captures c made (l1 ++ l2) =
        started_captures c made l1 + started_captures c (made ++ l1) l2 := by
  induction l1 with
  | nil => intro made l2; simp [started_captures]
  | cons x rest ih =>
    intro made l2
    show _ + started_captures c (made ++ [x]) (rest ++ l2) = (_ + _) + _
    rw [ih, List.append_assoc, List.singleton_append, Nat.add_assoc]

/-- What one action of `perform_actions` does to the flag `m_send_now` and to the number of
remaining actions: a capture action makes one call of `start_capture`, sets the flag when the
call succeeds and decrements the number whatever the answer; another action makes no call of
`start_capture` and leaves both. -/
theorem perform_action_capture (c : collaborators) (pol : policy) (evt : sinsp_evt)
    (container_id : String) (pid : Nat) (st : action_loop) (a : action) :
    ∃ new_calls : List port_call,
      (perform_action c pol evt container_id pid st a).calls = st.calls ++ new_calls ∧
        ((perform_action c pol evt container_id pid st a).astate.m_send_now = true ↔
          st.astate.m_send_now = true ∨ 0 < started_captures c st.calls new_calls) ∧
        (perform_action c pol evt container_id pid st a).astate.m_num_remaining_actions =
          (if is_capture_action a then decrement st.astate.m_num_remaining_actions
            else st.astate.m_num_remaining_actions) ∧
        (is_capture_action a = true →
          new_calls = [capture_call pol evt container_id pid a
            (c.create_random_uuid st.calls)]) := by
  unfold perform_action is_capture_action
  cases ht : a.type with
  | ACTION_CAPTURE =>
    dsimp only
    by_cases hs : (c.start_capture (st.calls ++
        [capture_call pol evt container_id pid a (c.create_random_uuid st.calls)])).1 = false
    · rw [if_pos hs]
      refine ⟨[capture_call pol evt container_id pid a (c.create_random_uuid st.calls)], rfl,
        ?_, rfl, fun _ => rfl⟩
      show st.astate.m_send_now = true ↔ _
      simp [started_captures, hs]
    · rw [if_neg hs]
      refine ⟨[capture_call pol evt container_id pid a (c.create_random_uuid st.calls)], rfl,
        ?_, rfl, fun _ => rfl⟩
      show true = true ↔ _
      have hs2 : (c.start_capture (st.calls ++
          [capture_call pol evt container_id pid a (c.create_random_uuid st.calls)])).1 =
          true := by
        cases hv : (c.start_capture (st.calls ++
          [capture_call pol evt container_id pid a (c.create_random_uuid st.calls)])).1 with
        | true => rfl
        | false => exact absurd hv hs
      have hc : is_start_capture (capture_call pol evt container_id pid a
          (c.create_random_uuid st.calls)) = true := rfl
      refine ⟨fun _ => Or.inr ?_, fun _ => rfl⟩
      show 0 < (if _ then 1 else 0) + 0
      rw [if_pos ⟨hc, hs2⟩]
      exact Nat.one_pos
  | ACTION_PAUSE =>
    refine ⟨[port_call.perform_docker_cmd docker_cmd.PAUSE container_id
        st.astate.m_handle st.astate.m_event.action_results.length], rfl, ?_, rfl,
      fun h => absurd h (by simp)⟩
    show st.astate.m_send_now = true ↔ _
    simp [started_captures, is_start_capture]
  | ACTION_STOP =>
    refine ⟨[port_call.perform_docker_cmd docker_cmd.STOP container_id
        st.astate.m_handle st.astate.m_event.action_results.length], rfl, ?_, rfl,
      fun h => absurd h (by simp)⟩
    show st.astate.m_send_now = true ↔ _
    simp [started_captures, is_start_capture]
  | ACTION_OTHER v =>
    refine ⟨[], (List.append_nil _).symm, ?_, rfl, fun h => absurd h (by simp)⟩
    show st.astate.m_send_now = true ↔ _
    simp [started_captures]

/-- Decrementing a counter `k` times, when it is at least `k`, subtracts `k`. -/
theorem iterate_decrement (k : Nat) : ∀ n : Nat, k ≤ n → decrement^[k] n = n - k := by
  induction k with
  | zero => intro n _; rfl
  | succ k ih =>
    intro n hn
    rw [Function.iterate_succ_apply]
    have h0 : n ≠ 0 := by omega
    have hd : decrement n = n - 1 := by
      unfold decrement
      rw [if_neg h0]
    rw [hd, ih (n - 1) (by omega)]
    omega

/-- What the loop of `perform_actions` does to the flag `m_send_now` and to the number of
remaining actions. -/
theorem foldl_perform_action_capture (c : collaborators) (pol : policy) (evt : sinsp_evt)
    (container_id : String) (pid : Nat) (l : List action) :
    ∀ st : action_loop,
      ∃ new_calls : List port_call,
        (l.foldl (perform_action c pol evt container_id pid) st).calls =
            st.calls ++ new_calls ∧
          (new_calls.filter is_start_capture).length = (l.filter is_capture_action).length ∧
          ((l.foldl (perform_action c pol evt container_id pid) st).astate.m_send_now = true ↔
            st.astate.m_send_now = true ∨ 0 < started_captures c st.calls new_calls) ∧
          (l.foldl (perform_action c pol evt container_id pid)
              st).astate.m_num_remaining_actions =
            decrement^[(l.filter is_capture_action).length]
              st.astate.m_num_remaining_actions := by
  induction l with
  | nil =>
    intro st
    exact ⟨[], (List.append_nil _).symm, rfl, by simp [started_captures], rfl⟩
  | cons a rest ih =>
    intro st
    obtain ⟨n1, a1, a2, a3, a4⟩ := perform_action_capture c pol evt container_id pid st a
    obtain ⟨n2, b1, b2, b3, b4⟩ := ih (perform_action c pol evt container_id pid st a)
    have hn1 : (n1.filter is_start_capture).length =
        (if is_capture_action a then 1 else 0) := by
      by_cases hc : is_capture_action a = true
      · rw [a4 hc, if_pos hc]
        rfl
      · have hc2 : is_capture_action a = false := by
          cases hv : is_capture_action a with
          | true => exact absurd hv hc
          | false => rfl
        rw [if_neg hc]
        have hcalls := a1
        unfold perform_action at hcalls
        unfold is_capture_action at hc2
        cases ht : a.type with
        | ACTION_CAPTURE => rw [ht] at hc2; exact absurd hc2 (by simp)
        | ACTION_PAUSE =>
          rw [ht] at hcalls
          have := List.append_cancel_left hcalls
          rw [← this]
          rfl
        | ACTION_STOP =>
          rw [ht] at hcalls
          have := List.append_cancel_left hcalls
          rw [← this]
          rfl
        | ACTION_OTHER v =>
          rw [ht] at hcalls
          have : st.calls ++ [] = st.calls ++ n1 := (List.append_nil _).trans hcalls
          have := List.append_cancel_left this
          rw [← this]
          rfl
    refine ⟨n1 ++ n2, ?_, ?_, ?_, ?_⟩
    · rw [List.foldl_cons, b1, a1, List.append_assoc]
    · rw [List.filter_append, List.length_append, b2, hn1]
      by_cases hc : is_capture_action a = true
      · rw [if_pos hc, List.filter_cons_of_pos hc, List.length_cons, Nat.add_comm]
      · rw [if_neg hc, List.filter_cons_of_neg hc, Nat.zero_add]
    · rw [List.foldl_cons, b3, a2, a1, started_captures_append]
      constructor
      · rintro ((h | h) | h)
        · exact Or.inl h
        · exact Or.inr (Nat.lt_of_lt_of_le h (Nat.le_add_right _ _))
        · exact Or.inr (Nat.lt_of_lt_of_le h (Nat.le_add_left _ _))
      · rintro (h | h)
        · exact Or.inl (Or.inl h)
        · by_cases h1 : 0 < started_captures c st.calls n1
          · exact Or.inl (Or.inr h1)
          · exact Or.inr (by omega)
    · rw [List.foldl_cons, b4, a3]
      by_cases hc : is_capture_action a = true
      · rw [if_pos hc, List.filter_cons_of_pos hc, List.length_cons,
          Function.iterate_succ_apply]
      · rw [if_neg hc, List.filter_cons_of_neg hc]

/-- C22: `perform_actions` appends a state to `m_outstanding_actions` and makes one call of
`start_capture` for each capture action of the policy. The flag `m_send_now` of the state,
which is false in a new state, is true afterwards if and only if at least one of these calls
was answered with success. Each capture action decrements the number of remaining actions in
the loop itself, whatever the answer of `start_capture`: the number, which starts at the
number of actions, has been decremented once for each capture action when `perform_actions`
returns. -/
theorem perform_actions_send_now (p : security_policy) (c : collaborators) (evt : sinsp_evt)
    (event : policy_event) :
    (∃ (astate : actions_state) (new_calls : List port_call),
      (perform_actions p c evt event).2.m_outstanding_actions =
          p.m_outstanding_actions ++ [astate] ∧
        (perform_actions p c evt event).2.m_calls = p.m_calls ++ new_calls ∧
        (new_calls.filter is_start_capture).length =
          (p.m_policy.actions.filter is_capture_action).length ∧
        (astate.m_send_now = true ↔ 0 < started_captures c p.m_calls new_calls) ∧
        astate.m_num_remaining_actions =
          decrement^[(p.m_policy.actions.filter is_capture_action).length]
            (p.m_policy.actions.length % U32) ∧
        (p.m_policy.actions.length < U32 →
          astate.m_num_remaining_actions =
            p.m_policy.actions.length -
              (p.m_policy.actions.filter is_capture_action).length)) ∧
      (new_actions_state p event).m_send_now = false ∧
      (∀ (pol : policy) (container_id : String) (pid : Nat) (st : action_loop) (a : action),
        a.type = action_type.ACTION_CAPTURE →
          (perform_action c pol evt container_id pid st a).astate.m_num_remaining_actions =
            decrement st.astate.m_num_remaining_actions) := by
  refine ⟨?_, rfl, ?_⟩
  · obtain ⟨n, h1, h2, h3, h4⟩ := foldl_perform_action_capture c p.m_policy evt
      (match evt.tinfo with
        | some tinfo => tinfo.m_container_id
        | none => "")
      (match evt.tinfo with
        | some tinfo => tinfo.m_pid
        | none => 0) p.m_policy.actions
      { astate := new_actions_state p event, has_outstanding := p.m_has_outstanding_actions,
        calls := p.m_calls }
    refine ⟨(perform_actions_loop p c evt event).astate, n, rfl, h1, h2, ?_, h4, ?_⟩
    · constructor
      · intro h
        rcases h3.mp h with h5 | h5
        · exact absurd h5 (by simp [new_actions_state])
        · exact h5
      · intro h
        exact h3.mpr (Or.inr h)
    · intro hlt
      have hk : (p.m_policy.actions.filter is_capture_action).length ≤
          p.m_policy.actions.length := List.length_filter_le _ _
      have h5 : (perform_actions_loop p c evt event).astate.m_num_remaining_actions =
          decrement^[(p.m_policy.actions.filter is_capture_action).length]
            (p.m_policy.actions.length % U32) := h4
      rw [h5, Nat.mod_eq_of_lt hlt]
      exact iterate_decrement _ _ hk
  · intro pol container_id pid st a ha
    obtain ⟨_, _, _, h3, _⟩ := perform_action_capture c pol evt container_id pid st a
    rw [h3]
    have hc : is_capture_action a = true := by
      unfold is_capture_action
      rw [ha]
      rfl
    rw [if_pos hc]

/-- C22 on an example: a policy with two capture actions and a security manager that refuses
the first capture and starts the second. Both calls of `start_capture` are made, the flag
`m_send_now` is set and no action remains. When the manager refuses the only capture of a
policy, the flag stays false and no action remains either. -/
theorem perform_actions_send_now_witness :
    (policy_object [capture_of 1 2, capture_of 3 4]).m_policy.actions.length < U32 ∧
      (∃ astate : actions_state,
        (perform_actions (policy_object [capture_of 1 2, capture_of 3 4]) reluctant example_evt
            example_event).2.m_outstanding_actions = [] ++ [astate] ∧
          astate.m_num_remaining_actions = 2 - 2) ∧
      (perform_actions (policy_object [capture_of 1 2, capture_of 3 4]) reluctant example_evt
          example_event).2.m_outstanding_actions.map
            (fun a => (a.m_send_now, a.m_num_remaining_actions,
              a.m_event.action_results.map (fun r => r.successful))) =
        [(true, 0, [false, true])] ∧
      (perform_actions (policy_object [capture_of 1 2]) reluctant example_evt
          example_event).2.m_outstanding_actions.map
            (fun a => (a.m_send_now, a.m_num_remaining_actions,
              a.m_event.action_results.map (fun r => r.successful))) =
        [(false, 0, [false])] := by
  have hlt : (policy_object [capture_of 1 2, capture_of 3 4]).m_policy.actions.length < U32 := by
    decide
  obtain ⟨⟨astate, _, h1, _, _, _, _, h6⟩, _⟩ := perform_actions_send_now
    (policy_object [capture_of 1 2, capture_of 3 4]) reluctant example_evt example_event
  exact ⟨hlt, ⟨astate, h1, h6 hlt⟩, by decide, by decide⟩

/-- The function `check_conditions` without a rule engine. -/
theorem check_conditions_no_engine (p : security_policy) (c : collaborators) (evt : sinsp_evt)
    (he : p.m_falco_engine = false) :
    check_conditions p c evt = (false, count p evt_reason.EVM_NO_FALCO_ENGINE) := by
  unfold check_conditions
  rw [if_pos he]

/-- The function `check_conditions` on an event that carries `EF_DROP_FALCO`. -/
theorem check_conditions_drop (p : security_policy) (c : collaborators) (evt : sinsp_evt)
    (he : p.m_falco_engine = true) (hd : evt.ef_drop_falco = true) :
    check_conditions p c evt = (false, count p evt_reason.EVM_EF_DROP_FALCO) := by
  unfold check_conditions
  rw [if_neg (by rw [he]; simp), if_pos hd]

/-- The function `check_conditions` when the scope is not looked at or is not set: the event
is allowed and no call is made. -/
theorem check_conditions_allowed (p : security_policy) (c : collaborators) (evt : sinsp_evt)
    (he : p.m_falco_engine = true) (hd : evt.ef_drop_falco = false)
    (hs : p.m_policy.scope_predicates = 0 ∨
      (p.m_policy.container_scope = false ∧ p.m_policy.host_scope = false)) :
    check_conditions p c evt = (true, p) := by
  unfold check_conditions
  rw [if_neg (by rw [he]; simp), if_neg (by rw [hd]; simp)]
  by_cases hp : p.m_policy.scope_predicates > 0
  · rw [if_pos hp]
    rcases hs with hs | hs
    · omega
    · have hm : match_scope p c evt = (true, p) := by
        unfold match_scope
        rw [if_pos hs]
      rw [hm]
      rfl
  · rw [if_neg hp]

/-- The function `check_conditions` when the infrastructure state is asked: its answer
decides. -/
theorem check_conditions_asked (p : security_policy) (c : collaborators) (evt : sinsp_evt)
    (he : p.m_falco_engine = true) (hd : evt.ef_drop_falco = false)
    (hp : p.m_policy.scope_predicates > 0)
    (hs : ¬ (p.m_policy.container_scope = false ∧ p.m_policy.host_scope = false)) :
    check_conditions p c evt =
      (if c.infra_match_scope (p.m_calls ++ [scope_call c evt]) = false then
        (false, count { p with m_calls := p.m_calls ++ [scope_call c evt] }
          evt_reason.EVM_SCOPE_MISS)
      else (true, { p with m_calls := p.m_calls ++ [scope_call c evt] })) := by
  unfold check_conditions
  rw [if_neg (by rw [he]; simp), if_neg (by rw [hd]; simp), if_pos hp]
  have hm : match_scope p c evt =
      (c.infra_match_scope (p.m_calls ++ [scope_call c evt]),
        { p with m_calls := p.m_calls ++ [scope_call c evt] }) := by
    unfold match_scope
    rw [if_neg hs]
  rw [hm]

/-- Incrementing two different counters gives different counts. -/
theorem incr_ne (m : evt_reason → Nat) {r1 r2 : evt_reason} (h : r1 ≠ r2) :
    incr m r1 ≠ incr m r2 := by
  intro he
  have h1 := congrFun he r1
  unfold incr at h1
  rw [if_pos rfl, if_neg h] at h1
  omega

/-- A Boolean that is not false is true. -/
theorem bool_true_of_ne_false {b : Bool} (h : ¬ b = false) : b = true := by
  cases b with
  | true => rfl
  | false => exact absurd rfl h

/-- C23, as the claim states it, fails: the policy has a scope predicate and the host scope,
and the infrastructure state finds the container of the event out of scope, but the event
carries `EF_DROP_FALCO`. `check_conditions` returns false at its second test: it increments
`EVM_EF_DROP_FALCO`, not `EVM_SCOPE_MISS`, and does not ask the infrastructure state. The same
holds for a policy object without rule engine, which increments `EVM_NO_FALCO_ENGINE`. -/
theorem check_conditions_scope_miss_counterexample :
    scoped_object.m_policy.scope_predicates > 0 ∧
      scoped_object.m_policy.host_scope = true ∧
      out_of_scope.infra_match_scope
        (scoped_object.m_calls ++ [scope_call out_of_scope dropped_evt]) = false ∧
      (check_conditions scoped_object out_of_scope dropped_evt).1 = false ∧
      (check_conditions scoped_object out_of_scope dropped_evt).2.m_metrics
        evt_reason.EVM_SCOPE_MISS = 0 ∧
      (check_conditions scoped_object out_of_scope dropped_evt).2.m_metrics
        evt_reason.EVM_EF_DROP_FALCO = 1 ∧
      (check_conditions scoped_object out_of_scope dropped_evt).2.m_calls = [] ∧
      (check_conditions { scoped_object with m_falco_engine := false } out_of_scope
        example_evt).1 = false ∧
      (check_conditions { scoped_object with m_falco_engine := false } out_of_scope
        example_evt).2.m_metrics evt_reason.EVM_SCOPE_MISS = 0 ∧
      (check_conditions { scoped_object with m_falco_engine := false } out_of_scope
        example_evt).2.m_metrics evt_reason.EVM_NO_FALCO_ENGINE = 1 := by
  decide

/-- C23, amended: for a policy object with a rule engine and an event that does not carry
`EF_DROP_FALCO`, `check_conditions` rejects the event for its scope, that is, returns false
and increments `EVM_SCOPE_MISS` by one and no other counter, if and only if the policy has at
least one scope predicate, the host scope or the container scope is set, and the
infrastructure state answers false for the container of the event and the machine. Without a
rule engine, or for an event that carries `EF_DROP_FALCO`, `check_conditions` returns false
before it looks at the scope: `EVM_SCOPE_MISS` keeps its value and the infrastructure state is
not asked. The infrastructure state is asked exactly when the policy has a rule engine, the
event does not carry the flag, the policy has a scope predicate and one of the two scopes is
set. When `check_conditions` returns false, `match_event` returns `NULL` at once, without
asking the rule engine. A policy with neither scope is never rejected for its scope: the
counter keeps its value, the infrastructure state is not asked, and the event is allowed
whenever the first two tests let it through. -/
theorem check_conditions_scope_miss (p : security_policy) (c : collaborators)
    (evt : sinsp_evt) :
    (p.m_falco_engine = true → evt.ef_drop_falco = false →
        (((check_conditions p c evt).1 = false ∧
            (check_conditions p c evt).2.m_metrics =
              incr p.m_metrics evt_reason.EVM_SCOPE_MISS) ↔
          (p.m_policy.scope_predicates > 0 ∧
            (p.m_policy.host_scope = true ∨ p.m_policy.container_scope = true) ∧
            c.infra_match_scope (p.m_calls ++ [scope_call c evt]) = false))) ∧
      (p.m_falco_engine = false ∨ evt.ef_drop_falco = true →
        (check_conditions p c evt).1 = false ∧
          (check_conditions p c evt).2.m_metrics evt_reason.EVM_SCOPE_MISS =
            p.m_metrics evt_reason.EVM_SCOPE_MISS ∧
          (check_conditions p c evt).2.m_calls = p.m_calls) ∧
      ((check_conditions p c evt).2.m_calls = p.m_calls ++ [scope_call c evt] ↔
        (p.m_falco_engine = true ∧ evt.ef_drop_falco = false ∧
          p.m_policy.scope_predicates > 0 ∧
          (p.m_policy.host_scope = true ∨ p.m_policy.container_scope = true))) ∧
      ((check_conditions p c evt).1 = false →
        match_event p c evt = (none, (check_conditions p c evt).2)) ∧
      (p.m_policy.host_scope = false → p.m_policy.container_scope = false →
        (check_conditions p c evt).2.m_metrics evt_reason.EVM_SCOPE_MISS =
            p.m_metrics evt_reason.EVM_SCOPE_MISS ∧
          (check_conditions p c evt).2.m_calls = p.m_calls ∧
          (p.m_falco_engine = true → evt.ef_drop_falco = false →
            check_conditions p c evt = (true, p))) := by
  have hne : ∀ x : port_call, ¬ p.m_calls = p.m_calls ++ [x] := by
    intro x h
    have := congrArg List.length h
    rw [List.length_append, List.length_singleton] at this
    omega
  have hmatch : (check_conditions p c evt).1 = false →
      match_event p c evt = (none, (check_conditions p c evt).2) := by
    intro h
    unfold match_event
    rw [if_pos h]
  have hrej : ((check_conditions p c evt).1 = false ∧
        (check_conditions p c evt).2.m_metrics =
          incr p.m_metrics evt_reason.EVM_SCOPE_MISS) ↔
      (p.m_policy.scope_predicates > 0 ∧
        (p.m_policy.host_scope = true ∨ p.m_policy.container_scope = true) ∧
        (check_conditions p c evt).2.m_calls = p.m_calls ++ [scope_call c evt] ∧
        c.infra_match_scope (p.m_calls ++ [scope_call c evt]) = false) := by
    by_cases he : p.m_falco_engine = false
    · rw [check_conditions_no_engine p c evt he]
      constructor
      · intro h
        exact absurd h.2 (incr_ne p.m_metrics (by decide))
      · intro h
        exact absurd h.2.2.1 (hne _)
    · have he2 := bool_true_of_ne_false he
      by_cases hd : evt.ef_drop_falco = true
      · rw [check_conditions_drop p c evt he2 hd]
        constructor
        · intro h
          exact absurd h.2 (incr_ne p.m_metrics (by decide))
        · intro h
          exact absurd h.2.2.1 (hne _)
      · have hd2 : evt.ef_drop_falco = false := by
          cases hv : evt.ef_drop_falco with
          | true => exact absurd hv hd
          | false => rfl
        by_cases hs : p.m_policy.scope_predicates = 0 ∨
            (p.m_policy.container_scope = false ∧ p.m_policy.host_scope = false)
        · rw [check_conditions_allowed p c evt he2 hd2 hs]
          constructor
          · intro h
            exact absurd h.1 (by simp)
          · intro h
            exact absurd h.2.2.1 (hne _)
        · have hp : p.m_policy.scope_predicates > 0 := by
            rcases Nat.eq_zero_or_pos p.m_policy.scope_predicates with h0 | h0
            · exact absurd (Or.inl h0) hs
            · exact h0
          have hs2 : ¬ (p.m_policy.container_scope = false ∧ p.m_policy.host_scope = false) :=
            fun h => hs (Or.inr h)
          have hor : p.m_policy.host_scope = true ∨ p.m_policy.container_scope = true := by
            cases hh : p.m_policy.host_scope with
            | true => exact Or.inl rfl
            | false =>
              cases hc : p.m_policy.container_scope with
              | true => exact Or.inr rfl
              | false => exact absurd ⟨hc, hh⟩ hs2
          rw [check_conditions_asked p c evt he2 hd2 hp hs2]
          by_cases ha : c.infra_match_scope (p.m_calls ++ [scope_call c evt]) = false
          · rw [if_pos ha]
            exact ⟨fun _ => ⟨hp, hor, rfl, ha⟩, fun _ => ⟨rfl, rfl⟩⟩
          · rw [if_neg ha]
            constructor
            · intro h
              exact absurd h.1 (by simp)
            · intro h
              exact absurd h.2.2.2 ha
  have hask : (check_conditions p c evt).2.m_calls = p.m_calls ++ [scope_call c evt] ↔
      (p.m_falco_engine = true ∧ evt.ef_drop_falco = false ∧
        p.m_policy.scope_predicates > 0 ∧
        (p.m_policy.host_scope = true ∨ p.m_policy.container_scope = true)) := by
    by_cases he : p.m_falco_engine = false
    · rw [check_conditions_no_engine p c evt he]
      constructor
      · intro h
        exact absurd h (hne _)
      · intro h
        rw [he] at h
        exact absurd h.1 (by simp)
    · have he2 := bool_true_of_ne_false he
      by_cases hd : evt.ef_drop_falco = true
      · rw [check_conditions_drop p c evt he2 hd]
        constructor
        · intro h
          exact absurd h (hne _)
        · intro h
          rw [hd] at h
          exact absurd h.2.1 (by simp)
      · have hd2 : evt.ef_drop_falco = false := by
          cases hv : evt.ef_drop_falco with
          | true => exact absurd hv hd
          | false => rfl
        by_cases hs : p.m_policy.scope_predicates = 0 ∨
            (p.m_policy.container_scope = false ∧ p.m_policy.host_scope = false)
        · rw [check_conditions_allowed p c evt he2 hd2 hs]
          constructor
          · intro h
            exact absurd h (hne _)
          · intro h
            rcases hs with hs | hs
            · omega
            · rcases h.2.2.2 with h1 | h1
              · rw [hs.2] at h1; exact absurd h1 (by simp)
              · rw [hs.1] at h1; exact absurd h1 (by simp)
        · have hp : p.m_policy.scope_predicates > 0 := by
            rcases Nat.eq_zero_or_pos p.m_policy.scope_predicates with h0 | h0
            · exact absurd (Or.inl h0) hs
            · exact h0
          have hs2 : ¬ (p.m_policy.container_scope = false ∧ p.m_policy.host_scope = false) :=
            fun h => hs (Or.inr h)
          have hor : p.m_policy.host_scope = true ∨ p.m_policy.container_scope = true := by
            cases hh : p.m_policy.host_scope with
            | true => exact Or.inl rfl
            | false =>
              cases hc : p.m_policy.container_scope with
              | true => exact Or.inr rfl
              | false => exact absurd ⟨hc, hh⟩ hs2
          rw [check_conditions_asked p c evt he2 hd2 hp hs2]
          by_cases ha : c.infra_match_scope (p.m_calls ++ [scope_call c evt]) = false
          · rw [if_pos ha]
            exact ⟨fun _ => ⟨he2, hd2, hp, hor⟩, fun _ => rfl⟩
          · rw [if_neg ha]
            exact ⟨fun _ => ⟨he2, hd2, hp, hor⟩, fun _ => rfl⟩
  refine ⟨?_, ?_, hask, hmatch, ?_⟩
  · intro he hd
    constructor
    · intro h
      obtain ⟨k1, k2, _, k4⟩ := hrej.mp h
      exact ⟨k1, k2, k4⟩
    · intro h
      exact hrej.mpr ⟨h.1, h.2.1, hask.mpr ⟨he, hd, h.1, h.2.1⟩, h.2.2⟩
  · intro h
    by_cases he : p.m_falco_engine = false
    · rw [check_conditions_no_engine p c evt he]
      refine ⟨rfl, ?_, rfl⟩
      show incr p.m_metrics evt_reason.EVM_NO_FALCO_ENGINE evt_reason.EVM_SCOPE_MISS = _
      unfold incr
      rw [if_neg (by decide)]
    · have he2 := bool_true_of_ne_false he
      have hd : evt.ef_drop_falco = true := by
        rcases h with h | h
        · exact absurd h he
        · exact h
      rw [check_conditions_drop p c evt he2 hd]
      refine ⟨rfl, ?_, rfl⟩
      show incr p.m_metrics evt_reason.EVM_EF_DROP_FALCO evt_reason.EVM_SCOPE_MISS = _
      unfold incr
      rw [if_neg (by decide)]
  · intro hh hc
    by_cases he : p.m_falco_engine = false
    · rw [check_conditions_no_engine p c evt he]
      refine ⟨?_, rfl, ?_⟩
      · show incr p.m_metrics evt_reason.EVM_NO_FALCO_ENGINE evt_reason.EVM_SCOPE_MISS = _
        unfold incr
        rw [if_neg (by decide)]
      · intro h
        rw [he] at h
        exact absurd h (by simp)
    · have he2 := bool_true_of_ne_false he
      by_cases hd : evt.ef_drop_falco = true
      · rw [check_conditions_drop p c evt he2 hd]
        refine ⟨?_, rfl, ?_⟩
        · show incr p.m_metrics evt_reason.EVM_EF_DROP_FALCO evt_reason.EVM_SCOPE_MISS = _
          unfold incr
          rw [if_neg (by decide)]
        · intro _ h
          rw [hd] at h
          exact absurd h (by simp)
      · have hd2 : evt.ef_drop_falco = false := by
          cases hv : evt.ef_drop_falco with
          | true => exact absurd hv hd
          | false => rfl
        rw [check_conditions_allowed p c evt he2 hd2 (Or.inr ⟨hc, hh⟩)]
        exact ⟨rfl, rfl, fun _ _ => rfl⟩

/-- C23, amended, on examples. A policy with a rule engine, a scope predicate and the host
scope, on an event without `EF_DROP_FALCO` that the infrastructure state finds out of scope:
the event is rejected, `EVM_SCOPE_MISS` is one, the infrastructure state has been asked and
the rule engine has not. The same event with the flag is rejected without a change of
`EVM_SCOPE_MISS`. The policy without either scope: the event is allowed and matches. -/
theorem check_conditions_scope_miss_witness :
    (scoped_object.m_falco_engine = true ∧ example_evt.ef_drop_falco = false) ∧
      ((check_conditions scoped_object out_of_scope example_evt).1 = false ∧
        (check_conditions scoped_object out_of_scope example_evt).2.m_metrics =
          incr scoped_object.m_metrics evt_reason.EVM_SCOPE_MISS) ∧
      (match_event scoped_object out_of_scope example_evt).1 = none ∧
      (match_event scoped_object out_of_scope example_evt).2.m_calls =
        [port_call.infra_match_scope "c1" "machine"] ∧
      (match_event scoped_object out_of_scope example_evt).2.m_metrics
        evt_reason.EVM_SCOPE_MISS = 1 ∧
      (dropped_evt.ef_drop_falco = true ∧
        (check_conditions scoped_object out_of_scope dropped_evt).2.m_metrics
          evt_reason.EVM_SCOPE_MISS = scoped_object.m_metrics evt_reason.EVM_SCOPE_MISS) ∧
      check_conditions unscoped_object out_of_scope example_evt = (true, unscoped_object) ∧
      (process_event unscoped_object out_of_scope example_evt).1 = true := by
  obtain ⟨h1, _, _, h4, _⟩ := check_conditions_scope_miss scoped_object out_of_scope example_evt
  have hr := (h1 rfl rfl).mpr ⟨by decide, Or.inl rfl, rfl⟩
  have hm := h4 hr.1
  obtain ⟨_, d2, _, _, _⟩ := check_conditions_scope_miss scoped_object out_of_scope dropped_evt
  obtain ⟨_, _, _, _, k5⟩ := check_conditions_scope_miss unscoped_object out_of_scope example_evt
  refine ⟨⟨rfl, rfl⟩, hr, ?_, ?_, ?_, ⟨rfl, (d2 (Or.inr rfl)).2.1⟩, (k5 rfl rfl).2.2 rfl rfl,
    by decide⟩
  · rw [hm]
  · rw [hm]; rfl
  · rw [hm]; rfl

/-- The function `check_conditions` changes neither the outstanding states nor their flag nor
the next handle, and no counter when it returns true. -/
theorem check_conditions_frame (p : security_policy) (c : collaborators) (evt : sinsp_evt) :
    (check_conditions p c evt).2.m_outstanding_actions = p.m_outstanding_actions ∧
      (check_conditions p c evt).2.m_has_outstanding_actions = p.m_has_outstanding_actions ∧
      (check_conditions p c evt).2.m_next_handle = p.m_next_handle ∧
      (check_conditions p c evt).2.m_policy = p.m_policy ∧
      ((check_conditions p c evt).1 = true →
        (check_conditions p c evt).2.m_metrics = p.m_metrics) := by
  by_cases he : p.m_falco_engine = false
  · rw [check_conditions_no_engine p c evt he]
    exact ⟨rfl, rfl, rfl, rfl, fun h => absurd h (by simp)⟩
  · have he2 := bool_true_of_ne_false he
    by_cases hd : evt.ef_drop_falco = true
    · rw [check_conditions_drop p c evt he2 hd]
      exact ⟨rfl, rfl, rfl, rfl, fun h => absurd h (by simp)⟩
    · have hd2 : evt.ef_drop_falco = false := by
        cases hv : evt.ef_drop_falco with
        | true => exact absurd hv hd
        | false => rfl
      by_cases hs : p.m_policy.scope_predicates = 0 ∨
          (p.m_policy.container_scope = false ∧ p.m_policy.host_scope = false)
      · rw [check_conditions_allowed p c evt he2 hd2 hs]
        exact ⟨rfl, rfl, rfl, rfl, fun _ => rfl⟩
      · have hp : p.m_policy.scope_predicates > 0 := by
          rcases Nat.eq_zero_or_pos p.m_policy.scope_predicates with h0 | h0
          · exact absurd (Or.inl h0) hs
          · exact h0
        rw [check_conditions_asked p c evt he2 hd2 hp (fun h => hs (Or.inr h))]
        by_cases ha : c.infra_match_scope (p.m_calls ++ [scope_call c evt]) = false
        · rw [if_pos ha]
          exact ⟨rfl, rfl, rfl, rfl, fun h => absurd h (by simp)⟩
        · rw [if_neg ha]
          exact ⟨rfl, rfl, rfl, rfl, fun _ => rfl⟩

/-- The function `check_outstanding_actions` adds no state, and changes neither the counters
nor the policy nor the next handle. -/
theorem check_outstanding_actions_frame (p : security_policy) (c : collaborators)
    (ts_ns : Nat) :
    (check_outstanding_actions p c ts_ns).m_outstanding_actions.Sublist
        p.m_outstanding_actions ∧
      (check_outstanding_actions p c ts_ns).m_metrics = p.m_metrics ∧
      (check_outstanding_actions p c ts_ns).m_policy = p.m_policy ∧
      (check_outstanding_actions p c ts_ns).m_next_handle = p.m_next_handle := by
  unfold check_outstanding_actions
  by_cases hf : p.m_has_outstanding_actions = false
  · rw [if_pos hf]
    exact ⟨List.Sublist.refl _, rfl, rfl, rfl⟩
  · rw [if_neg hf]
    refine ⟨?_, rfl, rfl, rfl⟩
    show (erase_remove_if c ts_ns p.m_outstanding_actions p.m_calls).1.Sublist _
    rw [(erase_remove_if_spec c ts_ns p.m_outstanding_actions p.m_calls).1]
    exact List.filter_sublist _

/-- C24, as the claim states it, fails: the rule engine throws, while it processes the example
event, an exception that is not a `falco_exception`. The catch clause of `match_event` does
not apply: the exception leaves `match_event` and `process_event`, and `EVM_FALCO_MISS` is not
incremented. -/
theorem match_event_engine_throws_counterexample :
    (check_conditions (policy_object [capture_of 1 2]) throwing_other example_evt).1 = true ∧
      throwing_other.falco_process_event
          ((before_engine (policy_object [capture_of 1 2]) throwing_other example_evt).m_calls ++
            [engine_call (before_engine (policy_object [capture_of 1 2]) throwing_other
              example_evt) example_evt]) =
        falco_answer.throws_other "'contains' not supported for numeric filters" ∧
      match_event_throws (policy_object [capture_of 1 2]) throwing_other example_evt =
        some "'contains' not supported for numeric filters" ∧
      process_event_throws (policy_object [capture_of 1 2]) throwing_other example_evt =
        some "'contains' not supported for numeric filters" ∧
      (match_event (policy_object [capture_of 1 2]) throwing_other example_evt).2.m_metrics
        evt_reason.EVM_FALCO_MISS = 0 := by
  decide

/-- C24, amended: the conditions of `match_event` hold and the rule engine is asked for the
event. When it throws a `falco_exception`, `match_event` returns `NULL` and increments
`EVM_FALCO_MISS` by one and no other counter, so `EVM_MATCHED` keeps its value; the states
are those that `check_outstanding_actions` has left, none is added and the next handle is the
same; no exception leaves `match_event` or `process_event`, and `process_event` returns false
with the policy object that `match_event` leaves, so no action is performed. When the rule
engine throws an exception of another type, the exception leaves `match_event`, and
`process_event` too when it has called `match_event`; no counter is incremented and no state
is added. -/
theorem match_event_engine_throws (p : security_policy) (c : collaborators) (evt : sinsp_evt)
    (what : String) (hc : (check_conditions p c evt).1 = true) :
    (c.falco_process_event
        ((before_engine p c evt).m_calls ++ [engine_call (before_engine p c evt) evt]) =
          falco_answer.throws what →
      (match_event p c evt).1 = none ∧
        (match_event p c evt).2.m_metrics = incr p.m_metrics evt_reason.EVM_FALCO_MISS ∧
        (match_event p c evt).2.m_metrics evt_reason.EVM_FALCO_MISS =
          p.m_metrics evt_reason.EVM_FALCO_MISS + 1 ∧
        (match_event p c evt).2.m_metrics evt_reason.EVM_MATCHED =
          p.m_metrics evt_reason.EVM_MATCHED ∧
        (match_event p c evt).2.m_outstanding_actions =
          (before_engine p c evt).m_outstanding_actions ∧
        (match_event p c evt).2.m_outstanding_actions.Sublist p.m_outstanding_actions ∧
        (match_event p c evt).2.m_next_handle = p.m_next_handle ∧
        (match_event p c evt).2.m_calls =
          (before_engine p c evt).m_calls ++ [engine_call (before_engine p c evt) evt] ∧
        (p.m_policy.enabled = true → p.m_evttypes evt.type = true →
          process_event p c evt = (false, (match_event p c evt).2)) ∧
        match_event_throws p c evt = none ∧
        process_event_throws p c evt = none) ∧
      (c.falco_process_event
          ((before_engine p c evt).m_calls ++ [engine_call (before_engine p c evt) evt]) =
            falco_answer.throws_other what →
        match_event_throws p c evt = some what ∧
          (p.m_policy.enabled = true → p.m_evttypes evt.type = true →
            process_event_throws p c evt = some what) ∧
          (match_event p c evt).2.m_metrics = p.m_metrics ∧
          (match_event p c evt).2.m_outstanding_actions =
            (before_engine p c evt).m_outstanding_actions ∧
          (match_event p c evt).2.m_outstanding_actions.Sublist p.m_outstanding_actions ∧
          (match_event p c evt).2.m_next_handle = p.m_next_handle) := by
  obtain ⟨f1, _, f3, _, f5⟩ := check_conditions_frame p c evt
  obtain ⟨g1, g2, _, g4⟩ := check_outstanding_actions_frame (check_conditions p c evt).2 c evt.ts
  have hmet : (before_engine p c evt).m_metrics = p.m_metrics := g2.trans (f5 hc)
  constructor
  · intro ht
    have hm : match_event p c evt =
        (none,
          { before_engine p c evt with
            m_calls := (before_engine p c evt).m_calls ++
              [engine_call (before_engine p c evt) evt],
            m_metrics := incr (before_engine p c evt).m_metrics evt_reason.EVM_FALCO_MISS }) := by
      unfold match_event
      rw [if_neg (by rw [hc]; simp)]
      show ask_engine (before_engine p c evt) c evt = _
      unfold ask_engine
      rw [ht]
    have hmet2 : (match_event p c evt).2.m_metrics =
        incr p.m_metrics evt_reason.EVM_FALCO_MISS := by
      rw [hm]
      show incr (before_engine p c evt).m_metrics evt_reason.EVM_FALCO_MISS = _
      rw [hmet]
    refine ⟨?_, hmet2, ?_, ?_, ?_, ?_, ?_, ?_, ?_, ?_, ?_⟩
    · rw [hm]
    · rw [hmet2]
      unfold incr
      rw [if_pos rfl]
    · rw [hmet2]
      unfold incr
      rw [if_neg (by decide)]
    · rw [hm]
    · rw [hm]
      show (before_engine p c evt).m_outstanding_actions.Sublist _
      rw [← f1]
      exact g1
    · rw [hm]
      exact g4.trans f3
    · rw [hm]
    · intro he hty
      have h1 : (match_event p c evt).1 = none := by rw [hm]
      unfold process_event
      rw [if_neg (by rw [he]; simp), if_pos hty, h1]
    · unfold match_event_throws ask_engine_throws
      rw [if_neg (by rw [hc]; simp)]
      show (match c.falco_process_event ((before_engine p c evt).m_calls ++
          [engine_call (before_engine p c evt) evt]) with
        | falco_answer.throws_other what => some what
        | _ => none) = none
      rw [ht]
    · unfold process_event_throws match_event_throws ask_engine_throws
      by_cases he : p.m_policy.enabled = false
      · rw [if_pos he]
      · rw [if_neg he]
        by_cases hty : p.m_evttypes evt.type = true
        · rw [if_pos hty, if_neg (by rw [hc]; simp)]
          show (match c.falco_process_event ((before_engine p c evt).m_calls ++
              [engine_call (before_engine p c evt) evt]) with
            | falco_answer.throws_other what => some what
            | _ => none) = none
          rw [ht]
        · rw [if_neg hty]
  · intro ht
    have hm : match_event p c evt =
        (none,
          { before_engine p c evt with
            m_calls := (before_engine p c evt).m_calls ++
              [engine_call (before_engine p c evt) evt] }) := by
      unfold match_event
      rw [if_neg (by rw [hc]; simp)]
      show ask_engine (before_engine p c evt) c evt = _
      unfold ask_engine
      rw [ht]
    have ht2 : match_event_throws p c evt = some what := by
      unfold match_event_throws ask_engine_throws
      rw [if_neg (by rw [hc]; simp)]
      show (match c.falco_process_event ((before_engine p c evt).m_calls ++
          [engine_call (before_engine p c evt) evt]) with
        | falco_answer.throws_other what => some what
        | _ => none) = some what
      rw [ht]
    refine ⟨ht2, ?_, ?_, ?_, ?_, ?_⟩
    · intro he hty
      unfold process_event_throws
      rw [if_neg (by rw [he]; simp), if_pos hty]
      exact ht2
    · rw [hm]
      exact hmet
    · rw [hm]
    · rw [hm]
      show (before_engine p c evt).m_outstanding_actions.Sublist _
      rw [← f1]
      exact g1
    · rw [hm]
      exact g4.trans f3

/-- C24, amended, on examples: the rule engine throws on the example event. With a
`falco_exception`, `process_event` returns false, no exception leaves it, `EVM_FALCO_MISS` is
one, `EVM_MATCHED` is zero, no state has been created and the only call made is the question
to the rule engine. With an exception of another type, the exception leaves `process_event`
and `EVM_FALCO_MISS` is zero. -/
theorem match_event_engine_throws_witness :
    (check_conditions (policy_object [capture_of 1 2]) throwing example_evt).1 = true ∧
      (process_event (policy_object [capture_of 1 2]) throwing example_evt).1 = false ∧
      process_event_throws (policy_object [capture_of 1 2]) throwing example_evt = none ∧
      (process_event (policy_object [capture_of 1 2]) throwing example_evt).2.m_metrics
        evt_reason.EVM_FALCO_MISS = 1 ∧
      (process_event (policy_object [capture_of 1 2]) throwing example_evt).2.m_metrics
        evt_reason.EVM_MATCHED = 0 ∧
      (process_event (policy_object [capture_of 1 2]) throwing example_evt).2.m_outstanding_actions
        = [] ∧
      (process_event (policy_object [capture_of 1 2]) throwing example_evt).2.m_calls =
        [port_call.falco_process_event example_evt 1] ∧
      (check_conditions (policy_object [capture_of 1 2]) throwing_other example_evt).1 = true ∧
      process_event_throws (policy_object [capture_of 1 2]) throwing_other example_evt =
        some "'contains' not supported for numeric filters" ∧
      (match_event (policy_object [capture_of 1 2]) throwing_other example_evt).2.m_metrics
        evt_reason.EVM_FALCO_MISS = 0 := by
  obtain ⟨_, _, h3, h4, _, _, _, h8, h9, _, h11⟩ := (match_event_engine_throws
    (policy_object [capture_of 1 2]) throwing example_evt "bad rule" rfl).1 rfl
  obtain ⟨_, k2, k3, _⟩ := (match_event_engine_throws
    (policy_object [capture_of 1 2]) throwing_other example_evt
    "'contains' not supported for numeric filters" rfl).2 rfl
  have hp := h9 rfl rfl
  refine ⟨rfl, ?_, h11, ?_, ?_, ?_, ?_, rfl, k2 rfl rfl, ?_⟩
  · rw [hp]
  · rw [hp]; exact h3
  · rw [hp]; exact h4
  · rw [hp]; rfl
  · rw [hp]; exact h8
  · rw [k3]; rfl

/-- C26, as the claim states it, fails: the state of the first event is complete when the
policy sees its next event. When the type of that event is not in the mask of the policy, or
the event carries `EF_DROP_FALCO`, `process_event` returns false without running
`check_outstanding_actions`: the state is still outstanding and its event has not been offered
to `accept_policy_event`. An event of type 3 without the flag does have it offered. -/
theorem process_event_skips_check_counterexample :
    pause_complete.m_outstanding_actions.map
        (fun a => (a.m_handle, a.m_num_remaining_actions)) = [(0, 0)] ∧
      pause_complete.m_has_outstanding_actions = true ∧
      (process_event pause_complete willing other_evt).1 = false ∧
      (process_event pause_complete willing other_evt).2.m_outstanding_actions =
        pause_complete.m_outstanding_actions ∧
      accepted_handles (process_event pause_complete willing other_evt).2.m_calls = [] ∧
      (process_event pause_complete willing dropped_evt).1 = false ∧
      (process_event pause_complete willing dropped_evt).2.m_outstanding_actions =
        pause_complete.m_outstanding_actions ∧
      accepted_handles (process_event pause_complete willing dropped_evt).2.m_calls = [] ∧
      accepted_handles (process_event pause_complete willing next_evt).2.m_calls = [0] := by
  decide

/-- The function `check_conditions` offers no event to `accept_policy_event`. -/
theorem check_conditions_accepted (p : security_policy) (c : collaborators) (evt : sinsp_evt) :
    accepted_handles (check_conditions p c evt).2.m_calls = accepted_handles p.m_calls := by
  have hs : accepted_handles (p.m_calls ++ [scope_call c evt]) = accepted_handles p.m_calls := by
    rw [accepted_handles_append]
    simp [scope_call, accepted_handles]
  by_cases he : p.m_falco_engine = false
  · rw [check_conditions_no_engine p c evt he]
    rfl
  · have he2 := bool_true_of_ne_false he
    by_cases hd : evt.ef_drop_falco = true
    · rw [check_conditions_drop p c evt he2 hd]
      rfl
    · have hd2 : evt.ef_drop_falco = false := by
        cases hv : evt.ef_drop_falco with
        | true => exact absurd hv hd
        | false => rfl
      by_cases hsc : p.m_policy.scope_predicates = 0 ∨
          (p.m_policy.container_scope = false ∧ p.m_policy.host_scope = false)
      · rw [check_conditions_allowed p c evt he2 hd2 hsc]
      · have hp : p.m_policy.scope_predicates > 0 := by
          rcases Nat.eq_zero_or_pos p.m_policy.scope_predicates with h0 | h0
          · exact absurd (Or.inl h0) hsc
          · exact h0
        rw [check_conditions_asked p c evt he2 hd2 hp (fun h => hsc (Or.inr h))]
        by_cases ha : c.infra_match_scope (p.m_calls ++ [scope_call c evt]) = false
        · rw [if_pos ha]; exact hs
        · rw [if_neg ha]; exact hs

/-- The question to the rule engine is one call, made after the calls made so far, and
changes no state. -/
theorem ask_engine_frame (p : security_policy) (c : collaborators) (evt : sinsp_evt) :
    (ask_engine p c evt).2.m_calls = p.m_calls ++ [engine_call p evt] ∧
      (ask_engine p c evt).2.m_outstanding_actions = p.m_outstanding_actions ∧
      (ask_engine p c evt).2.m_policy = p.m_policy := by
  unfold ask_engine
  cases c.falco_process_event (p.m_calls ++ [engine_call p evt]) with
  | no_result => exact ⟨rfl, rfl, rfl⟩
  | rule_result rule format => exact ⟨rfl, rfl, rfl⟩
  | throws what => exact ⟨rfl, rfl, rfl⟩
  | throws_other what => exact ⟨rfl, rfl, rfl⟩

/-- C26, amended: on a policy object reached by a sequence of operations from a newly
constructed one, a call of `process_event` runs `check_outstanding_actions` before the rule
engine is asked when the policy is enabled, the type of the event is in the event-type mask
and `check_conditions` accepts the event: the calls made begin with those of
`check_outstanding_actions`, followed by the question to the rule engine, and every state
that was complete has had its event offered to `accept_policy_event` when the call returns.
In every other case `process_event` returns false without running
`check_outstanding_actions`: the outstanding states are unchanged and no event is offered. -/
theorem process_event_checks_outstanding (c : collaborators) (pol : policy)
    (evttypes : Nat → Bool) (falco_engine : Bool) (ruleset_id : Nat) (ops : List policy_op)
    (p : security_policy) (evt : sinsp_evt)
    (h : run_ops c ops (security_policy.construct pol evttypes falco_engine ruleset_id) =
      some p) :
    (p.m_policy.enabled = true ∧ p.m_evttypes evt.type = true ∧
        (check_conditions p c evt).1 = true →
      (∃ rest : List port_call,
        (process_event p c evt).2.m_calls =
          (before_engine p c evt).m_calls ++ engine_call (before_engine p c evt) evt :: rest) ∧
        accepted_handles (before_engine p c evt).m_calls =
          accepted_handles p.m_calls ++
            handles (p.m_outstanding_actions.filter
              (fun a => decide (a.m_num_remaining_actions = 0))) ∧
        accepted_handles (process_event p c evt).2.m_calls =
          accepted_handles p.m_calls ++
            handles (p.m_outstanding_actions.filter
              (fun a => decide (a.m_num_remaining_actions = 0))) ∧
        (∀ a ∈ p.m_outstanding_actions, a.m_num_remaining_actions = 0 →
          a.m_handle ∈ accepted_handles (process_event p c evt).2.m_calls)) ∧
      (¬ (p.m_policy.enabled = true ∧ p.m_evttypes evt.type = true ∧
          (check_conditions p c evt).1 = true) →
        (process_event p c evt).1 = false ∧
          (process_event p c evt).2.m_outstanding_actions = p.m_outstanding_actions ∧
          accepted_handles (process_event p c evt).2.m_calls = accepted_handles p.m_calls) := by
  have hinv : policy_inv p :=
    run_ops_inv c ops _ _ (construct_inv pol evttypes falco_engine ruleset_id) h
  obtain ⟨f1, _, _, _, _⟩ := check_conditions_frame p c evt
  have hacc := check_conditions_accepted p c evt
  constructor
  · rintro ⟨he, hty, hc⟩
    obtain ⟨_, s2, _⟩ := check_outstanding_actions_spec (check_conditions p c evt).2 c evt.ts
      (check_conditions_inv p c evt hinv)
    have hb : accepted_handles (before_engine p c evt).m_calls =
        accepted_handles p.m_calls ++
          handles (p.m_outstanding_actions.filter
            (fun a => decide (a.m_num_remaining_actions = 0))) := by
      show accepted_handles
        (check_outstanding_actions (check_conditions p c evt).2 c evt.ts).m_calls = _
      rw [s2, hacc, f1]
    have hm : match_event p c evt = ask_engine (before_engine p c evt) c evt := by
      unfold match_event
      rw [if_neg (by rw [hc]; simp)]
      rfl
    obtain ⟨g1, _, _⟩ := ask_engine_frame (before_engine p c evt) c evt
    have hm2 : (match_event p c evt).2.m_calls =
        (before_engine p c evt).m_calls ++ [engine_call (before_engine p c evt) evt] := by
      rw [hm]; exact g1
    have hengine : accepted_handles
        ((before_engine p c evt).m_calls ++ [engine_call (before_engine p c evt) evt]) =
        accepted_handles (before_engine p c evt).m_calls := by
      rw [accepted_handles_append]
      simp [engine_call, accepted_handles]
    have hcalls : (∃ rest : List port_call,
        (process_event p c evt).2.m_calls =
          (before_engine p c evt).m_calls ++
            engine_call (before_engine p c evt) evt :: rest) ∧
        accepted_handles (process_event p c evt).2.m_calls =
          accepted_handles (before_engine p c evt).m_calls := by
      unfold process_event
      rw [if_neg (by rw [he]; simp), if_pos hty]
      cases hv : (match_event p c evt).1 with
      | none =>
        dsimp only
        rw [hm2]
        exact ⟨⟨[], rfl⟩, hengine⟩
      | some event =>
        dsimp only
        obtain ⟨n, k1, _, _, _⟩ := foldl_perform_action_capture c
          (match_event p c evt).2.m_policy evt
          (match evt.tinfo with
            | some tinfo => tinfo.m_container_id
            | none => "")
          (match evt.tinfo with
            | some tinfo => tinfo.m_pid
            | none => 0) (match_event p c evt).2.m_policy.actions
          { astate := new_actions_state (match_event p c evt).2 event,
            has_outstanding := (match_event p c evt).2.m_has_outstanding_actions,
            calls := (match_event p c evt).2.m_calls }
        have k2 : (perform_actions (match_event p c evt).2 c evt event).2.m_calls =
            (match_event p c evt).2.m_calls ++ n := k1
        have k3 := (perform_actions_loop_frame (match_event p c evt).2 c evt event).2.1
        have k4 : accepted_handles
            (perform_actions (match_event p c evt).2 c evt event).2.m_calls =
            accepted_handles (match_event p c evt).2.m_calls := k3
        refine ⟨⟨n, ?_⟩, ?_⟩
        · rw [k2, hm2, List.append_assoc, List.singleton_append]
        · rw [k4, hm2, hengine]
    refine ⟨hcalls.1, hb, hcalls.2.trans hb, ?_⟩
    intro a ha h0
    rw [hcalls.2, hb]
    refine List.mem_append_right _ ?_
    unfold handles
    exact List.mem_map.mpr ⟨a, List.mem_filter.mpr ⟨ha, decide_eq_true h0⟩, rfl⟩
  · intro hn
    unfold process_event
    by_cases he : p.m_policy.enabled = false
    · rw [if_pos he]
      exact ⟨rfl, rfl, rfl⟩
    · rw [if_neg he]
      have he2 := bool_true_of_ne_false he
      by_cases hty : p.m_evttypes evt.type = true
      · rw [if_pos hty]
        have hc : (check_conditions p c evt).1 = false := by
          cases hv : (check_conditions p c evt).1 with
          | false => rfl
          | true => exact absurd ⟨he2, hty, hv⟩ hn
        have hm : match_event p c evt = (none, (check_conditions p c evt).2) := by
          unfold match_event
          rw [if_pos hc]
        rw [hm]
        exact ⟨rfl, f1, hacc⟩
      · rw [if_neg hty]
        exact ⟨rfl, rfl, rfl⟩

/-- C26, amended, on the example: the state of the first event is complete; the next event
of type 3 passes the tests of the policy, and its call of `process_event` offers the event of
the complete state to `accept_policy_event` before it asks the rule engine. -/
theorem process_event_checks_outstanding_witness :
    (run_ops willing
        [policy_op.process_event example_evt, policy_op.action_callback 0 0 true true ""]
        (security_policy.construct (policy_with [plain_action action_type.ACTION_PAUSE])
          (fun t => decide (t = 3)) true 1) = some pause_complete) ∧
      (pause_complete.m_policy.enabled = true ∧ pause_complete.m_evttypes next_evt.type = true ∧
        (check_conditions pause_complete willing next_evt).1 = true) ∧
      accepted_handles (before_engine pause_complete willing next_evt).m_calls = [0] ∧
      accepted_handles (process_event pause_complete willing next_evt).2.m_calls = [0] := by
  have h := process_event_checks_outstanding willing
    (policy_with [plain_action action_type.ACTION_PAUSE]) (fun t => decide (t = 3)) true 1
    [policy_op.process_event example_evt, policy_op.action_callback 0 0 true true ""]
    pause_complete next_evt rfl
  obtain ⟨_, h2, h3, _⟩ := h.1 ⟨rfl, rfl, rfl⟩
  exact ⟨rfl, ⟨rfl, rfl, rfl⟩, h2, h3⟩

/-- C27: after every sequence of operations on a newly constructed policy object (events
processed, `perform_actions`, callbacks of actions, `check_outstanding_actions`), if a state
of `m_outstanding_actions` has no remaining action, the flag `m_has_outstanding_actions` is
set. The next `check_outstanding_actions` therefore does not return early past such a state:
it offers its event to `accept_policy_event` and removes it. -/
theorem completed_state_is_flagged (c : collaborators) (pol : policy)
    (evttypes : Nat → Bool) (falco_engine : Bool) (ruleset_id : Nat) (ops : List policy_op)
    (p : security_policy)
    (h : run_ops c ops (security_policy.construct pol evttypes falco_engine ruleset_id) =
      some p) :
    (∀ a ∈ p.m_outstanding_actions, a.m_num_remaining_actions = 0 →
        p.m_has_outstanding_actions = true) ∧
      (∀ (ts_ns : Nat), ∀ a ∈ p.m_outstanding_actions, a.m_num_remaining_actions = 0 →
        a ∉ (check_outstanding_actions p c ts_ns).m_outstanding_actions ∧
          a.m_handle ∈ accepted_handles (check_outstanding_actions p c ts_ns).m_calls) := by
  have hinv : policy_inv p :=
    run_ops_inv c ops _ _ (construct_inv pol evttypes falco_engine ruleset_id) h
  refine ⟨hinv.2.2.2.2.2, ?_⟩
  intro ts_ns a ha h0
  obtain ⟨s1, s2, _⟩ := check_outstanding_actions_spec p c ts_ns hinv
  constructor
  · rw [s1]
    intro hm
    have := (List.mem_filter.mp hm).2
    exact absurd h0 (of_decide_eq_true this)
  · rw [s2]
    refine List.mem_append_right _ ?_
    unfold handles
    exact List.mem_map.mpr ⟨a, List.mem_filter.mpr ⟨ha, decide_eq_true h0⟩, rfl⟩

/-- C27 on the example: after the event has matched and the callback of its pause command
has run, the state has no remaining action and the flag is set; `check_outstanding_actions`
then offers the event and removes the state. With two actions of which one is complete, the
flag is not set and the state stays. -/
theorem completed_state_is_flagged_witness :
    (run_ops willing
        [policy_op.process_event example_evt, policy_op.action_callback 0 0 true true ""]
        (security_policy.construct (policy_with [plain_action action_type.ACTION_PAUSE])
          (fun t => decide (t = 3)) true 1) = some pause_complete) ∧
      pause_complete.m_outstanding_actions.map (fun a => a.m_num_remaining_actions) = [0] ∧
      pause_complete.m_has_outstanding_actions = true ∧
      (check_outstanding_actions pause_complete willing 200).m_outstanding_actions = [] ∧
      accepted_handles (check_outstanding_actions pause_complete willing 200).m_calls = [0] ∧
      pause_capture_done.m_outstanding_actions.map (fun a => a.m_num_remaining_actions) = [1] ∧
      pause_capture_done.m_has_outstanding_actions = false := by
  obtain ⟨h1, _⟩ := completed_state_is_flagged willing
    (policy_with [plain_action action_type.ACTION_PAUSE]) (fun t => decide (t = 3)) true 1
    [policy_op.process_event example_evt, policy_op.action_callback 0 0 true true ""]
    pause_complete rfl
  have hmem : pause_complete.m_outstanding_actions ≠ [] := by decide
  obtain ⟨a, rest, hl⟩ := List.exists_cons_of_ne_nil hmem
  have h0 : a.m_num_remaining_actions = 0 := by
    have hmap : pause_complete.m_outstanding_actions.map
        (fun a => a.m_num_remaining_actions) = [0] := by decide
    rw [hl, List.map_cons] at hmap
    exact (List.cons.inj hmap).1
  exact ⟨rfl, by decide, h1 a (by rw [hl]; exact List.mem_cons_self _ _) h0, by decide,
    by decide, by decide, by decide⟩

end secpolicy

/-! ## Theorems about the compliance manager -/

namespace compliance

/-- The Stop and Start calls in a concatenation of calls. -/
theorem rpc_calls_append (l1 l2 : List comp_call) :
    rpc_calls (l1 ++ l2) = rpc_calls l1 ++ rpc_calls l2 := by
  induction l1 with
  | nil => rfl
  | cons x rest ih => cases x <;> simp [rpc_calls, ih]

/-- One task of the calendar in the loop of `refresh_compliance_tasks`: a selected task is
copied into the request and its identifier joins `new_tasks`, another task changes neither;
no Stop or Start call is made. -/
theorem refresh_task_spec (analyzer : Bool) (cfg : comp_config) (scope : String → Bool)
    (st : refresh_loop) (task : comp_task) :
    (refresh_task analyzer cfg scope st task).run_tasks =
        st.run_tasks ++ ([task].filter (task_selected analyzer scope)).map (run_task cfg) ∧
      (refresh_task analyzer cfg scope st task).new_tasks =
        st.new_tasks ∪ (([task].filter (task_selected analyzer scope)).map
          (fun t => t.id)).toFinset ∧
      rpc_calls (refresh_task analyzer cfg scope st task).calls = rpc_calls st.calls := by
  unfold refresh_task
  by_cases he : task.enabled = false
  · rw [if_pos he]
    have hs : task_selected analyzer scope task = false := by
      unfold task_selected; rw [he]; rfl
    simp [hs]
  · rw [if_neg he]
    have he2 : task.enabled = true := by
      cases hv : task.enabled with
      | true => rfl
      | false => exact absurd hv he
    by_cases ha : analyzer = true
    · rw [if_pos ha]
      by_cases hsc : scope (reg_id task) = false
      · rw [if_pos hsc]
        have hs : task_selected analyzer scope task = false := by
          unfold task_selected; rw [he2, ha, hsc]; rfl
        refine ⟨by simp [hs], by simp [hs], ?_⟩
        rw [rpc_calls_append]
        simp [rpc_calls]
      · rw [if_neg hsc]
        have hsc2 : scope (reg_id task) = true := by
          cases hv : scope (reg_id task) with
          | true => rfl
          | false => exact absurd hv hsc
        have hs : task_selected analyzer scope task = true := by
          unfold task_selected; rw [he2, ha, hsc2]; rfl
        refine ⟨by simp [hs], ?_, ?_⟩
        · ext x; simp [hs, or_comm]
        · show rpc_calls (st.calls ++ _) = _
          rw [rpc_calls_append]
          simp [rpc_calls]
    · rw [if_neg ha]
      have ha2 : analyzer = false := by
        cases hv : analyzer with
        | true => exact absurd hv ha
        | false => rfl
      have hs : task_selected analyzer scope task = true := by
        unfold task_selected; rw [he2, ha2]; rfl
      refine ⟨by simp [hs], ?_, rfl⟩
      ext x; simp [hs, or_comm]

/-- The loop of `refresh_compliance_tasks` from any state: the selected tasks are copied
into the request in the order of the calendar, their identifiers join `new_tasks`, and no
Stop or Start call is made. -/
theorem foldl_refresh_task_spec (analyzer : Bool) (cfg : comp_config) (scope : String → Bool)
    (l : List comp_task) :
    ∀ st : refresh_loop,
      (l.foldl (refresh_task analyzer cfg scope) st).run_tasks =
          st.run_tasks ++ (l.filter (task_selected analyzer scope)).map (run_task cfg) ∧
        (l.foldl (refresh_task analyzer cfg scope) st).new_tasks =
          st.new_tasks ∪ ((l.filter (task_selected analyzer scope)).map
            (fun t => t.id)).toFinset ∧
        rpc_calls (l.foldl (refresh_task analyzer cfg scope) st).calls =
          rpc_calls st.calls := by
  induction l with
  | nil => intro st; simp
  | cons task rest ih =>
    intro st
    obtain ⟨a1, a2, a3⟩ := refresh_task_spec analyzer cfg scope st task
    obtain ⟨b1, b2, b3⟩ := ih (refresh_task analyzer cfg scope st task)
    rw [List.foldl_cons]
    refine ⟨?_, ?_, b3.trans a3⟩
    · rw [b1, a1]
      have : (task :: rest).filter (task_selected analyzer scope) =
          [task].filter (task_selected analyzer scope) ++
            rest.filter (task_selected analyzer scope) := by
        rw [← List.filter_append]; rfl
      rw [this, List.map_append, List.append_assoc]
    · rw [b2, a2]
      have : (task :: rest).filter (task_selected analyzer scope) =
          [task].filter (task_selected analyzer scope) ++
            rest.filter (task_selected analyzer scope) := by
        rw [← List.filter_append]; rfl
      rw [this, List.map_append, List.toFinset_append, Finset.union_assoc]

/-- What the loop of `refresh_compliance_tasks` computes: the request holds the copies of the
selected tasks in the order of the calendar, `new_tasks` is the set of their identifiers, and
no Stop or Start call is made. -/
theorem refresh_tasks_spec (m : compliance_mgr) (cfg : comp_config) (scope : String → Bool) :
    (refresh_tasks m cfg scope).run_tasks =
        (m.m_compliance_calendar.filter (task_selected m.m_analyzer scope)).map
          (run_task cfg) ∧
      (refresh_tasks m cfg scope).new_tasks =
        ((m.m_compliance_calendar.filter (task_selected m.m_analyzer scope)).map
          (fun t => t.id)).toFinset ∧
      rpc_calls (refresh_tasks m cfg scope).calls = rpc_calls m.m_calls := by
  obtain ⟨a1, a2, a3⟩ := foldl_refresh_task_spec m.m_analyzer cfg scope
    m.m_compliance_calendar { run_tasks := [], new_tasks := ∅, calls := m.m_calls }
  unfold refresh_tasks
  refine ⟨by rw [a1]; rfl, ?_, a3⟩
  rw [a2]
  exact Finset.empty_union _


/-- The function `refresh_compliance_tasks` when the set computed equals the current one: only
the calls of the loop are added. -/
theorem refresh_unchanged (m : compliance_mgr) (cfg : comp_config) (scope : String → Bool)
    (h : (refresh_tasks m cfg scope).new_tasks = m.m_cur_compliance_tasks) :
    refresh_compliance_tasks m cfg scope =
      { m with m_calls := (refresh_tasks m cfg scope).calls } := by
  unfold refresh_compliance_tasks
  rw [if_pos h]

/-- The function `refresh_compliance_tasks` when the set computed differs from the current
one: the Stop call is made when a future is valid, the set computed becomes the current one,
and the Start call follows when the set is not empty. -/
theorem refresh_changed (m : compliance_mgr) (cfg : comp_config) (scope : String → Bool)
    (h : (refresh_tasks m cfg scope).new_tasks ≠ m.m_cur_compliance_tasks) :
    (refresh_compliance_tasks m cfg scope).m_cur_compliance_tasks =
        (refresh_tasks m cfg scope).new_tasks ∧
      (refresh_compliance_tasks m cfg scope).m_calls =
        (refresh_tasks m cfg scope).calls ++ stop_calls m.m_start_tasks_future ++
          (if (refresh_tasks m cfg scope).new_tasks.card > 0 then
            [comp_call.start (start_request cfg (refresh_tasks m cfg scope).run_tasks)]
          else []) ∧
      (refresh_compliance_tasks m cfg scope).m_start_tasks_future =
        (if (refresh_tasks m cfg scope).new_tasks.card > 0 then start_future.running
          else m.m_start_tasks_future) := by
  unfold refresh_compliance_tasks
  rw [if_neg h]
  by_cases hc : (refresh_tasks m cfg scope).new_tasks.card > 0
  · rw [if_pos hc, if_pos hc, if_pos hc]
    exact ⟨rfl, rfl, rfl⟩
  · rw [if_neg hc, if_neg hc, if_neg hc]
    refine ⟨rfl, ?_, rfl⟩
    show (refresh_tasks m cfg scope).calls ++ stop_calls m.m_start_tasks_future = _
    rw [List.append_nil]

/-- After `refresh_compliance_tasks` the current set is the set computed, and the calendar
and the analyzer are the ones before. -/
theorem refresh_current (m : compliance_mgr) (cfg : comp_config) (scope : String → Bool) :
    (refresh_compliance_tasks m cfg scope).m_cur_compliance_tasks =
        (refresh_tasks m cfg scope).new_tasks ∧
      (refresh_compliance_tasks m cfg scope).m_compliance_calendar =
        m.m_compliance_calendar ∧
      (refresh_compliance_tasks m cfg scope).m_analyzer = m.m_analyzer := by
  by_cases h : (refresh_tasks m cfg scope).new_tasks = m.m_cur_compliance_tasks
  · rw [refresh_unchanged m cfg scope h]
    exact ⟨h.symm, rfl, rfl⟩
  · refine ⟨(refresh_changed m cfg scope h).1, ?_, ?_⟩
    · unfold refresh_compliance_tasks
      rw [if_neg h]
      by_cases hc : (refresh_tasks m cfg scope).new_tasks.card > 0
      · rw [if_pos hc]; rfl
      · rw [if_neg hc]; rfl
    · unfold refresh_compliance_tasks
      rw [if_neg h]
      by_cases hc : (refresh_tasks m cfg scope).new_tasks.card > 0
      · rw [if_pos hc]; rfl
      · rw [if_neg hc]; rfl

/-- C16: when `refresh_compliance_tasks` computes a set of task identifiers equal to
`m_cur_compliance_tasks`, it makes no Stop and no Start call and leaves
`m_cur_compliance_tasks` and the future of the stream as they were. So setting a calendar and
refreshing, then setting the same calendar and refreshing again with the same answers of the
infrastructure state, makes no Stop and no Start call the second time and leaves the current
set, the future and the calendar as the first time left them. -/
theorem refresh_same_calendar_is_noop (m : compliance_mgr) (cfg : comp_config)
    (scope : String → Bool) :
    ((refresh_tasks m cfg scope).new_tasks = m.m_cur_compliance_tasks →
      rpc_calls (refresh_compliance_tasks m cfg scope).m_calls = rpc_calls m.m_calls ∧
        (refresh_compliance_tasks m cfg scope).m_cur_compliance_tasks =
          m.m_cur_compliance_tasks ∧
        (refresh_compliance_tasks m cfg scope).m_start_tasks_future =
          m.m_start_tasks_future) ∧
    (∀ (calendar : List comp_task) (r1 e1 r2 e2 : Bool) (cfg2 : comp_config),
      rpc_calls (refresh_compliance_tasks
          (set_compliance_calendar
            (refresh_compliance_tasks (set_compliance_calendar m calendar r1 e1) cfg scope)
            calendar r2 e2) cfg2 scope).m_calls =
        rpc_calls (refresh_compliance_tasks (set_compliance_calendar m calendar r1 e1) cfg
          scope).m_calls ∧
      (refresh_compliance_tasks
          (set_compliance_calendar
            (refresh_compliance_tasks (set_compliance_calendar m calendar r1 e1) cfg scope)
            calendar r2 e2) cfg2 scope).m_cur_compliance_tasks =
        (refresh_compliance_tasks (set_compliance_calendar m calendar r1 e1) cfg
          scope).m_cur_compliance_tasks ∧
      (refresh_compliance_tasks
          (set_compliance_calendar
            (refresh_compliance_tasks (set_compliance_calendar m calendar r1 e1) cfg scope)
            calendar r2 e2) cfg2 scope).m_start_tasks_future =
        (refresh_compliance_tasks (set_compliance_calendar m calendar r1 e1) cfg
          scope).m_start_tasks_future ∧
      (refresh_compliance_tasks
          (set_compliance_calendar
            (refresh_compliance_tasks (set_compliance_calendar m calendar r1 e1) cfg scope)
            calendar r2 e2) cfg2 scope).m_compliance_calendar = calendar) := by
  have noop : ∀ (x : compliance_mgr) (c : comp_config),
      (refresh_tasks x c scope).new_tasks = x.m_cur_compliance_tasks →
      rpc_calls (refresh_compliance_tasks x c scope).m_calls = rpc_calls x.m_calls ∧
        (refresh_compliance_tasks x c scope).m_cur_compliance_tasks =
          x.m_cur_compliance_tasks ∧
        (refresh_compliance_tasks x c scope).m_start_tasks_future =
          x.m_start_tasks_future ∧
        (refresh_compliance_tasks x c scope).m_compliance_calendar =
          x.m_compliance_calendar := by
    intro x c h
    rw [refresh_unchanged x c scope h]
    exact ⟨(refresh_tasks_spec x c scope).2.2, rfl, rfl, rfl⟩
  constructor
  · intro h
    obtain ⟨a, b, c, _⟩ := noop m cfg h
    exact ⟨a, b, c⟩
  · intro calendar r1 e1 r2 e2 cfg2
    obtain ⟨c1, c2, c3⟩ :=
      refresh_current (set_compliance_calendar m calendar r1 e1) cfg scope
    have hsame : (refresh_tasks
        (set_compliance_calendar
          (refresh_compliance_tasks (set_compliance_calendar m calendar r1 e1) cfg scope)
          calendar r2 e2) cfg2 scope).new_tasks =
        (set_compliance_calendar
          (refresh_compliance_tasks (set_compliance_calendar m calendar r1 e1) cfg scope)
          calendar r2 e2).m_cur_compliance_tasks := by
      rw [(refresh_tasks_spec _ cfg2 scope).2.1]
      show ((calendar.filter (task_selected
        (refresh_compliance_tasks (set_compliance_calendar m calendar r1 e1) cfg
          scope).m_analyzer scope)).map (fun t => t.id)).toFinset =
        (refresh_compliance_tasks (set_compliance_calendar m calendar r1 e1) cfg
          scope).m_cur_compliance_tasks
      rw [c1, c3, (refresh_tasks_spec _ cfg scope).2.1]
      rfl
    obtain ⟨a, b, c, d⟩ := noop _ cfg2 hsame
    exact ⟨a, b, c, d⟩

/-- C16 on the example: the calendar of the three example tasks is set and refreshed twice;
the first time one Start call is made, the second time nothing. -/
theorem refresh_same_calendar_is_noop_witness :
    (refresh_tasks
        (set_compliance_calendar started_mgr [bench_task, idle_task, docker_task] true false)
        plain_config (fun _ => true)).new_tasks =
      (set_compliance_calendar started_mgr [bench_task, idle_task, docker_task] true
        false).m_cur_compliance_tasks ∧
    rpc_calls started_mgr.m_calls =
      [comp_call.start (start_request plain_config [bench_task, docker_task])] ∧
    rpc_calls (refresh_compliance_tasks
        (set_compliance_calendar started_mgr [bench_task, idle_task, docker_task] true false)
        plain_config (fun _ => true)).m_calls =
      [comp_call.start (start_request plain_config [bench_task, docker_task])] := by
  have h : (refresh_tasks
      (set_compliance_calendar started_mgr [bench_task, idle_task, docker_task] true false)
      plain_config (fun _ => true)).new_tasks =
    (set_compliance_calendar started_mgr [bench_task, idle_task, docker_task] true
      false).m_cur_compliance_tasks := by decide
  have hs : rpc_calls started_mgr.m_calls =
      [comp_call.start (start_request plain_config [bench_task, docker_task])] := by decide
  have t := (refresh_same_calendar_is_noop
    (set_compliance_calendar started_mgr [bench_task, idle_task, docker_task] true false)
    plain_config (fun _ => true)).1 h
  refine ⟨h, hs, ?_⟩
  rw [t.1]
  exact hs

/-- C18, the code at the failing input: the stream of the started manager ends with an error
and `check_pending_task_results` consumes the status, after which no stream is open. The same
calendar is then set and refreshed again. The set of task identifiers computed equals
`m_cur_compliance_tasks`, which the failure has not changed, so no Start call is made: the
only Start call is the first one and the future of the stream stays not valid. -/
theorem refresh_after_stream_error_does_not_restart :
    started_mgr.m_start_tasks_future = start_future.running ∧
      failed_mgr.m_start_tasks_future = start_future.invalid ∧
      failed_mgr.m_cur_compliance_tasks = {1, 2} ∧
      rpc_calls (refresh_compliance_tasks
          (set_compliance_calendar failed_mgr [bench_task, idle_task, docker_task] true
            false) plain_config (fun _ => true)).m_calls =
        [comp_call.start (start_request plain_config [bench_task, docker_task])] ∧
      (refresh_compliance_tasks
          (set_compliance_calendar failed_mgr [bench_task, idle_task, docker_task] true
            false) plain_config (fun _ => true)).m_start_tasks_future =
        start_future.invalid := by
  refine ⟨by decide, by decide, by decide, by decide, by decide⟩

/-- The calls made by the loop of `check_pending_task_results`: when results are to be sent,
one call of the result handler for each event that carries a result, in the order of the
events. -/
theorem foldl_handle_task_event_calls (save_errors send_results : Bool) (now_ns : Nat)
    (queue : List comp_task_event) :
    ∀ st : pending_loop,
      (queue.foldl (handle_task_event save_errors send_results now_ns) st).calls =
        st.calls ++
          (if send_results = true then
            (queue.filter (fun e => decide (e.results.length > 0))).map
              (fun e => comp_call.comp_results_ready now_ns e.results)
          else []) := by
  induction queue with
  | nil => intro st; simp
  | cons e rest ih =>
    intro st
    have hstep : (handle_task_event save_errors send_results now_ns st e).calls =
        (if send_results = true ∧ e.results.length > 0 then
          st.calls ++ [comp_call.comp_results_ready now_ns e.results]
        else st.calls) := rfl
    rw [List.foldl_cons, ih, hstep]
    by_cases hs : send_results = true
    · rw [if_pos hs, if_pos hs]
      by_cases hr : e.results.length > 0
      · rw [if_pos ⟨hs, hr⟩, List.filter_cons_of_pos (by exact decide_eq_true hr),
          List.map_cons, List.append_assoc, List.singleton_append]
      · rw [if_neg (fun h => hr h.2), List.filter_cons_of_neg (by simpa using hr)]
    · rw [if_neg (fun h => hs h.1), if_neg hs, if_neg hs]

/-- C25: `check_pending_task_results` leaves the queue of task events empty. When
`m_send_compliance_results` is set, the calls it makes are one call of the result handler for
each event of the queue that carries at least one result, in the order of the queue and with
the results of the event, whether the event reports a successful initialisation or not; when
the flag is not set, it makes no call. -/
theorem check_pending_task_results_drains (m : compliance_mgr) (now_ns : Nat) :
    (check_pending_task_results m now_ns).m_comp_events_queue = [] ∧
      (check_pending_task_results m now_ns).m_calls =
        m.m_calls ++
          (if m.m_send_compliance_results = true then
            (m.m_comp_events_queue.filter (fun e => decide (e.results.length > 0))).map
              (fun e => comp_call.comp_results_ready now_ns e.results)
          else []) ∧
      (m.m_send_compliance_results = true →
        handler_calls (check_pending_task_results m now_ns).m_calls =
          handler_calls m.m_calls ++
            (m.m_comp_events_queue.filter (fun e => decide (e.results.length > 0))).map
              (fun e => e.results)) ∧
      (m.m_send_compliance_results = false →
        (check_pending_task_results m now_ns).m_calls = m.m_calls) := by
  have hcalls : (check_pending_task_results m now_ns).m_calls =
      m.m_calls ++
        (if m.m_send_compliance_results = true then
          (m.m_comp_events_queue.filter (fun e => decide (e.results.length > 0))).map
            (fun e => comp_call.comp_results_ready now_ns e.results)
        else []) :=
    foldl_handle_task_event_calls m.m_save_errors m.m_send_compliance_results now_ns
      m.m_comp_events_queue _
  have happ : ∀ (l1 l2 : List comp_call),
      handler_calls (l1 ++ l2) = handler_calls l1 ++ handler_calls l2 := by
    intro l1 l2
    induction l1 with
    | nil => rfl
    | cons x rest ih => cases x <;> simp [handler_calls, ih]
  have hmap : ∀ l : List comp_task_event,
      handler_calls (l.map (fun e => comp_call.comp_results_ready now_ns e.results)) =
        l.map (fun e => e.results) := by
    intro l
    induction l with
    | nil => rfl
    | cons x rest ih => simp [handler_calls, ih]
  refine ⟨rfl, hcalls, ?_, ?_⟩
  · intro hs
    rw [hcalls, if_pos hs, happ, hmap]
  · intro hs
    rw [hcalls, if_neg (by rw [hs]; simp), List.append_nil]

/-- C25 on an example: of the three events in the queue, the first and the third carry
results. With the flag set the handler is called for these two, in this order, the third
although its task could not be initialised; with the flag unset it is not called. The queue is
empty afterwards. -/
theorem check_pending_task_results_drains_witness :
    queued_mgr.m_send_compliance_results = true ∧
      handler_calls (check_pending_task_results queued_mgr 5).m_calls =
        [["r1", "r2"], ["r3"]] ∧
      (check_pending_task_results queued_mgr 5).m_comp_events_queue = [] ∧
      ({ queued_mgr with m_send_compliance_results := false } :
        compliance_mgr).m_send_compliance_results = false ∧
      handler_calls (check_pending_task_results
        { queued_mgr with m_send_compliance_results := false } 5).m_calls = [] := by
  obtain ⟨h1, _, h3, _⟩ := check_pending_task_results_drains queued_mgr 5
  obtain ⟨_, _, _, k4⟩ := check_pending_task_results_drains
    { queued_mgr with m_send_compliance_results := false } 5
  refine ⟨rfl, ?_, h1, rfl, ?_⟩
  · rw [h3 rfl]; rfl
  · rw [k4 rfl]; rfl

end compliance

/-! ## Theorems about the protocol handler -/

namespace protohandler

/-- A Boolean that is not false is true. -/
theorem eq_true_of_not_false {b : Bool} (h : ¬ b = false) : b = true := by
  cases b with
  | true => rfl
  | false => exact absurd rfl h

/-- C19: each security handler makes at most one call of `put`, with the priority of its
message type: `security_mgr_policy_events_ready` serializes a `POLICY_EVENTS` message and puts
the frame with `BQ_PRIORITY_MEDIUM`, `security_mgr_throttled_events_ready` serializes a
`THROTTLED_POLICY_EVENTS` message and puts the frame with `BQ_PRIORITY_LOW`, and
`security_mgr_comp_results_ready` serializes a `COMP_RESULTS` message and puts the frame with
`BQ_PRIORITY_LOW`; a message that cannot be serialized is not put. -/
theorem security_handlers_priority (h : protocol_handler) (env : handler_env) (ts_ns : Nat)
    (msg : message) (total_throttled_count : Nat) :
    (security_mgr_policy_events_ready h env ts_ns msg).m_puts =
        h.m_puts ++ puts_of h env ts_ns message_type.POLICY_EVENTS
          item_priority.BQ_PRIORITY_MEDIUM msg ∧
      (security_mgr_throttled_events_ready h env ts_ns msg total_throttled_count).m_puts =
        h.m_puts ++ puts_of h env ts_ns message_type.THROTTLED_POLICY_EVENTS
          item_priority.BQ_PRIORITY_LOW msg ∧
      (security_mgr_comp_results_ready h env ts_ns msg).m_puts =
        h.m_puts ++ puts_of h env ts_ns message_type.COMP_RESULTS
          item_priority.BQ_PRIORITY_LOW msg ∧
      (∀ (type : message_type) (priority : item_priority),
        (puts_of h env ts_ns type priority msg).length ≤ 1 ∧
          ∀ r ∈ puts_of h env ts_ns type priority msg, r.priority = priority) := by
  refine ⟨?_, ?_, ?_, ?_⟩
  · unfold security_mgr_policy_events_ready puts_of
    cases env.message_to_buffer ts_ns message_type.POLICY_EVENTS msg (compression_of env) with
    | none => exact (List.append_nil _).symm
    | some buffer =>
      dsimp only
      by_cases hq : env.queue_put h.m_puts buffer item_priority.BQ_PRIORITY_MEDIUM = false
      · rw [if_pos hq, hq]
      · rw [if_neg hq, eq_true_of_not_false hq]
  · unfold security_mgr_throttled_events_ready puts_of
    cases env.message_to_buffer ts_ns message_type.THROTTLED_POLICY_EVENTS msg
        (compression_of env) with
    | none => exact (List.append_nil _).symm
    | some buffer =>
      dsimp only
      by_cases hq : env.queue_put h.m_puts buffer item_priority.BQ_PRIORITY_LOW = false
      · rw [if_pos hq, hq]
      · rw [if_neg hq, eq_true_of_not_false hq]
  · unfold security_mgr_comp_results_ready puts_of
    cases env.message_to_buffer ts_ns message_type.COMP_RESULTS msg (compression_of env) with
    | none => exact (List.append_nil _).symm
    | some buffer =>
      dsimp only
      by_cases hq : env.queue_put h.m_puts buffer item_priority.BQ_PRIORITY_LOW = false
      · rw [if_pos hq, hq]
      · rw [if_neg hq, eq_true_of_not_false hq]
  · intro type priority
    unfold puts_of
    cases env.message_to_buffer ts_ns type msg (compression_of env) with
    | none => exact ⟨Nat.zero_le _, fun r hr => absurd hr (List.not_mem_nil _)⟩
    | some buffer =>
      refine ⟨Nat.le_refl _, ?_⟩
      intro r hr
      rw [List.mem_singleton.mp hr]

/-- C20, as the claim states it, fails: the queue is full when
`security_mgr_policy_events_ready` is called on a new handler. After the call the handler
differs from the new handler in the record of the one call of `put`, which was refused, and in
two lines of its log only: it has no member that counts dropped frames, and no member has
been incremented. -/
theorem queue_full_counterexample :
    security_mgr_policy_events_ready protocol_handler.construct full_queue_env 5 two_events =
      { m_last_loop_ns := 0,
        m_puts :=
          [{ item := frame_of 5 message_type.POLICY_EVENTS two_events,
             priority := item_priority.BQ_PRIORITY_MEDIUM, accepted := false }],
        m_emitted := [],
        m_log := ["sec_evts len=6, ne=2", "Queue full, discarding sample"] } := by
  decide

/-- C20, amended: when the call of `put` for the frame of a message is refused, the handler
drops the frame: it has made this one call of `put` and makes no other, it logs that the queue
is full and returns, and it changes no other member; `transmit` in particular does not hand
the message to the file emitter. This holds for the three security handlers and for
`transmit`. No counter of dropped frames is kept by the handler. -/
theorem queue_full_drops_frame (h : protocol_handler) (env : handler_env) (ts_ns : Nat)
    (msg : message) (type : message_type) (type_value : Nat) (priority : item_priority)
    (buffer : serialized_buffer) (total_throttled_count : Nat) :
    (env.message_to_buffer ts_ns message_type.POLICY_EVENTS msg (compression_of env) =
        some buffer →
      env.queue_put h.m_puts buffer item_priority.BQ_PRIORITY_MEDIUM = false →
      (security_mgr_policy_events_ready h env ts_ns msg).m_puts =
          h.m_puts ++
            [{ item := buffer, priority := item_priority.BQ_PRIORITY_MEDIUM, accepted := false }] ∧
        (security_mgr_policy_events_ready h env ts_ns msg).m_log.getLast? =
          some "Queue full, discarding sample" ∧
        (security_mgr_policy_events_ready h env ts_ns msg).m_last_loop_ns =
          h.m_last_loop_ns ∧
        (security_mgr_policy_events_ready h env ts_ns msg).m_emitted = h.m_emitted) ∧
    (env.message_to_buffer ts_ns message_type.THROTTLED_POLICY_EVENTS msg
        (compression_of env) = some buffer →
      env.queue_put h.m_puts buffer item_priority.BQ_PRIORITY_LOW = false →
      (security_mgr_throttled_events_ready h env ts_ns msg total_throttled_count).m_puts =
          h.m_puts ++
            [{ item := buffer, priority := item_priority.BQ_PRIORITY_LOW, accepted := false }] ∧
        (security_mgr_throttled_events_ready h env ts_ns msg
          total_throttled_count).m_log.getLast? = some "Queue full, discarding sample" ∧
        (security_mgr_throttled_events_ready h env ts_ns msg
          total_throttled_count).m_last_loop_ns = h.m_last_loop_ns ∧
        (security_mgr_throttled_events_ready h env ts_ns msg
          total_throttled_count).m_emitted = h.m_emitted) ∧
    (env.message_to_buffer ts_ns message_type.COMP_RESULTS msg (compression_of env) =
        some buffer →
      env.queue_put h.m_puts buffer item_priority.BQ_PRIORITY_LOW = false →
      (security_mgr_comp_results_ready h env ts_ns msg).m_puts =
          h.m_puts ++
            [{ item := buffer, priority := item_priority.BQ_PRIORITY_LOW, accepted := false }] ∧
        (security_mgr_comp_results_ready h env ts_ns msg).m_log.getLast? =
          some "Queue full, discarding sample" ∧
        (security_mgr_comp_results_ready h env ts_ns msg).m_last_loop_ns =
          h.m_last_loop_ns ∧
        (security_mgr_comp_results_ready h env ts_ns msg).m_emitted = h.m_emitted) ∧
    (env.message_to_buffer (if ts_ns = 0 then env.current_time_ns else ts_ns) type msg
        (compression_of env) = some buffer →
      env.queue_put h.m_puts buffer priority = false →
      (transmit h env type type_value msg priority ts_ns).m_puts =
          h.m_puts ++ [{ item := buffer, priority := priority, accepted := false }] ∧
        (transmit h env type type_value msg priority ts_ns).m_log.getLast? =
          some ("Queue is full, discarding message " ++ toString type_value) ∧
        (transmit h env type type_value msg priority ts_ns).m_last_loop_ns =
          h.m_last_loop_ns ∧
        (transmit h env type type_value msg priority ts_ns).m_emitted = h.m_emitted) := by
  refine ⟨?_, ?_, ?_, ?_⟩
  · intro hb hq
    unfold security_mgr_policy_events_ready
    rw [hb]
    dsimp only
    rw [if_pos hq]
    refine ⟨rfl, ?_, rfl, rfl⟩
    dsimp only
    simp
  · intro hb hq
    unfold security_mgr_throttled_events_ready
    rw [hb]
    dsimp only
    rw [if_pos hq]
    refine ⟨rfl, ?_, rfl, rfl⟩
    dsimp only
    simp
  · intro hb hq
    unfold security_mgr_comp_results_ready
    rw [hb]
    dsimp only
    rw [if_pos hq]
    refine ⟨rfl, ?_, rfl, rfl⟩
    dsimp only
    simp
  · intro hb hq
    unfold transmit
    rw [hb]
    dsimp only
    rw [if_pos hq]
    refine ⟨rfl, ?_, rfl, rfl⟩
    dsimp only
    simp

/-- C20, amended, on the example of the full queue: each of the four functions makes one call
of `put`, which is refused, and `transmit` hands nothing to the file emitter although a
metrics directory is configured. -/
theorem queue_full_drops_frame_witness :
    (security_mgr_policy_events_ready protocol_handler.construct full_queue_env 5
        two_events).m_puts.map (fun r => (r.priority, r.accepted)) =
      [(item_priority.BQ_PRIORITY_MEDIUM, false)] ∧
    (security_mgr_throttled_events_ready protocol_handler.construct full_queue_env 5
        two_events 7).m_puts.map (fun r => (r.priority, r.accepted)) =
      [(item_priority.BQ_PRIORITY_LOW, false)] ∧
    (security_mgr_comp_results_ready protocol_handler.construct full_queue_env 5
        two_events).m_puts.map (fun r => (r.priority, r.accepted)) =
      [(item_priority.BQ_PRIORITY_LOW, false)] ∧
    (transmit protocol_handler.construct full_queue_env message_type.METRICS 1 two_events
        item_priority.BQ_PRIORITY_MEDIUM 0).m_puts.map (fun r => (r.item.ts_ns, r.accepted)) =
      [(99, false)] ∧
    (transmit protocol_handler.construct full_queue_env message_type.METRICS 1 two_events
        item_priority.BQ_PRIORITY_MEDIUM 0).m_emitted = [] := by
  have t := queue_full_drops_frame protocol_handler.construct full_queue_env 5 two_events
    message_type.METRICS 1 item_priority.BQ_PRIORITY_MEDIUM
    (frame_of 5 message_type.POLICY_EVENTS two_events) 7
  have t2 := queue_full_drops_frame protocol_handler.construct full_queue_env 5 two_events
    message_type.METRICS 1 item_priority.BQ_PRIORITY_MEDIUM
    (frame_of 5 message_type.THROTTLED_POLICY_EVENTS two_events) 7
  have t3 := queue_full_drops_frame protocol_handler.construct full_queue_env 5 two_events
    message_type.METRICS 1 item_priority.BQ_PRIORITY_MEDIUM
    (frame_of 5 message_type.COMP_RESULTS two_events) 7
  have t4 := queue_full_drops_frame protocol_handler.construct full_queue_env 0 two_events
    message_type.METRICS 1 item_priority.BQ_PRIORITY_MEDIUM
    (frame_of 99 message_type.METRICS two_events) 7
  obtain ⟨a1, _, _, _⟩ := t.1 rfl rfl
  obtain ⟨b1, _, _, _⟩ := t2.2.1 rfl rfl
  obtain ⟨c1, _, _, _⟩ := t3.2.2.1 rfl rfl
  obtain ⟨d1, _, _, d4⟩ := t4.2.2.2 rfl rfl
  refine ⟨?_, ?_, ?_, ?_, ?_⟩
  · rw [a1]; rfl
  · rw [b1]; rfl
  · rw [c1]; rfl
  · rw [d1]; rfl
  · rw [d4]; rfl

/-- When `message_to_buffer` yields a buffer, `handle_uncompressed_sample` returns that
buffer with `flush_interval` set to its argument, and sets `m_last_loop_ns` to the current
time. -/
theorem handle_uncompressed_sample_buffer (h : protocol_handler) (env : handler_env)
    (ts_ns : Nat) (metrics : message) (flush_interval : Nat)
    (compressor : protocol_compression_method) (buffer : serialized_buffer)
    (hb : env.message_to_buffer ts_ns message_type.METRICS metrics compressor = some buffer) :
    ∃ h1 : protocol_handler,
      handle_uncompressed_sample h env ts_ns metrics flush_interval compressor =
          some (some { buffer with flush_interval := flush_interval }, h1) ∧
        h1.m_last_loop_ns = env.current_time_ns ∧ h1.m_puts = h.m_puts := by
  unfold handle_uncompressed_sample
  rw [hb]
  exact ⟨_, rfl, rfl, rfl⟩

/-- C30, the code at the failing input: `message_to_buffer` yields no buffer. The statement
`buffer->flush_interval = flush_interval` comes before the test `if(!buffer)` and dereferences
the null pointer, so the behaviour of `handle_uncompressed_sample` is undefined: it does not
get to return `nullptr`. The function `transmit`, in the same surroundings, tests the buffer
first, logs the failure and returns. -/
theorem handle_uncompressed_sample_null_buffer :
    null_buffer_env.message_to_buffer 5 message_type.METRICS two_events
        protocol_compression_method.GZIP = none ∧
      set_flush_interval none 10 = none ∧
      handle_uncompressed_sample protocol_handler.construct null_buffer_env 5 two_events 10
        protocol_compression_method.GZIP = none ∧
      (transmit protocol_handler.construct null_buffer_env message_type.METRICS 1 two_events
        item_priority.BQ_PRIORITY_MEDIUM 5).m_log = ["NULL converting message to item"] := by
  decide

end protohandler

/-! ## Theorems about the filters -/

namespace libsinsp

/-- The value of a list of bytes is below `256` to the power of their number. -/
theorem le_value_lt (l : List Nat) : le_value l < 256 ^ l.length := by
  induction l with
  | nil => exact Nat.one_pos
  | cons b rest ih =>
    show b % 256 + 256 * le_value rest < 256 ^ (rest.length + 1)
    have hb : b % 256 < 256 := Nat.mod_lt _ (by decide)
    rw [Nat.pow_succ]
    omega

/-- An object of `n` bytes read from memory is below `256 ^ n`. -/
theorem read_unsigned_lt {n : Nat} {mem : List Nat} {v : Nat}
    (h : read_unsigned n mem = some v) : v < 256 ^ n := by
  unfold read_unsigned at h
  by_cases hl : mem.length < n
  · rw [if_pos hl] at h
    exact absurd h (by simp)
  · rw [if_neg hl] at h
    cases h
    have := le_value_lt (mem.take n)
    rw [List.length_take, Nat.min_eq_left (by omega)] at this
    exact this

/-- A byte read through a pointer to `int8_t` and converted to `uint64_t`: the values from
128 on are moved to the top of the 64-bit range. -/
theorem to_uint64_as_signed_1 (v : Nat) (h : v < 256) :
    to_uint64 (as_signed 1 v) = if v < 128 then v else v + (2 ^ 64 - 256) := by
  unfold to_uint64 as_signed
  by_cases hv : v < 128
  · rw [if_pos (by omega), if_pos hv]
    omega
  · rw [if_neg (by omega), if_neg hv]
    omega

/-- Two bytes read through a pointer to `int16_t` and converted to `uint64_t`. -/
theorem to_uint64_as_signed_2 (v : Nat) (h : v < 65536) :
    to_uint64 (as_signed 2 v) = if v < 32768 then v else v + (2 ^ 64 - 65536) := by
  unfold to_uint64 as_signed
  by_cases hv : v < 32768
  · rw [if_pos (by omega), if_pos hv]
    omega
  · rw [if_neg (by omega), if_neg hv]
    omega

/-- Four bytes read through a pointer to `int32_t` and converted to `uint64_t`. -/
theorem to_uint64_as_signed_4 (v : Nat) (h : v < 4294967296) :
    to_uint64 (as_signed 4 v) = if v < 2147483648 then v else v + (2 ^ 64 - 4294967296) := by
  unfold to_uint64 as_signed
  by_cases hv : v < 2147483648
  · rw [if_pos (by omega), if_pos hv]
    omega
  · rw [if_neg (by omega), if_neg hv]
    omega

/-- Reading an unsigned integer of one, two or four bytes through a pointer to the signed
integer of that size and converting it to `uint64_t` keeps the order and the equality of
the unsigned values. -/
theorem sign_extension_order (n : Nat) (hn : n = 1 ∨ n = 2 ∨ n = 4) (v1 v2 : Nat)
    (h1 : v1 < 256 ^ n) (h2 : v2 < 256 ^ n) :
    (to_uint64 (as_signed n v1) < to_uint64 (as_signed n v2) ↔ v1 < v2) ∧
      (to_uint64 (as_signed n v1) = to_uint64 (as_signed n v2) ↔ v1 = v2) := by
  rcases hn with hn | hn | hn
  · subst hn
    rw [to_uint64_as_signed_1 v1 (by omega), to_uint64_as_signed_1 v2 (by omega)]
    split_ifs <;> omega
  · subst hn
    rw [to_uint64_as_signed_2 v1 (by omega), to_uint64_as_signed_2 v2 (by omega)]
    split_ifs <;> omega
  · subst hn
    rw [to_uint64_as_signed_4 v1 (by omega), to_uint64_as_signed_4 v2 (by omega)]
    split_ifs <;> omega

/-- The function `flt_compare_uint64` on two values that are ordered and equal as two others
are gives the comparison of the others. -/
theorem flt_compare_uint64_of_order (e1 e2 v1 v2 : Nat) (hlt : e1 < e2 ↔ v1 < v2)
    (heq : e1 = e2 ↔ v1 = v2) (op : ppm_cmp_operator) (b : Bool)
    (hop : compare_unsigned op v1 v2 = some b) :
    flt_compare_uint64 op e1 e2 = outcome.returns b 0 := by
  cases op with
  | CO_NONE => exact absurd hop (by simp [compare_unsigned])
  | CO_CONTAINS => exact absurd hop (by simp [compare_unsigned])
  | CO_EQ =>
    have hb : decide (v1 = v2) = b := Option.some.inj hop
    show outcome.returns (decide (e1 = e2)) 0 = _
    rw [← hb, decide_eq_decide.mpr heq]
  | CO_NE =>
    have hb : decide (v1 ≠ v2) = b := Option.some.inj hop
    show outcome.returns (decide (e1 ≠ e2)) 0 = _
    rw [← hb, decide_eq_decide.mpr (not_congr heq)]
  | CO_LT =>
    have hb : decide (v1 < v2) = b := Option.some.inj hop
    show outcome.returns (decide (e1 < e2)) 0 = _
    rw [← hb, decide_eq_decide.mpr hlt]
  | CO_LE =>
    have hb : decide (v1 ≤ v2) = b := Option.some.inj hop
    show outcome.returns (decide (e1 ≤ e2)) 0 = _
    rw [← hb, decide_eq_decide.mpr (show e1 ≤ e2 ↔ v1 ≤ v2 by omega)]
  | CO_GT =>
    have hb : decide (v1 > v2) = b := Option.some.inj hop
    show outcome.returns (decide (e1 > e2)) 0 = _
    rw [← hb, decide_eq_decide.mpr (show e1 > e2 ↔ v1 > v2 by omega)]
  | CO_GE =>
    have hb : decide (v1 ≥ v2) = b := Option.some.inj hop
    show outcome.returns (decide (e1 ≥ e2)) 0 = _
    rw [← hb, decide_eq_decide.mpr (show e1 ≥ e2 ↔ v1 ≥ v2 by omega)]

/-- C28: for operands of the types `PT_UINT8`, `PT_UINT16` and `PT_UINT32`, which
`flt_compare` reads through pointers to signed integers and converts to 64 bits, and for each
of the six comparison operators, `flt_compare` returns what the comparison of the two
operands as unsigned integers of their size gives, without a failed assertion. -/
theorem flt_compare_narrow_unsigned (op_string : ppm_cmp_operator → String)
    (op : ppm_cmp_operator) (type : ppm_param_type) (n : Nat) (operand1 operand2 : List Nat)
    (v1 v2 : Nat) (b : Bool) (hn : narrow_size type = some n)
    (h1 : read_unsigned n operand1 = some v1) (h2 : read_unsigned n operand2 = some v2)
    (hop : compare_unsigned op v1 v2 = some b) :
    flt_compare op_string op type operand1 operand2 = some (outcome.returns b 0) := by
  have l1 := read_unsigned_lt h1
  have l2 := read_unsigned_lt h2
  cases type with
  | PT_UINT8 =>
    cases hn
    obtain ⟨o1, o2⟩ := sign_extension_order 1 (Or.inl rfl) v1 v2 l1 l2
    unfold flt_compare
    rw [h1, h2]
    exact congrArg some (flt_compare_uint64_of_order _ _ v1 v2 o1 o2 op b hop)
  | PT_UINT16 =>
    cases hn
    obtain ⟨o1, o2⟩ := sign_extension_order 2 (Or.inr (Or.inl rfl)) v1 v2 l1 l2
    unfold flt_compare
    rw [h1, h2]
    exact congrArg some (flt_compare_uint64_of_order _ _ v1 v2 o1 o2 op b hop)
  | PT_UINT32 =>
    cases hn
    obtain ⟨o1, o2⟩ := sign_extension_order 4 (Or.inr (Or.inr rfl)) v1 v2 l1 l2
    unfold flt_compare
    rw [h1, h2]
    exact congrArg some (flt_compare_uint64_of_order _ _ v1 v2 o1 o2 op b hop)
  | _ => exact absurd hn (by simp [narrow_size])

/-- C28 on examples: the bytes 200 and 100 as `PT_UINT8` with `CO_LT`, where the signed
reading of 200 is negative; the values 32768 and 32767 as `PT_UINT16` with `CO_GE`. The same
bytes 200 and 100 as `PT_INT8` compare the other way. -/
theorem flt_compare_narrow_unsigned_witness :
    (narrow_size ppm_param_type.PT_UINT8 = some 1 ∧ read_unsigned 1 [200] = some 200 ∧
        read_unsigned 1 [100] = some 100 ∧
        compare_unsigned ppm_cmp_operator.CO_LT 200 100 = some false) ∧
      flt_compare (fun _ => "") ppm_cmp_operator.CO_LT ppm_param_type.PT_UINT8 [200] [100] =
        some (outcome.returns false 0) ∧
      flt_compare (fun _ => "") ppm_cmp_operator.CO_GE ppm_param_type.PT_UINT16 [0, 128]
        [255, 127] = some (outcome.returns true 0) ∧
      flt_compare (fun _ => "") ppm_cmp_operator.CO_LT ppm_param_type.PT_INT8 [200] [100] =
        some (outcome.returns true 0) :=
  ⟨⟨rfl, rfl, rfl, rfl⟩,
    flt_compare_narrow_unsigned (fun _ => "") ppm_cmp_operator.CO_LT ppm_param_type.PT_UINT8 1
      [200] [100] 200 100 false rfl rfl rfl rfl,
    flt_compare_narrow_unsigned (fun _ => "") ppm_cmp_operator.CO_GE ppm_param_type.PT_UINT16 2
      [0, 128] [255, 127] 32768 32767 true rfl rfl rfl rfl,
    by decide⟩

/-- The body of the loop for a later check that is joined by one of the four later
operators. -/
theorem compare_step_later (evt : sinsp_evt) (st : compare_loop) (j : Nat)
    (chk : sinsp_filter_check) (hj : j ≠ 0) (h : is_later_op chk.m_boolop = true) :
    compare_step evt st j chk =
      { res := later_value st.res chk.m_boolop (chk.compare evt),
        evaluated := st.evaluated ++ [j], asserts := st.asserts } := by
  unfold compare_step later_value
  rw [if_neg hj]
  cases hop : chk.m_boolop with
  | BO_NONE => rw [hop] at h; exact absurd h (by decide)
  | BO_NOT => rw [hop] at h; exact absurd h (by decide)
  | BO_OR => rfl
  | BO_AND => rfl
  | BO_ORNOT => rfl
  | BO_ANDNOT => rfl

/-- The body of the loop for the first check, joined by `BO_NONE` or `BO_NOT`. -/
theorem compare_step_first (evt : sinsp_evt) (st : compare_loop) (chk : sinsp_filter_check)
    (h : is_first_op chk.m_boolop = true) :
    compare_step evt st 0 chk =
      { res := first_value chk.m_boolop (chk.compare evt),
        evaluated := st.evaluated ++ [0], asserts := st.asserts } := by
  unfold compare_step first_value
  rw [if_pos rfl]
  cases hop : chk.m_boolop with
  | BO_NONE => rfl
  | BO_NOT => rfl
  | BO_OR => rw [hop] at h; exact absurd h (by decide)
  | BO_AND => rw [hop] at h; exact absurd h (by decide)
  | BO_ORNOT => rw [hop] at h; exact absurd h (by decide)
  | BO_ANDNOT => rw [hop] at h; exact absurd h (by decide)

/-- The loop over later checks: the value is folded from left to right, every check is
evaluated, and no assertion fails. -/
theorem compare_from_later (evt : sinsp_evt) (rest : List sinsp_filter_check) :
    ∀ (j : Nat) (st : compare_loop), j ≠ 0 →
      rest.all (fun chk => is_later_op chk.m_boolop) = true →
      compare_from evt j rest st =
        { res := rest.foldl (fun r chk => later_value r chk.m_boolop (chk.compare evt)) st.res,
          evaluated := st.evaluated ++ List.range' j rest.length,
          asserts := st.asserts } := by
  induction rest with
  | nil =>
    intro j st _ _
    show st = _
    simp
  | cons chk rest ih =>
    intro j st hj hall
    rw [List.all_cons, Bool.and_eq_true] at hall
    show compare_from evt (j + 1) rest (compare_step evt st j chk) = _
    rw [compare_step_later evt st j chk hj hall.1, ih (j + 1) _ (Nat.succ_ne_zero j) hall.2]
    simp [List.range'_succ]

/-- C29: `sinsp_filter_expression::compare` returns the strict left-to-right fold of its
checks, without precedence between the operators. For fewer than `2 ^ 32` checks joined as the
parser joins them (the first by `BO_NONE` or `BO_NOT`, each later one by `BO_OR`, `BO_AND`,
`BO_ORNOT` or `BO_ANDNOT`), the first check gives the value, negated for `BO_NOT`, and each
later check with the value `c` changes the value `r` to `r ∨ c`, `r ∧ c`, `r ∨ ¬c` or
`r ∧ ¬c`; every check is evaluated, in order, and no assertion fails. An expression without
checks gives true, and `a or b and c` gives `(a or b) and c`. -/
theorem expression_compare_is_left_fold :
    (∀ (m_checks : List sinsp_filter_check) (evt : sinsp_evt),
      m_checks.length < 2 ^ 32 → well_joined m_checks = true →
        (sinsp_filter_expression.compare m_checks evt).res = strict_left_fold m_checks evt ∧
          (sinsp_filter_expression.compare m_checks evt).evaluated =
            List.range m_checks.length ∧
          (sinsp_filter_expression.compare m_checks evt).asserts = 0) ∧
      (∀ (r c : Bool),
        first_value boolop.BO_NONE c = c ∧ first_value boolop.BO_NOT c = (!c) ∧
          later_value r boolop.BO_OR c = (r || c) ∧ later_value r boolop.BO_AND c = (r && c) ∧
          later_value r boolop.BO_ORNOT c = (r || !c) ∧
          later_value r boolop.BO_ANDNOT c = (r && !c)) ∧
      (∀ evt : sinsp_evt, (sinsp_filter_expression.compare [] evt).res = true) ∧
      (∀ (a b c : sinsp_evt → Bool) (evt : sinsp_evt),
        (sinsp_filter_expression.compare
          [{ m_boolop := boolop.BO_NONE, compare := a },
            { m_boolop := boolop.BO_OR, compare := b },
            { m_boolop := boolop.BO_AND, compare := c }] evt).res =
          ((a evt || b evt) && c evt)) := by
  refine ⟨?_, fun r c => ⟨rfl, rfl, rfl, rfl, rfl, rfl⟩, fun _ => rfl, fun _ _ _ _ => rfl⟩
  intro m_checks evt hlen hwf
  unfold sinsp_filter_expression.compare
  rw [Nat.mod_eq_of_lt hlen, List.take_length]
  cases m_checks with
  | nil => exact ⟨rfl, rfl, rfl⟩
  | cons first rest =>
    have hw : is_first_op first.m_boolop = true ∧
        rest.all (fun chk => is_later_op chk.m_boolop) = true := by
      have h2 : (is_first_op first.m_boolop &&
          rest.all (fun chk => is_later_op chk.m_boolop)) = true := hwf
      rw [Bool.and_eq_true] at h2
      exact h2
    show (compare_from evt (0 + 1) rest (compare_step evt _ 0 first)).res = _ ∧
      (compare_from evt (0 + 1) rest (compare_step evt _ 0 first)).evaluated = _ ∧
      (compare_from evt (0 + 1) rest (compare_step evt _ 0 first)).asserts = _
    rw [compare_step_first evt _ first hw.1,
      compare_from_later evt rest (0 + 1) _ (Nat.succ_ne_zero 0) hw.2]
    refine ⟨rfl, ?_, rfl⟩
    show [] ++ [0] ++ List.range' (0 + 1) rest.length = List.range (rest.length + 1)
    rw [List.range_eq_range', List.range'_succ]
    rfl

/-- C29 on an example: with `a` true and `b` and `c` false, `a or b and c` gives false, the
value of `(a or b) and c`, where a precedence of `and` over `or` would give true; the three
checks are evaluated in order. -/
theorem expression_compare_is_left_fold_witness :
    ([constant_check boolop.BO_NONE true, constant_check boolop.BO_OR false,
        constant_check boolop.BO_AND false].length < 2 ^ 32 ∧
      well_joined [constant_check boolop.BO_NONE true, constant_check boolop.BO_OR false,
        constant_check boolop.BO_AND false] = true) ∧
      sinsp_filter_expression.compare
          [constant_check boolop.BO_NONE true, constant_check boolop.BO_OR false,
            constant_check boolop.BO_AND false] first_evt =
        { res := false, evaluated := [0, 1, 2], asserts := 0 } ∧
      strict_left_fold
          [constant_check boolop.BO_NONE true, constant_check boolop.BO_OR false,
            constant_check boolop.BO_AND false] first_evt = false ∧
      (true || (false && false)) = true := by
  have h := expression_compare_is_left_fold.1
    [constant_check boolop.BO_NONE true, constant_check boolop.BO_OR false,
      constant_check boolop.BO_AND false] first_evt (by decide) rfl
  exact ⟨⟨by decide, rfl⟩, by decide, h.1.symm.trans (by decide), rfl⟩

end libsinsp
